import Mathlib

/-!
# Referential-integrity engine of the document-storage backend (`srv`)

Shallow embedding of `srv/models` and `srv/api` (the three `api2go` CRUD resources
over a `gorm` store), followed by theorems about the controllers.

Conventions of the embedding:
* `uuid.UUID` is a natural number, `uuid.Nil` is `0`; `uuid.Parse` (third-party) is a
  parameter `parse : String → Option UUID`, `uuid.New()` is a parameter `newID`.
* `time.Time` is a natural number whose zero value is `0`; `gorm.DeletedAt` is an
  `Option Time` (`none` = SQL NULL = not deleted); the clock is a parameter `now`.
* a table is the list of its rows, soft-deleted rows included; a controller is a function
  from the store to a result and the store afterwards.
* the association fields of the models (`User`, `Parent`, `Folders`, `Documents`, `Folder`)
  carry `json:"-"`, are never loaded or written by the controllers, and are left out.
* the store (`gorm` over a relational engine) is outside src/; its statements are modelled
  in namespace `gorm` from section 4.2 of the spec and the `gorm` statements the controllers
  issue. It enforces what the model tags declare: primary keys and the two `unique` columns
  of `User`; every statement is atomic, a failing one writes nothing. Engine-specific checks
  (column sizes, foreign keys) are not modelled.
-/

namespace Srv

/-- Identifier type `uuid.UUID`. -/
abbrev UUID := Nat

/-- The nil identifier `uuid.Nil`. -/
def uuid.Nil : UUID := 0

/-- Instants `time.Time`; the zero value is `0`. -/
abbrev Time := Nat

/-! ## srv/models -/

/-- Row type `models.User`. -/
structure User where
  ID : UUID
  Username : String
  Email : String
  CreatedAt : Time
  UpdatedAt : Time
  DeletedAt : Option Time
  deriving DecidableEq, Repr

/-- Row type `models.Folder`. -/
structure Folder where
  ID : UUID
  Name : String
  UserID : UUID
  ParentID : Option UUID
  CreatedAt : Time
  UpdatedAt : Time
  DeletedAt : Option Time
  deriving DecidableEq, Repr

/-- Row type `models.Document`. -/
structure Document where
  ID : UUID
  Title : String
  Content : String
  UserID : UUID
  FolderID : Option UUID
  CreatedAt : Time
  UpdatedAt : Time
  DeletedAt : Option Time
  deriving DecidableEq, Repr

/-- Hook `(*User).BeforeCreate`: a nil id is replaced by `uuid.New()`. -/
def User.BeforeCreate (newID : UUID) (u : User) : User :=
  if u.ID = uuid.Nil then { u with ID := newID } else u

/-- Hook `(*Folder).BeforeCreate`: a nil id is replaced by `uuid.New()`. -/
def Folder.BeforeCreate (newID : UUID) (f : Folder) : Folder :=
  if f.ID = uuid.Nil then { f with ID := newID } else f

/-- Hook `(*Document).BeforeCreate`: a nil id is replaced by `uuid.New()`. -/
def Document.BeforeCreate (newID : UUID) (d : Document) : Document :=
  if d.ID = uuid.Nil then { d with ID := newID } else d

/-! ## The store (`gorm.DB`) -/

/-- Errors of the store and of `uuid.Parse`. -/
inductive GoError where
  | InvalidUUID (s : String)
  | ErrRecordNotFound
  | ErrMissingWhereClause
  | ErrUniqueViolation (column : String)
  deriving DecidableEq, Repr

/-- Method `err.Error()`. -/
def GoError.Error : GoError → String
  | .InvalidUUID s => "invalid UUID: " ++ s
  | .ErrRecordNotFound => "record not found"
  | .ErrMissingWhereClause => "WHERE conditions required"
  | .ErrUniqueViolation column => "UNIQUE constraint failed: " ++ column

/-- What `gorm` reads from the schema of a model: key, timestamps, soft-delete column,
the `BeforeCreate` hook and the columns tagged `unique`. -/
class Model (α : Type) where
  pk : String
  ID : α → UUID
  CreatedAt : α → Time
  UpdatedAt : α → Time
  DeletedAt : α → Option Time
  setCreatedAt : Time → α → α
  setUpdatedAt : Time → α → α
  setDeletedAt : Option Time → α → α
  BeforeCreate : UUID → α → α
  uniques : α → List (String × String)

instance : Model User where
  pk := "users.id"
  ID := User.ID
  CreatedAt := User.CreatedAt
  UpdatedAt := User.UpdatedAt
  DeletedAt := User.DeletedAt
  setCreatedAt t u := { u with CreatedAt := t }
  setUpdatedAt t u := { u with UpdatedAt := t }
  setDeletedAt t u := { u with DeletedAt := t }
  BeforeCreate := User.BeforeCreate
  uniques u := [("users.username", u.Username), ("users.email", u.Email)]

instance : Model Folder where
  pk := "folders.id"
  ID := Folder.ID
  CreatedAt := Folder.CreatedAt
  UpdatedAt := Folder.UpdatedAt
  DeletedAt := Folder.DeletedAt
  setCreatedAt t f := { f with CreatedAt := t }
  setUpdatedAt t f := { f with UpdatedAt := t }
  setDeletedAt t f := { f with DeletedAt := t }
  BeforeCreate := Folder.BeforeCreate
  uniques _ := []

instance : Model Document where
  pk := "documents.id"
  ID := Document.ID
  CreatedAt := Document.CreatedAt
  UpdatedAt := Document.UpdatedAt
  DeletedAt := Document.DeletedAt
  setCreatedAt t d := { d with CreatedAt := t }
  setUpdatedAt t d := { d with UpdatedAt := t }
  setDeletedAt t d := { d with DeletedAt := t }
  BeforeCreate := Document.BeforeCreate
  uniques _ := []

/-- Store state: the three tables, soft-deleted rows included. -/
structure DB where
  users : List User
  folders : List Folder
  documents : List Document
  deriving DecidableEq, Repr

namespace gorm

variable {α : Type} [Model α]

/-- Modelled from the spec: the soft-delete scope of the store (`gorm`, a library outside
src/): a soft-deleted record is "excluded from default reads", that is `deleted_at IS NULL`
is added to every scoped statement. -/
def live (r : α) : Bool := (Model.DeletedAt r).isNone

/-- Modelled from the spec: store operation `FindAll(entityType, predicate list)` (4.2), the
`gorm` statement `db.Where(p).Find(&rows)`: the live rows that satisfy the predicates. -/
def Find (rows : List α) (p : α → Bool) : List α :=
  rows.filter (fun r => live r && p r)

/-- Modelled from the spec: store operation `Count(entityType, predicate list)` (4.2), the
`gorm` statement `db.Model(&T).Where(p).Count(&n)`. -/
def Count (rows : List α) (p : α → Bool) : Nat :=
  (Find rows p).length

/-- Modelled from the spec: store operation `FindByID(entityType, id)` (4.2), the `gorm`
statement `db.First(&row, "id = ?", id)`: the live row with this key, or
`gorm.ErrRecordNotFound`. -/
def First (rows : List α) (id : UUID) : Except GoError α :=
  match rows.find? (fun r => live r && Model.ID r == id) with
  | some r => .ok r
  | none => .error .ErrRecordNotFound

/-- Modelled from the spec: the uniqueness constraints of the store on an INSERT (4.1 "the
Store's uniqueness constraint is the backstop", 4.2 "a unique field (username/email)
collides"): the primary key, then the columns tagged `unique`, over all rows. -/
def insertViolation (rows : List α) (x : α) : Option GoError :=
  if rows.any (fun r => Model.ID r == Model.ID x) then
    some (.ErrUniqueViolation (Model.pk α))
  else
    match (Model.uniques x).find? (fun kv => rows.any (fun r => (Model.uniques r).contains kv)) with
    | some kv => some (.ErrUniqueViolation kv.1)
    | none => none

/-- Modelled from the spec: the uniqueness constraints of the store on an UPDATE of the row
keyed like `x`: the columns tagged `unique` against the rows with another key. -/
def updateViolation (rows : List α) (x : α) : Option GoError :=
  match (Model.uniques x).find? (fun kv =>
      rows.any (fun r => Model.ID r != Model.ID x && (Model.uniques r).contains kv)) with
  | some kv => some (.ErrUniqueViolation kv.1)
  | none => none

/-- Modelled from the spec: the row the store writes on creation (3, 4.1): the id is
assigned by the `BeforeCreate` hook "immediately before the first persistence write" and the
"creation/update timestamps [are] assigned by the store" (`gorm` sets `created_at` and
`updated_at` to now when they are zero). -/
def prepareCreate (now : Time) (newID : UUID) (x : α) : α :=
  let x1 := Model.BeforeCreate newID x
  let x2 := if Model.CreatedAt x1 = 0 then Model.setCreatedAt now x1 else x1
  if Model.UpdatedAt x2 = 0 then Model.setUpdatedAt now x2 else x2

/-- Modelled from the spec: store operation `Create(entity) -> (entity, error)` (4.2), the
`gorm` statement `db.Create(&x)`: hook and timestamps, then the INSERT, which fails on a
uniqueness violation and then writes nothing. Returns the row as written back into `x` and
the new table. Other failures of the engine (a value over a declared column size, a lost
connection) are not part of this statement; a controller answers them like the violation,
with its 500 branch, which `storeCallsSucceed` excludes. -/
def Create (now : Time) (newID : UUID) (rows : List α) (x : α) : Except GoError (α × List α) :=
  let x1 := prepareCreate now newID x
  match insertViolation rows x1 with
  | some e => .error e
  | none => .ok (x1, rows ++ [x1])

/-- Modelled from the spec: store operation `Save(entity) -> (entity, error)` "(full
replace ...)" (4.2), the `gorm` statement `db.Save(&x)`: with a zero primary key it is
`Create`; otherwise an UPDATE of every column but the key of the live row with that key
(`updated_at` set to now), and, when no row was affected, an INSERT .. ON CONFLICT (key) DO
UPDATE of every column, hooks skipped. A failing statement writes nothing. -/
def Save (now : Time) (newID : UUID) (rows : List α) (x : α) : Except GoError (α × List α) :=
  if Model.ID x = uuid.Nil then Create now newID rows x
  else
    let x1 := Model.setUpdatedAt now x
    if rows.any (fun r => live r && Model.ID r == Model.ID x) then
      match updateViolation rows x1 with
      | some e => .error e
      | none => .ok (x1, rows.map (fun r => if live r && Model.ID r == Model.ID x then x1 else r))
    else
      let x2 := if Model.CreatedAt x1 = 0 then Model.setCreatedAt now x1 else x1
      match updateViolation rows x2 with
      | some e => .error e
      | none =>
        if rows.any (fun r => Model.ID r == Model.ID x) then
          .ok (x2, rows.map (fun r => if Model.ID r == Model.ID x then x2 else r))
        else .ok (x2, rows ++ [x2])

/-- Modelled from the spec: store operation `Delete(entity) -> error` (4.2) as a soft delete
("marking a record as deleted without physically removing it"), the `gorm` statement
`db.Delete(&x)`: `deleted_at` of the live row keyed like `x` is set to now; with a zero
primary key the statement has no condition and `gorm` refuses it
(`gorm.ErrMissingWhereClause`). -/
def Delete (now : Time) (rows : List α) (x : α) : Except GoError (List α) :=
  if Model.ID x = uuid.Nil then .error .ErrMissingWhereClause
  else .ok (rows.map (fun r =>
    if live r && Model.ID r == Model.ID x then Model.setDeletedAt (some now) r else r))

end gorm

/-! ## srv/api -/

/-- Error value built by `api2go.NewHTTPError(err, msg, status)`. -/
structure HTTPError where
  err : Option GoError
  msg : String
  status : Nat
  deriving DecidableEq, Repr

/-- Constructor `api2go.NewHTTPError`. -/
def NewHTTPError (err : Option GoError) (msg : String) (status : Nat) : HTTPError :=
  { err := err, msg := msg, status := status }

/-- Responder `api2go.Response` (fields `Res` and `Code`). -/
structure Response (α : Type) where
  Res : Option α
  Code : Nat
  deriving DecidableEq, Repr

/-- Request `api2go.Request`: only `QueryParams` is read. -/
structure Request where
  QueryParams : List (String × List String)
  deriving DecidableEq, Repr

/-- The `obj interface{}` argument of `Create` and `Update`. -/
inductive Obj where
  | User (u : User)
  | Folder (f : Folder)
  | Document (d : Document)
  | Other
  deriving DecidableEq, Repr

/-- Status codes of `net/http` used by the controllers. -/
def StatusOK : Nat := 200
/-- Code `http.StatusCreated`. -/
def StatusCreated : Nat := 201
/-- Code `http.StatusNoContent`. -/
def StatusNoContent : Nat := 204
/-- Code `http.StatusBadRequest`. -/
def StatusBadRequest : Nat := 400
/-- Code `http.StatusNotFound`. -/
def StatusNotFound : Nat := 404
/-- Code `http.StatusInternalServerError`. -/
def StatusInternalServerError : Nat := 500

/-- The branch taken by every controller on a failed store call: 404 with `notFound` for
`gorm.ErrRecordNotFound`, 500 with the error text otherwise. -/
def lookupError (err : GoError) (notFound : String) : HTTPError :=
  if err = .ErrRecordNotFound then NewHTTPError (some err) notFound StatusNotFound
  else NewHTTPError (some err) err.Error StatusInternalServerError

/-- The branch taken on a failed write: 500 with the error text. -/
def storeError (err : GoError) : HTTPError :=
  NewHTTPError (some err) err.Error StatusInternalServerError

/-- Query parameter lookup `v, ok := req.QueryParams[key]; ok && len(v) > 0`, giving `v[0]`. -/
def Request.param (req : Request) (key : String) : Option String :=
  match req.QueryParams.lookup key with
  | some (v :: _) => some v
  | _ => none

deriving instance DecidableEq for Except

/-- Result of a controller call: the responder or the error, and the store afterwards. -/
abbrev Outcome (α : Type) := Except HTTPError (Response α) × DB

namespace FolderResource

/-- Controller `FolderResource.FindAll`. -/
def FindAll (parse : String → Option UUID) (db : DB) (req : Request) :
    Except HTTPError (Response (List Folder)) :=
  let byUser : Except HTTPError (Folder → Bool) :=
    match req.param "user_id" with
    | some userID =>
      match parse userID with
      | none => .error (NewHTTPError (some (.InvalidUUID userID)) "Invalid user ID" StatusBadRequest)
      | some id => .ok (fun f => f.UserID == id)
    | none => .ok (fun _ => true)
  match byUser with
  | .error e => .error e
  | .ok p1 =>
    let byParent : Except HTTPError (Folder → Bool) :=
      match req.param "parent_id" with
      | some parentID =>
        if parentID = "null" then .ok (fun f => f.ParentID.isNone)
        else
          match parse parentID with
          | none =>
            .error (NewHTTPError (some (.InvalidUUID parentID)) "Invalid parent ID" StatusBadRequest)
          | some id => .ok (fun f => f.ParentID == some id)
      | none => .ok (fun _ => true)
    match byParent with
    | .error e => .error e
    | .ok p2 => .ok { Res := some (gorm.Find db.folders (fun f => p1 f && p2 f)), Code := 0 }

/-- Controller `FolderResource.FindOne`. -/
def FindOne (parse : String → Option UUID) (db : DB) (id : String) :
    Except HTTPError (Response Folder) :=
  match parse id with
  | none => .error (NewHTTPError (some (.InvalidUUID id)) "Invalid folder ID" StatusBadRequest)
  | some uuid =>
    match gorm.First db.folders uuid with
    | .error err => .error (lookupError err "Folder not found")
    | .ok folder => .ok { Res := some folder, Code := 0 }

/-- Controller `FolderResource.Create`. -/
def Create (now : Time) (newID : UUID) (db : DB) (obj : Obj) : Outcome Folder :=
  match obj with
  | .Folder folder =>
    match gorm.First db.users folder.UserID with
    | .error err => (.error (lookupError err "User not found"), db)
    | .ok _ =>
      let parentCheck : Option HTTPError :=
        match folder.ParentID with
        | some parentID =>
          match gorm.First db.folders parentID with
          | .error err => some (lookupError err "Parent folder not found")
          | .ok _ => none
        | none => none
      match parentCheck with
      | some e => (.error e, db)
      | none =>
        match gorm.Create now newID db.folders folder with
        | .error err => (.error (storeError err), db)
        | .ok (created, rows) =>
          (.ok { Res := some created, Code := StatusCreated }, { db with folders := rows })
  | _ => (.error (NewHTTPError none "Invalid instance given" StatusBadRequest), db)

/-- Controller `FolderResource.Delete`. -/
def Delete (parse : String → Option UUID) (now : Time) (db : DB) (id : String) : Outcome Folder :=
  match parse id with
  | none => (.error (NewHTTPError (some (.InvalidUUID id)) "Invalid folder ID" StatusBadRequest), db)
  | some uuid =>
    match gorm.First db.folders uuid with
    | .error err => (.error (lookupError err "Folder not found"), db)
    | .ok folder =>
      let subfolderCount := gorm.Count db.folders (fun f => f.ParentID == some uuid)
      if subfolderCount > 0 then
        (.error (NewHTTPError none "Cannot delete folder with subfolders" StatusBadRequest), db)
      else
        let documentCount := gorm.Count db.documents (fun d => d.FolderID == some uuid)
        if documentCount > 0 then
          (.error (NewHTTPError none "Cannot delete folder with documents" StatusBadRequest), db)
        else
          match gorm.Delete now db.folders folder with
          | .error err => (.error (storeError err), db)
          | .ok rows => (.ok { Res := none, Code := StatusNoContent }, { db with folders := rows })

/-- Controller `FolderResource.Update`. -/
def Update (now : Time) (newID : UUID) (db : DB) (obj : Obj) : Outcome Folder :=
  match obj with
  | .Folder folder =>
    match gorm.First db.folders folder.ID with
    | .error err => (.error (lookupError err "Folder not found"), db)
    | .ok existingFolder =>
      let parentCheck : Option HTTPError :=
        match folder.ParentID with
        | some parentID =>
          if parentID = folder.ID then
            some (NewHTTPError none "Folder cannot be its own parent" StatusBadRequest)
          else
            match gorm.First db.folders parentID with
            | .error err => some (lookupError err "Parent folder not found")
            | .ok _ => none
        | none => none
      match parentCheck with
      | some e => (.error e, db)
      | none =>
        let folder := { folder with UserID := existingFolder.UserID }
        match gorm.Save now newID db.folders folder with
        | .error err => (.error (storeError err), db)
        | .ok (saved, rows) =>
          (.ok { Res := some saved, Code := StatusOK }, { db with folders := rows })
  | _ => (.error (NewHTTPError none "Invalid instance given" StatusBadRequest), db)

end FolderResource

namespace DocumentResource

/-- Controller `DocumentResource.FindAll`. -/
def FindAll (parse : String → Option UUID) (db : DB) (req : Request) :
    Except HTTPError (Response (List Document)) :=
  let byUser : Except HTTPError (Document → Bool) :=
    match req.param "user_id" with
    | some userID =>
      match parse userID with
      | none => .error (NewHTTPError (some (.InvalidUUID userID)) "Invalid user ID" StatusBadRequest)
      | some id => .ok (fun d => d.UserID == id)
    | none => .ok (fun _ => true)
  match byUser with
  | .error e => .error e
  | .ok p1 =>
    let byFolder : Except HTTPError (Document → Bool) :=
      match req.param "folder_id" with
      | some folderID =>
        if folderID = "null" then .ok (fun d => d.FolderID.isNone)
        else
          match parse folderID with
          | none =>
            .error (NewHTTPError (some (.InvalidUUID folderID)) "Invalid folder ID" StatusBadRequest)
          | some id => .ok (fun d => d.FolderID == some id)
      | none => .ok (fun _ => true)
    match byFolder with
    | .error e => .error e
    | .ok p2 => .ok { Res := some (gorm.Find db.documents (fun d => p1 d && p2 d)), Code := 0 }

/-- Controller `DocumentResource.FindOne`. -/
def FindOne (parse : String → Option UUID) (db : DB) (id : String) :
    Except HTTPError (Response Document) :=
  match parse id with
  | none => .error (NewHTTPError (some (.InvalidUUID id)) "Invalid document ID" StatusBadRequest)
  | some uuid =>
    match gorm.First db.documents uuid with
    | .error err => .error (lookupError err "Document not found")
    | .ok document => .ok { Res := some document, Code := 0 }

/-- Controller `DocumentResource.Create`. -/
def Create (now : Time) (newID : UUID) (db : DB) (obj : Obj) : Outcome Document :=
  match obj with
  | .Document document =>
    match gorm.First db.users document.UserID with
    | .error err => (.error (lookupError err "User not found"), db)
    | .ok _ =>
      let folderCheck : Option HTTPError :=
        match document.FolderID with
        | some folderID =>
          match gorm.First db.folders folderID with
          | .error err => some (lookupError err "Folder not found")
          | .ok folder =>
            if folder.UserID ≠ document.UserID then
              some (NewHTTPError none "Folder does not belong to the user" StatusBadRequest)
            else none
        | none => none
      match folderCheck with
      | some e => (.error e, db)
      | none =>
        match gorm.Create now newID db.documents document with
        | .error err => (.error (storeError err), db)
        | .ok (created, rows) =>
          (.ok { Res := some created, Code := StatusCreated }, { db with documents := rows })
  | _ => (.error (NewHTTPError none "Invalid instance given" StatusBadRequest), db)

/-- Controller `DocumentResource.Delete`. -/
def Delete (parse : String → Option UUID) (now : Time) (db : DB) (id : String) :
    Outcome Document :=
  match parse id with
  | none =>
    (.error (NewHTTPError (some (.InvalidUUID id)) "Invalid document ID" StatusBadRequest), db)
  | some uuid =>
    match gorm.First db.documents uuid with
    | .error err => (.error (lookupError err "Document not found"), db)
    | .ok document =>
      match gorm.Delete now db.documents document with
      | .error err => (.error (storeError err), db)
      | .ok rows => (.ok { Res := none, Code := StatusNoContent }, { db with documents := rows })

/-- Controller `DocumentResource.Update`. -/
def Update (now : Time) (newID : UUID) (db : DB) (obj : Obj) : Outcome Document :=
  match obj with
  | .Document document =>
    match gorm.First db.documents document.ID with
    | .error err => (.error (lookupError err "Document not found"), db)
    | .ok existingDocument =>
      let folderCheck : Option HTTPError :=
        match document.FolderID with
        | some folderID =>
          match gorm.First db.folders folderID with
          | .error err => some (lookupError err "Folder not found")
          | .ok folder =>
            if folder.UserID ≠ existingDocument.UserID then
              some (NewHTTPError none "Folder does not belong to the user" StatusBadRequest)
            else none
        | none => none
      match folderCheck with
      | some e => (.error e, db)
      | none =>
        let document := { document with UserID := existingDocument.UserID }
        match gorm.Save now newID db.documents document with
        | .error err => (.error (storeError err), db)
        | .ok (saved, rows) =>
          (.ok { Res := some saved, Code := StatusOK }, { db with documents := rows })
  | _ => (.error (NewHTTPError none "Invalid instance given" StatusBadRequest), db)

end DocumentResource

namespace UserResource

/-- Controller `UserResource.FindAll`: the query is `Unscoped`, soft-deleted rows included. -/
def FindAll (db : DB) (_req : Request) : Except HTTPError (Response (List User)) :=
  .ok { Res := some db.users, Code := 0 }

/-- Controller `UserResource.FindOne`. -/
def FindOne (parse : String → Option UUID) (db : DB) (id : String) :
    Except HTTPError (Response User) :=
  match parse id with
  | none => .error (NewHTTPError (some (.InvalidUUID id)) "Invalid user ID" StatusBadRequest)
  | some uuid =>
    match gorm.First db.users uuid with
    | .error err => .error (lookupError err "User not found")
    | .ok user => .ok { Res := some user, Code := 0 }

/-- Controller `UserResource.Create`. -/
def Create (now : Time) (newID : UUID) (db : DB) (obj : Obj) : Outcome User :=
  match obj with
  | .User user =>
    match gorm.Create now newID db.users user with
    | .error err => (.error (storeError err), db)
    | .ok (created, rows) =>
      (.ok { Res := some created, Code := StatusCreated }, { db with users := rows })
  | _ => (.error (NewHTTPError none "Invalid instance given" StatusBadRequest), db)

/-- Controller `UserResource.Delete`. -/
def Delete (parse : String → Option UUID) (now : Time) (db : DB) (id : String) : Outcome User :=
  match parse id with
  | none => (.error (NewHTTPError (some (.InvalidUUID id)) "Invalid user ID" StatusBadRequest), db)
  | some uuid =>
    match gorm.First db.users uuid with
    | .error err => (.error (lookupError err "User not found"), db)
    | .ok user =>
      match gorm.Delete now db.users user with
      | .error err => (.error (storeError err), db)
      | .ok rows => (.ok { Res := none, Code := StatusNoContent }, { db with users := rows })

/-- Controller `UserResource.Update`. -/
def Update (now : Time) (newID : UUID) (db : DB) (obj : Obj) : Outcome User :=
  match obj with
  | .User user =>
    match gorm.First db.users user.ID with
    | .error err => (.error (lookupError err "User not found"), db)
    | .ok _ =>
      match gorm.Save now newID db.users user with
      | .error err => (.error (storeError err), db)
      | .ok (saved, rows) =>
        (.ok { Res := some saved, Code := StatusOK }, { db with users := rows })
  | _ => (.error (NewHTTPError none "Invalid instance given" StatusBadRequest), db)

end UserResource

/-! ## Vocabulary of the statements and example stores -/

/-- No store call of the operation failed: the outcome is not a 500-class error, the status
under which every controller reports a failed store call. -/
def storeCallsSucceed {α : Type} (o : Outcome α) : Bool :=
  match o.1 with
  | .error e => e.status != StatusInternalServerError
  | .ok _ => true

/-- The operation succeeded. -/
def succeeded {α : Type} (o : Outcome α) : Bool :=
  match o.1 with
  | .error _ => false
  | .ok _ => true

/-- A concrete identifier syntax to instantiate `parse` in the examples: a non-empty decimal
numeral. In particular the filter sentinel "null" is not an identifier. -/
def parseDecimal (s : String) : Option UUID :=
  if s.data ≠ [] ∧ s.data.all Char.isDigit = true then
    some (s.data.foldl (fun n c => 10 * n + (c.toNat - 48)) 0)
  else none

/-- The test store of `TestFolderResource_CRUD` before the `Delete` subtest: the test user,
the folder of the `Create` subtest, the test folder and its child folder. -/
def folderTestStore : DB :=
  { users := [{ ID := 1, Username := "testuser", Email := "test@example.com",
                CreatedAt := 1, UpdatedAt := 1, DeletedAt := none }],
    folders := [{ ID := 2, Name := "Test Folder", UserID := 1, ParentID := none,
                  CreatedAt := 2, UpdatedAt := 2, DeletedAt := none },
                { ID := 3, Name := "Updated Folder", UserID := 1, ParentID := none,
                  CreatedAt := 0, UpdatedAt := 5, DeletedAt := none },
                { ID := 4, Name := "Child Folder", UserID := 1, ParentID := some 3,
                  CreatedAt := 4, UpdatedAt := 4, DeletedAt := none }],
    documents := [] }

/-- A store with two users, one folder each, and one document of user 1 in user 1's folder. -/
def libraryStore : DB :=
  { users := [{ ID := 1, Username := "alice", Email := "alice@example.com",
                CreatedAt := 1, UpdatedAt := 1, DeletedAt := none },
              { ID := 2, Username := "bob", Email := "bob@example.com",
                CreatedAt := 1, UpdatedAt := 1, DeletedAt := none }],
    folders := [{ ID := 3, Name := "Alice", UserID := 1, ParentID := none,
                  CreatedAt := 2, UpdatedAt := 2, DeletedAt := none },
                { ID := 4, Name := "Bob", UserID := 2, ParentID := none,
                  CreatedAt := 2, UpdatedAt := 2, DeletedAt := none }],
    documents := [{ ID := 5, Title := "Notes", Content := "first", UserID := 1,
                    FolderID := some 3, CreatedAt := 3, UpdatedAt := 3, DeletedAt := none }] }

/-- A live (not soft-deleted) user with this id is stored. -/
def DB.hasUser (db : DB) (id : UUID) : Prop :=
  ∃ u ∈ db.users, u.DeletedAt = none ∧ u.ID = id

/-- A live (not soft-deleted) folder with this id is stored. -/
def DB.hasFolder (db : DB) (id : UUID) : Prop :=
  ∃ f ∈ db.folders, f.DeletedAt = none ∧ f.ID = id

instance (db : DB) (id : UUID) : Decidable (db.hasUser id) := by
  unfold DB.hasUser; infer_instance

instance (db : DB) (id : UUID) : Decidable (db.hasFolder id) := by
  unfold DB.hasFolder; infer_instance

/-- The entities a folder listing must return, in the words of the spec: not deleted,
`user_id` equal to the given id when that filter is supplied, `parent_id` unset when the
filter value is the literal "null" and equal to the given id otherwise; an absent filter
places no restriction. -/
def folderListed (parse : String → Option UUID) (req : Request) (f : Folder) : Bool :=
  f.DeletedAt.isNone &&
  (match req.param "user_id" with
   | none => true
   | some s => some f.UserID == parse s) &&
  (match req.param "parent_id" with
   | none => true
   | some s => if s = "null" then f.ParentID.isNone else (parse s).isSome && f.ParentID == parse s)

/-- The entities a document listing must return, in the words of the spec (as for folders,
with `folder_id` in the place of `parent_id`). -/
def documentListed (parse : String → Option UUID) (req : Request) (d : Document) : Bool :=
  d.DeletedAt.isNone &&
  (match req.param "user_id" with
   | none => true
   | some s => some d.UserID == parse s) &&
  (match req.param "folder_id" with
   | none => true
   | some s => if s = "null" then d.FolderID.isNone else (parse s).isSome && d.FolderID == parse s)

/-- Every supplied filter value is usable: `user_id` is an identifier, and the value under
`key` (`parent_id` or `folder_id`) is the sentinel "null" or an identifier. -/
def filtersParse (parse : String → Option UUID) (req : Request) (key : String) : Bool :=
  (match req.param "user_id" with
   | none => true
   | some s => (parse s).isSome) &&
  (match req.param key with
   | none => true
   | some s => s == "null" || (parse s).isSome)

/-- The request of the `NestedFolders` subtest: `parent_id` is the test folder. -/
def nestedFoldersRequest : Request :=
  { QueryParams := [("parent_id", ["3"])] }

/-- A failed operation left the store as it was. -/
def failureLeavesStore {α : Type} (db : DB) (o : Outcome α) : Prop :=
  ∀ e, o.1 = .error e → o.2 = db

/-- Error kind InvalidArgument: a 400 that wraps a failed `uuid.Parse`. -/
def HTTPError.isInvalidArgument (e : HTTPError) : Bool :=
  e.status == StatusBadRequest &&
    (match e.err with
     | some (.InvalidUUID _) => true
     | _ => false)

/-! ### Sequences of controller calls -/

/-- The empty store. -/
def DB.empty : DB :=
  { users := [], folders := [], documents := [] }

/-- One mutating controller call with what it draws from its environment: the clock, the
value of `uuid.New()`, and its argument. (`FindAll` and `FindOne` issue no writing statement
and are left out of the sequences.) -/
inductive Op where
  | UserCreate (now : Time) (newID : UUID) (obj : Obj)
  | UserUpdate (now : Time) (newID : UUID) (obj : Obj)
  | UserDelete (now : Time) (id : String)
  | FolderCreate (now : Time) (newID : UUID) (obj : Obj)
  | FolderUpdate (now : Time) (newID : UUID) (obj : Obj)
  | FolderDelete (now : Time) (id : String)
  | DocumentCreate (now : Time) (newID : UUID) (obj : Obj)
  | DocumentUpdate (now : Time) (newID : UUID) (obj : Obj)
  | DocumentDelete (now : Time) (id : String)
  deriving DecidableEq, Repr

/-- The store after one controller call. -/
def Op.apply (parse : String → Option UUID) (db : DB) : Op → DB
  | .UserCreate now newID obj => (UserResource.Create now newID db obj).2
  | .UserUpdate now newID obj => (UserResource.Update now newID db obj).2
  | .UserDelete now id => (UserResource.Delete parse now db id).2
  | .FolderCreate now newID obj => (FolderResource.Create now newID db obj).2
  | .FolderUpdate now newID obj => (FolderResource.Update now newID db obj).2
  | .FolderDelete now id => (FolderResource.Delete parse now db id).2
  | .DocumentCreate now newID obj => (DocumentResource.Create now newID db obj).2
  | .DocumentUpdate now newID obj => (DocumentResource.Update now newID db obj).2
  | .DocumentDelete now id => (DocumentResource.Delete parse now db id).2

/-- Whether one controller call succeeded. -/
def Op.succeeds (parse : String → Option UUID) (db : DB) : Op → Bool
  | .UserCreate now newID obj => succeeded (UserResource.Create now newID db obj)
  | .UserUpdate now newID obj => succeeded (UserResource.Update now newID db obj)
  | .UserDelete now id => succeeded (UserResource.Delete parse now db id)
  | .FolderCreate now newID obj => succeeded (FolderResource.Create now newID db obj)
  | .FolderUpdate now newID obj => succeeded (FolderResource.Update now newID db obj)
  | .FolderDelete now id => succeeded (FolderResource.Delete parse now db id)
  | .DocumentCreate now newID obj => succeeded (DocumentResource.Create now newID db obj)
  | .DocumentUpdate now newID obj => succeeded (DocumentResource.Update now newID db obj)
  | .DocumentDelete now id => succeeded (DocumentResource.Delete parse now db id)

/-- The value the call draws from `uuid.New()` is not the nil UUID (a version-4 UUID has its
version bits set, so the generator never yields `uuid.Nil`). -/
def Op.freshID : Op → Bool
  | .UserCreate _ newID _ => newID != uuid.Nil
  | .UserUpdate _ newID _ => newID != uuid.Nil
  | .FolderCreate _ newID _ => newID != uuid.Nil
  | .FolderUpdate _ newID _ => newID != uuid.Nil
  | .DocumentCreate _ newID _ => newID != uuid.Nil
  | .DocumentUpdate _ newID _ => newID != uuid.Nil
  | _ => true

/-- The store after a sequence of controller calls. -/
def run (parse : String → Option UUID) (ops : List Op) (db : DB) : DB :=
  ops.foldl (Op.apply parse) db

/-- Every call of the sequence succeeded. -/
def allSucceed (parse : String → Option UUID) : List Op → DB → Bool
  | [], _ => true
  | op :: ops, db => op.succeeds parse db && allSucceed parse ops (op.apply parse db)

/-- Store states reachable from the empty store by a sequence of controller calls. -/
def Reachable (parse : String → Option UUID) (db : DB) : Prop :=
  ∃ ops : List Op, (∀ op ∈ ops, op.freshID = true) ∧ run parse ops DB.empty = db

/-! ### Integrity of the folder and document graph -/

/-- Every non-deleted document whose `folder_id` is set references a non-deleted folder whose
owner equals the document's owner. -/
def DB.documentsWellPlaced (db : DB) : Bool :=
  db.documents.all fun d =>
    d.DeletedAt.isSome ||
      match d.FolderID with
      | none => true
      | some fid =>
        db.folders.any fun f => f.DeletedAt.isNone && f.ID == fid && f.UserID == d.UserID

/-- Every non-deleted folder whose `parent_id` is set references a non-deleted folder. -/
def DB.foldersWellParented (db : DB) : Bool :=
  db.folders.all fun f =>
    f.DeletedAt.isSome ||
      match f.ParentID with
      | none => true
      | some p => db.folders.any fun g => g.DeletedAt.isNone && g.ID == p

/-- One step of the parent relation: a non-deleted folder with id `a` has `parent_id = b`. -/
def DB.parentEdge (db : DB) (a b : UUID) : Prop :=
  ∃ f ∈ db.folders, f.DeletedAt = none ∧ f.ID = a ∧ f.ParentID = some b

instance (db : DB) (a b : UUID) : Decidable (db.parentEdge a b) := by
  unfold DB.parentEdge; infer_instance

/-- Some folder is reachable from itself by following `parent_id` one or more times. -/
def DB.hasParentCycle (db : DB) : Prop :=
  ∃ a, Relation.TransGen db.parentEdge a a

/-- No stored folder, deleted or not, has `parent_id` equal to its own id. -/
def DB.noSelfParent (db : DB) : Prop :=
  ∀ f ∈ db.folders, f.ParentID ≠ some f.ID

/-- Calls that end with an update of folder 2 whose candidate carries `deleted_at`: a user,
the folder 2, its child folder 3, a document 4 in folder 2, then the update. -/
def softDeletingUpdateCalls : List Op :=
  [ .UserCreate 1 1 (.User { ID := 0, Username := "alice", Email := "alice@example.com",
                             CreatedAt := 0, UpdatedAt := 0, DeletedAt := none }),
    .FolderCreate 2 2 (.Folder { ID := 0, Name := "Inbox", UserID := 1, ParentID := none,
                                 CreatedAt := 0, UpdatedAt := 0, DeletedAt := none }),
    .FolderCreate 3 3 (.Folder { ID := 0, Name := "Sub", UserID := 1, ParentID := some 2,
                                 CreatedAt := 0, UpdatedAt := 0, DeletedAt := none }),
    .DocumentCreate 4 4 (.Document { ID := 0, Title := "Notes", Content := "text", UserID := 1,
                                     FolderID := some 2, CreatedAt := 0, UpdatedAt := 0,
                                     DeletedAt := none }),
    .FolderUpdate 5 9 (.Folder { ID := 2, Name := "Inbox", UserID := 1, ParentID := none,
                                 CreatedAt := 2, UpdatedAt := 2, DeletedAt := some 5 }) ]

/-- Calls that make two folders each other's parent: a user, the root folders 2 and 3, then
the update of 2 to parent 3 and the update of 3 to parent 2. -/
def mutualParentCalls : List Op :=
  [ .UserCreate 1 1 (.User { ID := 0, Username := "alice", Email := "alice@example.com",
                             CreatedAt := 0, UpdatedAt := 0, DeletedAt := none }),
    .FolderCreate 2 2 (.Folder { ID := 0, Name := "A", UserID := 1, ParentID := none,
                                 CreatedAt := 0, UpdatedAt := 0, DeletedAt := none }),
    .FolderCreate 3 3 (.Folder { ID := 0, Name := "B", UserID := 1, ParentID := none,
                                 CreatedAt := 0, UpdatedAt := 0, DeletedAt := none }),
    .FolderUpdate 4 9 (.Folder { ID := 2, Name := "A", UserID := 1, ParentID := some 3,
                                 CreatedAt := 2, UpdatedAt := 2, DeletedAt := none }),
    .FolderUpdate 5 9 (.Folder { ID := 3, Name := "B", UserID := 1, ParentID := some 2,
                                 CreatedAt := 3, UpdatedAt := 3, DeletedAt := none }) ]

/-- No stored folder has the nil UUID as id. -/
def DB.folderKeysSet (db : DB) : Prop :=
  ∀ f ∈ db.folders, f.ID ≠ uuid.Nil

/-! ### Deleted entities -/

/-- The setters of a model leave the key alone, `setUpdatedAt` leaves the soft-delete column
alone and `setDeletedAt` sets it. -/
class LawfulModel (α : Type) [Model α] : Prop where
  ID_setUpdatedAt : ∀ (t : Time) (x : α), Model.ID (Model.setUpdatedAt t x) = Model.ID x
  DeletedAt_setUpdatedAt :
    ∀ (t : Time) (x : α), Model.DeletedAt (Model.setUpdatedAt t x) = Model.DeletedAt x
  ID_setDeletedAt : ∀ (t : Option Time) (x : α), Model.ID (Model.setDeletedAt t x) = Model.ID x
  DeletedAt_setDeletedAt :
    ∀ (t : Option Time) (x : α), Model.DeletedAt (Model.setDeletedAt t x) = t

instance : LawfulModel User where
  ID_setUpdatedAt _ _ := rfl
  DeletedAt_setUpdatedAt _ _ := rfl
  ID_setDeletedAt _ _ := rfl
  DeletedAt_setDeletedAt _ _ := rfl

instance : LawfulModel Folder where
  ID_setUpdatedAt _ _ := rfl
  DeletedAt_setUpdatedAt _ _ := rfl
  ID_setDeletedAt _ _ := rfl
  DeletedAt_setDeletedAt _ _ := rfl

instance : LawfulModel Document where
  ID_setUpdatedAt _ _ := rfl
  DeletedAt_setUpdatedAt _ _ := rfl
  ID_setDeletedAt _ _ := rfl
  DeletedAt_setDeletedAt _ _ := rfl

/-- The id `i` is taken in the table and every row with id `i` is soft-deleted: the entity
with id `i` is in state Deleted. -/
def buried {α : Type} [Model α] (i : UUID) (rows : List α) : Prop :=
  (∃ r ∈ rows, Model.ID r = i) ∧ ∀ r ∈ rows, Model.ID r = i → Model.DeletedAt r ≠ none

/-- Calls that try to bring document 5 back after its deletion: an update with its id, a
creation with its id, a second deletion. -/
def reviveAttempts : List Op :=
  [ .DocumentUpdate 10 98 (.Document { ID := 5, Title := "Back", Content := "", UserID := 1,
                                       FolderID := none, CreatedAt := 0, UpdatedAt := 0,
                                       DeletedAt := none }),
    .DocumentCreate 11 99 (.Document { ID := 5, Title := "Back", Content := "", UserID := 1,
                                       FolderID := none, CreatedAt := 0, UpdatedAt := 0,
                                       DeletedAt := none }),
    .DocumentDelete 12 "5" ]

/-- A store in which folder 2 holds both a child folder (3) and a document (4). -/
def nestedStore : DB :=
  { users := [{ ID := 1, Username := "alice", Email := "alice@example.com",
                CreatedAt := 1, UpdatedAt := 1, DeletedAt := none }],
    folders := [{ ID := 2, Name := "Inbox", UserID := 1, ParentID := none,
                  CreatedAt := 2, UpdatedAt := 2, DeletedAt := none },
                { ID := 3, Name := "Sub", UserID := 1, ParentID := some 2,
                  CreatedAt := 3, UpdatedAt := 3, DeletedAt := none }],
    documents := [{ ID := 4, Title := "Notes", Content := "text", UserID := 1,
                    FolderID := some 2, CreatedAt := 4, UpdatedAt := 4, DeletedAt := none }] }

/-- No row of the table has the nil UUID as key. -/
def keysSet {α : Type} [Model α] (rows : List α) : Prop :=
  ∀ r ∈ rows, Model.ID r ≠ uuid.Nil

/-- The call is not a folder update whose candidate carries `deleted_at`. -/
def Op.leavesDeletedAt : Op → Bool
  | .FolderUpdate _ _ (.Folder c) => c.DeletedAt.isNone
  | _ => true

/-- Every non-deleted folder whose `parent_id` is set references a non-deleted folder, as a
proposition. -/
def DB.parentsLive (db : DB) : Prop :=
  ∀ f ∈ db.folders, f.DeletedAt = none → ∀ p, f.ParentID = some p → db.hasFolder p

/-! ## Facts about the store statements -/

namespace gorm

variable {α : Type} [Model α]

theorem live_iff (r : α) : live r = true ↔ Model.DeletedAt r = none := by
  unfold live
  cases Model.DeletedAt r <;> simp

theorem First_error_eq {rows : List α} {id : UUID} {e : GoError}
    (h : First rows id = .error e) : e = .ErrRecordNotFound := by
  unfold First at h
  split at h
  · cases h
  · cases h; rfl

theorem First_ok_spec {rows : List α} {id : UUID} {r : α}
    (h : First rows id = .ok r) : r ∈ rows ∧ Model.DeletedAt r = none ∧ Model.ID r = id := by
  unfold First at h
  split at h
  · rename_i x hx
    cases h
    have hm := List.mem_of_find?_eq_some hx
    have hp := List.find?_some hx
    simp only [Bool.and_eq_true, beq_iff_eq, live_iff] at hp
    exact ⟨hm, hp.1, hp.2⟩
  · cases h

theorem First_ok_of_exists (rows : List α) (id : UUID)
    (h : ∃ r ∈ rows, Model.DeletedAt r = none ∧ Model.ID r = id) :
    ∃ r, First rows id = .ok r := by
  obtain ⟨r, hr, hd, hi⟩ := h
  unfold First
  cases hf : rows.find? (fun r => live r && Model.ID r == id) with
  | some x => exact ⟨x, rfl⟩
  | none =>
    rw [List.find?_eq_none] at hf
    have := hf r hr
    simp [(live_iff r).2 hd, hi] at this

theorem First_error_iff {rows : List α} {id : UUID} :
    (∃ e, First rows id = .error e) ↔ ∀ r ∈ rows, Model.DeletedAt r = none → Model.ID r ≠ id := by
  constructor
  · rintro ⟨e, he⟩ r hr hd hi
    obtain ⟨x, hx⟩ := First_ok_of_exists rows id ⟨r, hr, hd, hi⟩
    rw [hx] at he
    cases he
  · intro h
    cases hf : First rows id with
    | error e => exact ⟨e, rfl⟩
    | ok x =>
      obtain ⟨hm, hd, hi⟩ := First_ok_spec hf
      exact absurd hi (h x hm hd)

theorem Count_eq_zero_iff {rows : List α} {p : α → Bool} :
    Count rows p = 0 ↔ ∀ r ∈ rows, Model.DeletedAt r = none → p r = false := by
  unfold Count Find
  rw [List.length_eq_zero, List.filter_eq_nil_iff]
  constructor
  · intro h r hr hd
    have := h r hr
    simpa [(live_iff r).2 hd] using this
  · intro h r hr
    cases hl : live r with
    | false => simp
    | true => simp [h r hr ((live_iff r).1 hl)]

end gorm

/-! ## Folder deletion -/

theorem Delete_folder_cases (parse : String → Option UUID) (now : Time) (db : DB) (id : String)
    (uid : UUID) (f : Folder) (hid : parse id = some uid)
    (hf : gorm.First db.folders uid = .ok f) :
    FolderResource.Delete parse now db id =
      if gorm.Count db.folders (fun c => c.ParentID == some uid) > 0 then
        (.error (NewHTTPError none "Cannot delete folder with subfolders" StatusBadRequest), db)
      else if gorm.Count db.documents (fun d => d.FolderID == some uid) > 0 then
        (.error (NewHTTPError none "Cannot delete folder with documents" StatusBadRequest), db)
      else if uid = uuid.Nil then
        (.error (storeError .ErrMissingWhereClause), db)
      else
        (.ok { Res := none, Code := StatusNoContent },
          { db with folders := db.folders.map (fun r =>
              if gorm.live r && r.ID == uid then { r with DeletedAt := some now } else r) }) := by
  have hfi : f.ID = uid := (gorm.First_ok_spec hf).2.2
  unfold FolderResource.Delete
  simp only [hid, hf]
  by_cases h1 : gorm.Count db.folders (fun c => c.ParentID == some uid) > 0
  · simp only [h1, if_true]
  · simp only [h1, if_false]
    by_cases h2 : gorm.Count db.documents (fun d => d.FolderID == some uid) > 0
    · simp only [h2, if_true]
    · simp only [h2, if_false]
      unfold gorm.Delete
      by_cases h3 : uid = uuid.Nil
      · have h4 : Model.ID f = uuid.Nil := by rw [← h3]; exact hfi
        simp only [h4, h3, if_true]
      · have h4 : ¬ Model.ID f = uuid.Nil := by
          intro h; exact h3 (hfi.symm.trans h)
        have h5 : Model.ID f = uid := hfi
        simp only [h4, h3, if_false, h5]
        rfl

/-- C1. For every store state and every existing (not soft-deleted) folder `f`, when no store
call fails, `FolderResource.Delete` of `f`'s id succeeds if and only if no live folder has
`parent_id = f.id` and no live document has `folder_id = f.id`. -/
theorem C1_folder_delete_succeeds_iff_empty (parse : String → Option UUID) (now : Time) (db : DB)
    (id : String) (f : Folder) (hf : f ∈ db.folders) (hlive : f.DeletedAt = none)
    (hid : parse id = some f.ID)
    (hstore : storeCallsSucceed (FolderResource.Delete parse now db id) = true) :
    succeeded (FolderResource.Delete parse now db id) = true ↔
      ((∀ c ∈ db.folders, c.DeletedAt = none → c.ParentID ≠ some f.ID) ∧
        (∀ d ∈ db.documents, d.DeletedAt = none → d.FolderID ≠ some f.ID)) := by
  obtain ⟨f', hf'⟩ := gorm.First_ok_of_exists db.folders f.ID ⟨f, hf, hlive, rfl⟩
  have hsub : gorm.Count db.folders (fun c => c.ParentID == some f.ID) = 0 ↔
      ∀ c ∈ db.folders, c.DeletedAt = none → c.ParentID ≠ some f.ID := by
    rw [gorm.Count_eq_zero_iff]
    constructor
    · intro h c hc hd he
      have := h c hc hd
      simp [he] at this
    · intro h c hc hd
      have := h c hc hd
      simpa using this
  have hdoc : gorm.Count db.documents (fun d => d.FolderID == some f.ID) = 0 ↔
      ∀ d ∈ db.documents, d.DeletedAt = none → d.FolderID ≠ some f.ID := by
    rw [gorm.Count_eq_zero_iff]
    constructor
    · intro h d hd hl he
      have := h d hd hl
      simp [he] at this
    · intro h d hd hl
      have := h d hd hl
      simpa using this
  rw [← hsub, ← hdoc]
  rw [Delete_folder_cases parse now db id f.ID f' hid hf'] at hstore ⊢
  by_cases h1 : gorm.Count db.folders (fun c => c.ParentID == some f.ID) > 0
  · simp only [h1, if_true, succeeded]
    constructor
    · intro h; cases h
    · intro h; omega
  · simp only [h1, if_false] at hstore ⊢
    by_cases h2 : gorm.Count db.documents (fun d => d.FolderID == some f.ID) > 0
    · simp only [h2, if_true, succeeded]
      constructor
      · intro h; cases h
      · intro h; omega
    · simp only [h2, if_false] at hstore ⊢
      by_cases h3 : f.ID = uuid.Nil
      · simp only [h3, if_true, storeCallsSucceed, storeError, NewHTTPError] at hstore
        simp at hstore
      · simp only [h3, if_false, succeeded]
        constructor
        · intro _; omega
        · intro _; trivial

/-- C1, witness: deleting the childless, empty folder 2 of the test store. -/
theorem C1_folder_delete_succeeds_iff_empty_witness :
    succeeded (FolderResource.Delete parseDecimal 6 folderTestStore "2") = true ↔
      ((∀ c ∈ folderTestStore.folders, c.DeletedAt = none → c.ParentID ≠ some 2) ∧
        (∀ d ∈ folderTestStore.documents, d.DeletedAt = none → d.FolderID ≠ some 2)) :=
  C1_folder_delete_succeeds_iff_empty parseDecimal 6 folderTestStore "2"
    { ID := 2, Name := "Test Folder", UserID := 1, ParentID := none,
      CreatedAt := 2, UpdatedAt := 2, DeletedAt := none }
    (by decide) rfl (by decide) (by decide)

theorem Count_id_after_softDelete (rows : List Folder) (uid : UUID) (now : Time) :
    gorm.Count (rows.map (fun r =>
      if gorm.live r && r.ID == uid then { r with DeletedAt := some now } else r))
      (fun r => r.ID == uid) = 0 := by
  rw [gorm.Count_eq_zero_iff]
  intro r hr hd
  rw [List.mem_map] at hr
  obtain ⟨r0, _, hr0⟩ := hr
  by_cases hc : (gorm.live r0 && r0.ID == uid) = true
  · rw [if_pos hc] at hr0
    rw [← hr0] at hd
    cases hd
  · rw [if_neg hc] at hr0
    rw [hr0] at hc
    have hl : gorm.live r = true := (gorm.live_iff r).2 hd
    simpa [hl] using hc

/-- C2, at the failing input: on the store of the `Delete` subtest the test folder 3 exists
and is still the parent of the child folder 4 of the `NestedFolders` subtest; `Delete` of its
id answers 400 "Cannot delete folder with subfolders" where the subtest requires 204, and the
folder is still counted once where the subtest requires a count of 0. -/
theorem C2_delete_subtest_refused :
    gorm.First folderTestStore.folders 3 =
        .ok { ID := 3, Name := "Updated Folder", UserID := 1, ParentID := none,
              CreatedAt := 0, UpdatedAt := 5, DeletedAt := none } ∧
      gorm.Find folderTestStore.folders (fun c => c.ParentID == some 3) =
        [{ ID := 4, Name := "Child Folder", UserID := 1, ParentID := some 3,
           CreatedAt := 4, UpdatedAt := 4, DeletedAt := none }] ∧
      FolderResource.Delete parseDecimal 6 folderTestStore "3" =
        (.error (NewHTTPError none "Cannot delete folder with subfolders" StatusBadRequest),
          folderTestStore) ∧
      gorm.Count (FolderResource.Delete parseDecimal 6 folderTestStore "3").2.folders
        (fun r => r.ID == 3) = 1 := by
  decide

/-- `FolderResource.Delete` of the id of an existing folder: with no live child folder and no
live document (and no failing store call) it returns 204 and afterwards no live folder has
that id; with a live child folder it fails with 400 "Cannot delete folder with subfolders"
and the store is unchanged. -/
theorem Delete_existing_folder (parse : String → Option UUID) (now : Time) (db : DB)
    (id : String) (f : Folder) (hf : f ∈ db.folders) (hlive : f.DeletedAt = none)
    (hid : parse id = some f.ID) :
    ((∀ c ∈ db.folders, c.DeletedAt = none → c.ParentID ≠ some f.ID) →
      (∀ d ∈ db.documents, d.DeletedAt = none → d.FolderID ≠ some f.ID) →
      storeCallsSucceed (FolderResource.Delete parse now db id) = true →
        (FolderResource.Delete parse now db id).1 = .ok { Res := none, Code := StatusNoContent } ∧
        gorm.Count (FolderResource.Delete parse now db id).2.folders (fun r => r.ID == f.ID) = 0) ∧
    ((∃ c ∈ db.folders, c.DeletedAt = none ∧ c.ParentID = some f.ID) →
      FolderResource.Delete parse now db id =
        (.error (NewHTTPError none "Cannot delete folder with subfolders" StatusBadRequest), db)) := by
  obtain ⟨f', hf'⟩ := gorm.First_ok_of_exists db.folders f.ID ⟨f, hf, hlive, rfl⟩
  rw [Delete_folder_cases parse now db id f.ID f' hid hf']
  constructor
  · intro hsub hdoc hstore
    have h1 : gorm.Count db.folders (fun c => c.ParentID == some f.ID) = 0 := by
      rw [gorm.Count_eq_zero_iff]
      intro c hc hd
      simpa using hsub c hc hd
    have h2 : gorm.Count db.documents (fun d => d.FolderID == some f.ID) = 0 := by
      rw [gorm.Count_eq_zero_iff]
      intro d hd hl
      simpa using hdoc d hd hl
    simp only [h1, h2, gt_iff_lt, lt_self_iff_false, if_false] at hstore ⊢
    by_cases h3 : f.ID = uuid.Nil
    · simp only [h3, if_true, storeCallsSucceed, storeError, NewHTTPError] at hstore
      simp at hstore
    · simp only [h3, if_false]
      exact ⟨trivial, Count_id_after_softDelete db.folders f.ID now⟩
  · rintro ⟨c, hc, hd, hp⟩
    have h1 : gorm.Count db.folders (fun c => c.ParentID == some f.ID) > 0 := by
      rcases Nat.eq_zero_or_pos (gorm.Count db.folders (fun c => c.ParentID == some f.ID)) with h | h
      · rw [gorm.Count_eq_zero_iff] at h
        have := h c hc hd
        simp [hp] at this
      · exact h
    simp only [h1, if_true]

/-- The empty folder 2 of the test store is deleted with 204 and no longer counted. -/
theorem Delete_existing_folder_example :
    (FolderResource.Delete parseDecimal 6 folderTestStore "2").1 =
        .ok { Res := none, Code := StatusNoContent } ∧
      gorm.Count (FolderResource.Delete parseDecimal 6 folderTestStore "2").2.folders
        (fun r => r.ID == 2) = 0 :=
  (Delete_existing_folder parseDecimal 6 folderTestStore "2"
    { ID := 2, Name := "Test Folder", UserID := 1, ParentID := none,
      CreatedAt := 2, UpdatedAt := 2, DeletedAt := none }
    (by decide) rfl (by decide)).1 (by decide) (by decide) (by decide)

/-! ## Folder and document update -/

/-- C3, as stated, fails when the candidate's id names no folder: the existence check runs
first and the answer is 404 "Folder not found", not the self-parent error. -/
theorem C3_self_parent_counterexample :
    FolderResource.Update 6 99 folderTestStore
        (.Folder { ID := 9, Name := "Nine", UserID := 1, ParentID := some 9,
                   CreatedAt := 0, UpdatedAt := 0, DeletedAt := none }) =
      (.error (NewHTTPError (some .ErrRecordNotFound) "Folder not found" StatusNotFound),
        folderTestStore) := by
  decide

/-- C3, amended. For every store state and every folder update candidate whose id names an
existing folder and whose `parent_id` equals its own id, `FolderResource.Update` fails with
400 "Folder cannot be its own parent", whatever the candidate's other fields, and the store
is unchanged. -/
theorem C3_update_self_parent_rejected (now : Time) (newID : UUID) (db : DB) (c : Folder)
    (hex : ∃ f ∈ db.folders, f.DeletedAt = none ∧ f.ID = c.ID)
    (hself : c.ParentID = some c.ID) :
    FolderResource.Update now newID db (.Folder c) =
      (.error (NewHTTPError none "Folder cannot be its own parent" StatusBadRequest), db) := by
  obtain ⟨E, hE⟩ := gorm.First_ok_of_exists db.folders c.ID hex
  unfold FolderResource.Update
  simp only [hE, hself, if_true]

/-- C3, witness: renaming folder 3 of the test store while making it its own parent. -/
theorem C3_update_self_parent_rejected_witness :
    FolderResource.Update 6 99 folderTestStore
        (.Folder { ID := 3, Name := "Renamed", UserID := 7, ParentID := some 3,
                   CreatedAt := 0, UpdatedAt := 0, DeletedAt := none }) =
      (.error (NewHTTPError none "Folder cannot be its own parent" StatusBadRequest),
        folderTestStore) :=
  C3_update_self_parent_rejected 6 99 folderTestStore
    { ID := 3, Name := "Renamed", UserID := 7, ParentID := some 3,
      CreatedAt := 0, UpdatedAt := 0, DeletedAt := none }
    (by decide) rfl

theorem any_live_of_First {α : Type} [Model α] {rows : List α} {id : UUID} {E : α}
    (hE : gorm.First rows id = .ok E) :
    rows.any (fun r => gorm.live r && Model.ID r == id) = true := by
  obtain ⟨hm, hd, hi⟩ := gorm.First_ok_spec hE
  rw [List.any_eq_true]
  exact ⟨E, hm, by simp [(gorm.live_iff E).2 hd, hi]⟩

theorem prepareCreate_folder (now : Time) (newID : UUID) (c : Folder) :
    (gorm.prepareCreate now newID c).UserID = c.UserID ∧
      (gorm.prepareCreate now newID c).Name = c.Name ∧
      (gorm.prepareCreate now newID c).ParentID = c.ParentID ∧
      (gorm.prepareCreate now newID c).DeletedAt = c.DeletedAt ∧
      (gorm.prepareCreate now newID c).ID = (if c.ID = uuid.Nil then newID else c.ID) := by
  simp only [gorm.prepareCreate, Model.BeforeCreate, Model.CreatedAt, Model.UpdatedAt,
    Model.setCreatedAt, Model.setUpdatedAt, Folder.BeforeCreate]
  split_ifs <;> simp_all

theorem Create_folder_eq (now : Time) (newID : UUID) (rows : List Folder) (c : Folder) :
    gorm.Create now newID rows c =
      if rows.any (fun r => r.ID == (gorm.prepareCreate now newID c).ID) then
        .error (.ErrUniqueViolation "folders.id")
      else .ok (gorm.prepareCreate now newID c, rows ++ [gorm.prepareCreate now newID c]) := by
  simp only [gorm.Create, gorm.insertViolation, Model.ID, Model.uniques, Model.pk, List.find?_nil]
  split_ifs <;> rfl

theorem Create_folder_ok {now : Time} {newID : UUID} {rows rows' : List Folder} {c x : Folder}
    (h : gorm.Create now newID rows c = .ok (x, rows')) :
    x = gorm.prepareCreate now newID c ∧ rows' = rows ++ [x] ∧ ∀ r ∈ rows, r.ID ≠ x.ID := by
  rw [Create_folder_eq] at h
  split_ifs at h with hany
  simp only [Except.ok.injEq, Prod.mk.injEq] at h
  obtain ⟨hx, hr⟩ := h
  refine ⟨hx.symm, by rw [← hr, ← hx], ?_⟩
  intro r hr hid
  apply hany
  rw [List.any_eq_true]
  exact ⟨r, hr, by simpa [hx] using hid⟩

theorem Save_folder_of_First {rows : List Folder} {c E : Folder} (now : Time) (newID : UUID)
    (hE : gorm.First rows c.ID = .ok E) :
    gorm.Save now newID rows c =
      if c.ID = uuid.Nil then gorm.Create now newID rows c
      else .ok ({ c with UpdatedAt := now },
        rows.map (fun r => if gorm.live r && r.ID == c.ID then { c with UpdatedAt := now } else r)) := by
  have hany := any_live_of_First hE
  unfold gorm.Save
  by_cases h : c.ID = uuid.Nil
  · have h' : Model.ID c = uuid.Nil := h
    simp only [h, h', if_true]
  · have h' : ¬ Model.ID c = uuid.Nil := h
    have hany' : rows.any (fun r => gorm.live r && Model.ID r == Model.ID c) = true := hany
    simp only [h, h', if_false, hany', if_true]
    rfl

theorem Update_folder_ok {now : Time} {newID : UUID} {db db' : DB} {c E : Folder}
    {r : Response Folder} (hE : gorm.First db.folders c.ID = .ok E)
    (h : FolderResource.Update now newID db (.Folder c) = (.ok r, db')) :
    ∃ saved rows, gorm.Save now newID db.folders { c with UserID := E.UserID } = .ok (saved, rows) ∧
      r = { Res := some saved, Code := StatusOK } ∧ db' = { db with folders := rows } := by
  unfold FolderResource.Update at h
  simp only [hE] at h
  split at h
  · simp only [Prod.mk.injEq] at h
    cases h.1
  · split at h
    · simp only [Prod.mk.injEq] at h
      cases h.1
    · rename_i saved rows hs
      simp only [Prod.mk.injEq, Except.ok.injEq] at h
      exact ⟨saved, rows, hs, h.1.symm, h.2.symm⟩

theorem First_append_of_ok {α : Type} [Model α] {rows : List α} {id : UUID} {E : α}
    (more : List α) (hE : gorm.First rows id = .ok E) :
    gorm.First (rows ++ more) id = .ok E := by
  unfold gorm.First at hE ⊢
  rw [List.find?_append]
  cases hf : rows.find? (fun r => gorm.live r && Model.ID r == id) with
  | none => rw [hf] at hE; cases hE
  | some x => rw [hf] at hE; simpa using hE

theorem Save_folder_frame {now : Time} {newID : UUID} {rows rows' : List Folder}
    {c E saved : Folder} (hE : gorm.First rows c.ID = .ok E)
    (h : gorm.Save now newID rows { c with UserID := E.UserID } = .ok (saved, rows')) :
    saved.UserID = E.UserID ∧ saved ∈ rows' ∧ (∀ y ∈ rows', y ∈ rows ∨ y = saved) ∧
      (∀ y, gorm.First rows' c.ID = .ok y → y.UserID = E.UserID) := by
  have hE' : gorm.First rows ({ c with UserID := E.UserID } : Folder).ID = .ok E := hE
  rw [Save_folder_of_First now newID hE'] at h
  by_cases hnil : c.ID = uuid.Nil
  · simp only [hnil, if_true] at h
    obtain ⟨hx, hr, _⟩ := Create_folder_ok h
    have hu : saved.UserID = E.UserID := by
      rw [hx]; exact (prepareCreate_folder now newID _).1
    refine ⟨hu, by simp [hr], ?_, ?_⟩
    · intro y hy
      rw [hr, List.mem_append, List.mem_singleton] at hy
      exact hy
    · intro y hy
      rw [hr, First_append_of_ok [saved] hE] at hy
      cases hy
      rfl
  · simp only [hnil, if_false, Except.ok.injEq, Prod.mk.injEq] at h
    obtain ⟨hx, hr⟩ := h
    have hu : saved.UserID = E.UserID := by rw [← hx]
    obtain ⟨hm, hd, hi⟩ := gorm.First_ok_spec hE
    refine ⟨hu, ?_, ?_, ?_⟩
    · rw [← hr, List.mem_map]
      refine ⟨E, hm, ?_⟩
      have : (gorm.live E && E.ID == c.ID) = true := by
        simp [(gorm.live_iff E).2 hd]; exact hi
      rw [if_pos this, hx]
    · intro y hy
      rw [← hr, List.mem_map] at hy
      obtain ⟨r0, hr0, hy0⟩ := hy
      split_ifs at hy0
      · right; rw [← hy0, hx]
      · left; rw [← hy0]; exact hr0
    · intro y hy
      obtain ⟨hym, hyd, hyi⟩ := gorm.First_ok_spec hy
      rw [← hr, List.mem_map] at hym
      obtain ⟨r0, _, hy0⟩ := hym
      split_ifs at hy0 with hc
      · rw [← hy0]
      · exfalso
        rw [hy0] at hc
        apply hc
        simp [(gorm.live_iff y).2 hyd]; exact hyi

theorem prepareCreate_document (now : Time) (newID : UUID) (c : Document) :
    (gorm.prepareCreate now newID c).UserID = c.UserID ∧
      (gorm.prepareCreate now newID c).Title = c.Title ∧
      (gorm.prepareCreate now newID c).Content = c.Content ∧
      (gorm.prepareCreate now newID c).FolderID = c.FolderID ∧
      (gorm.prepareCreate now newID c).DeletedAt = c.DeletedAt ∧
      (gorm.prepareCreate now newID c).ID = (if c.ID = uuid.Nil then newID else c.ID) := by
  simp only [gorm.prepareCreate, Model.BeforeCreate, Model.CreatedAt, Model.UpdatedAt,
    Model.setCreatedAt, Model.setUpdatedAt, Document.BeforeCreate]
  split_ifs <;> simp_all

theorem Create_document_eq (now : Time) (newID : UUID) (rows : List Document) (c : Document) :
    gorm.Create now newID rows c =
      if rows.any (fun r => r.ID == (gorm.prepareCreate now newID c).ID) then
        .error (.ErrUniqueViolation "documents.id")
      else .ok (gorm.prepareCreate now newID c, rows ++ [gorm.prepareCreate now newID c]) := by
  simp only [gorm.Create, gorm.insertViolation, Model.ID, Model.uniques, Model.pk, List.find?_nil]
  split_ifs <;> rfl

theorem Create_document_ok {now : Time} {newID : UUID} {rows rows' : List Document}
    {c x : Document} (h : gorm.Create now newID rows c = .ok (x, rows')) :
    x = gorm.prepareCreate now newID c ∧ rows' = rows ++ [x] ∧ ∀ r ∈ rows, r.ID ≠ x.ID := by
  rw [Create_document_eq] at h
  split_ifs at h with hany
  simp only [Except.ok.injEq, Prod.mk.injEq] at h
  obtain ⟨hx, hr⟩ := h
  refine ⟨hx.symm, by rw [← hr, ← hx], ?_⟩
  intro r hr hid
  apply hany
  rw [List.any_eq_true]
  exact ⟨r, hr, by simpa [hx] using hid⟩

theorem Save_document_of_First {rows : List Document} {c E : Document} (now : Time)
    (newID : UUID) (hE : gorm.First rows c.ID = .ok E) :
    gorm.Save now newID rows c =
      if c.ID = uuid.Nil then gorm.Create now newID rows c
      else .ok ({ c with UpdatedAt := now },
        rows.map (fun r => if gorm.live r && r.ID == c.ID then { c with UpdatedAt := now } else r)) := by
  have hany := any_live_of_First hE
  unfold gorm.Save
  by_cases h : c.ID = uuid.Nil
  · have h' : Model.ID c = uuid.Nil := h
    simp only [h, h', if_true]
  · have h' : ¬ Model.ID c = uuid.Nil := h
    have hany' : rows.any (fun r => gorm.live r && Model.ID r == Model.ID c) = true := hany
    simp only [h, h', if_false, hany', if_true]
    rfl

theorem Update_document_ok {now : Time} {newID : UUID} {db db' : DB} {c E : Document}
    {r : Response Document} (hE : gorm.First db.documents c.ID = .ok E)
    (h : DocumentResource.Update now newID db (.Document c) = (.ok r, db')) :
    ∃ saved rows,
      gorm.Save now newID db.documents { c with UserID := E.UserID } = .ok (saved, rows) ∧
      r = { Res := some saved, Code := StatusOK } ∧ db' = { db with documents := rows } := by
  unfold DocumentResource.Update at h
  simp only [hE] at h
  split at h
  · simp only [Prod.mk.injEq] at h
    cases h.1
  · split at h
    · simp only [Prod.mk.injEq] at h
      cases h.1
    · rename_i saved rows hs
      simp only [Prod.mk.injEq, Except.ok.injEq] at h
      exact ⟨saved, rows, hs, h.1.symm, h.2.symm⟩

theorem Save_document_frame {now : Time} {newID : UUID} {rows rows' : List Document}
    {c E saved : Document} (hE : gorm.First rows c.ID = .ok E)
    (h : gorm.Save now newID rows { c with UserID := E.UserID } = .ok (saved, rows')) :
    saved.UserID = E.UserID ∧ saved ∈ rows' ∧ (∀ y ∈ rows', y ∈ rows ∨ y = saved) ∧
      (∀ y, gorm.First rows' c.ID = .ok y → y.UserID = E.UserID) := by
  have hE' : gorm.First rows ({ c with UserID := E.UserID } : Document).ID = .ok E := hE
  rw [Save_document_of_First now newID hE'] at h
  by_cases hnil : c.ID = uuid.Nil
  · simp only [hnil, if_true] at h
    obtain ⟨hx, hr, _⟩ := Create_document_ok h
    have hu : saved.UserID = E.UserID := by
      rw [hx]; exact (prepareCreate_document now newID _).1
    refine ⟨hu, by simp [hr], ?_, ?_⟩
    · intro y hy
      rw [hr, List.mem_append, List.mem_singleton] at hy
      exact hy
    · intro y hy
      rw [hr, First_append_of_ok [saved] hE] at hy
      cases hy
      rfl
  · simp only [hnil, if_false, Except.ok.injEq, Prod.mk.injEq] at h
    obtain ⟨hx, hr⟩ := h
    have hu : saved.UserID = E.UserID := by rw [← hx]
    obtain ⟨hm, hd, hi⟩ := gorm.First_ok_spec hE
    refine ⟨hu, ?_, ?_, ?_⟩
    · rw [← hr, List.mem_map]
      refine ⟨E, hm, ?_⟩
      have : (gorm.live E && E.ID == c.ID) = true := by
        simp [(gorm.live_iff E).2 hd]; exact hi
      rw [if_pos this, hx]
    · intro y hy
      rw [← hr, List.mem_map] at hy
      obtain ⟨r0, hr0, hy0⟩ := hy
      split_ifs at hy0
      · right; rw [← hy0, hx]
      · left; rw [← hy0]; exact hr0
    · intro y hy
      obtain ⟨hym, hyd, hyi⟩ := gorm.First_ok_spec hy
      rw [← hr, List.mem_map] at hym
      obtain ⟨r0, _, hy0⟩ := hym
      split_ifs at hy0 with hc
      · rw [← hy0]
      · exfalso
        rw [hy0] at hc
        apply hc
        simp [(gorm.live_iff y).2 hyd]; exact hyi

/-- C4. For an existing folder or document `E` (the record the store finds under the
candidate's id) and a candidate claiming any owner, a successful `Update` returns an entity
owned by `E`'s owner, that entity is stored, it is the only row that is new in the table, and
reading the candidate's id back yields `E`'s owner. -/
theorem C4_update_preserves_owner (now : Time) (newID : UUID) (db : DB) :
    (∀ (c E : Folder) (r : Response Folder), gorm.First db.folders c.ID = .ok E →
      (FolderResource.Update now newID db (.Folder c)).1 = .ok r →
      ∃ saved, r.Res = some saved ∧ saved.UserID = E.UserID ∧
        saved ∈ (FolderResource.Update now newID db (.Folder c)).2.folders ∧
        (∀ y ∈ (FolderResource.Update now newID db (.Folder c)).2.folders,
          y ∈ db.folders ∨ y = saved) ∧
        (∀ y, gorm.First (FolderResource.Update now newID db (.Folder c)).2.folders c.ID = .ok y →
          y.UserID = E.UserID)) ∧
    (∀ (c E : Document) (r : Response Document), gorm.First db.documents c.ID = .ok E →
      (DocumentResource.Update now newID db (.Document c)).1 = .ok r →
      ∃ saved, r.Res = some saved ∧ saved.UserID = E.UserID ∧
        saved ∈ (DocumentResource.Update now newID db (.Document c)).2.documents ∧
        (∀ y ∈ (DocumentResource.Update now newID db (.Document c)).2.documents,
          y ∈ db.documents ∨ y = saved) ∧
        (∀ y, gorm.First (DocumentResource.Update now newID db (.Document c)).2.documents c.ID
            = .ok y → y.UserID = E.UserID)) := by
  constructor
  · intro c E r hE hr
    have hpair : FolderResource.Update now newID db (.Folder c) =
        (.ok r, (FolderResource.Update now newID db (.Folder c)).2) := by
      rw [← hr]
    obtain ⟨saved, rows, hs, hres, hdb⟩ := Update_folder_ok hE hpair
    obtain ⟨h1, h2, h3, h4⟩ := Save_folder_frame hE hs
    rw [hdb]
    exact ⟨saved, by rw [hres], h1, h2, h3, h4⟩
  · intro c E r hE hr
    have hpair : DocumentResource.Update now newID db (.Document c) =
        (.ok r, (DocumentResource.Update now newID db (.Document c)).2) := by
      rw [← hr]
    obtain ⟨saved, rows, hs, hres, hdb⟩ := Update_document_ok hE hpair
    obtain ⟨h1, h2, h3, h4⟩ := Save_document_frame hE hs
    rw [hdb]
    exact ⟨saved, by rw [hres], h1, h2, h3, h4⟩

/-- C4, witness: user 2 is claimed as owner of folder 3 and of document 5, both owned by
user 1; the updates succeed and the saved entities are owned by user 1. -/
theorem C4_update_preserves_owner_witness :
    (∃ saved : Folder, saved.UserID = 1 ∧
      (FolderResource.Update 9 99 libraryStore
        (.Folder { ID := 3, Name := "Mine", UserID := 2, ParentID := none,
                   CreatedAt := 0, UpdatedAt := 0, DeletedAt := none })).1 =
        .ok { Res := some saved, Code := StatusOK }) ∧
    (∃ saved : Document, saved.UserID = 1 ∧
      (DocumentResource.Update 9 99 libraryStore
        (.Document { ID := 5, Title := "Mine", Content := "", UserID := 2, FolderID := none,
                     CreatedAt := 0, UpdatedAt := 0, DeletedAt := none })).1 =
        .ok { Res := some saved, Code := StatusOK }) := by
  have hF := (C4_update_preserves_owner 9 99 libraryStore).1
      { ID := 3, Name := "Mine", UserID := 2, ParentID := none,
        CreatedAt := 0, UpdatedAt := 0, DeletedAt := none }
      { ID := 3, Name := "Alice", UserID := 1, ParentID := none,
        CreatedAt := 2, UpdatedAt := 2, DeletedAt := none }
      { Res := some { ID := 3, Name := "Mine", UserID := 1, ParentID := none,
                      CreatedAt := 0, UpdatedAt := 9, DeletedAt := none }, Code := StatusOK }
      (by decide) (by decide)
  have hD := (C4_update_preserves_owner 9 99 libraryStore).2
      { ID := 5, Title := "Mine", Content := "", UserID := 2, FolderID := none,
        CreatedAt := 0, UpdatedAt := 0, DeletedAt := none }
      { ID := 5, Title := "Notes", Content := "first", UserID := 1, FolderID := some 3,
        CreatedAt := 3, UpdatedAt := 3, DeletedAt := none }
      { Res := some { ID := 5, Title := "Mine", Content := "", UserID := 1, FolderID := none,
                      CreatedAt := 0, UpdatedAt := 9, DeletedAt := none }, Code := StatusOK }
      (by decide) (by decide)
  obtain ⟨sF, hsF, huF, _⟩ := hF
  obtain ⟨sD, hsD, huD, _⟩ := hD
  simp only [Option.some.injEq] at hsF hsD
  exact ⟨⟨sF, huF, by rw [← hsF]; decide⟩, ⟨sD, huD, by rw [← hsD]; decide⟩⟩

/-! ## Creation -/

theorem First_error_of_absent {α : Type} [Model α] (rows : List α) (id : UUID)
    (h : ∀ r ∈ rows, Model.DeletedAt r = none → Model.ID r ≠ id) :
    gorm.First rows id = .error .ErrRecordNotFound := by
  obtain ⟨e, he⟩ := gorm.First_error_iff.2 h
  rw [he, gorm.First_error_eq he]

/-- C5, as stated, fails when the candidate carries the id of a stored document: owner and
folder pass every check, the INSERT violates the primary key, and `Create` answers 500
without persisting anything. -/
theorem C5_document_create_counterexample :
    DocumentResource.Create 9 99 libraryStore
        (.Document { ID := 5, Title := "Again", Content := "", UserID := 1, FolderID := some 3,
                     CreatedAt := 0, UpdatedAt := 0, DeletedAt := none }) =
      (.error (NewHTTPError (some (.ErrUniqueViolation "documents.id"))
          "UNIQUE constraint failed: documents.id" StatusInternalServerError), libraryStore) := by
  decide

/-- C5, amended. `DocumentResource.Create` decides as follows: 404 "User not found" when no
live user has the candidate's owner id; else, for a set `folder_id`, 404 "Folder not found"
when no live folder has it and 400 "Folder does not belong to the user" when the folder found
has another owner; else, when the store's insert does not fail, the prepared row (candidate
with its id and timestamps filled in) is appended and returned with 201, and when the insert
fails `Create` answers 500 with the store's error and the store unchanged, which is what
happens when a document row already has the id of the prepared row. -/
theorem C5_document_create_decision (now : Time) (newID : UUID) (db : DB) (c : Document) :
    ((∀ u ∈ db.users, u.DeletedAt = none → u.ID ≠ c.UserID) →
      DocumentResource.Create now newID db (.Document c) =
        (.error (NewHTTPError (some .ErrRecordNotFound) "User not found" StatusNotFound), db)) ∧
    ((∃ u ∈ db.users, u.DeletedAt = none ∧ u.ID = c.UserID) →
      (∀ fid, c.FolderID = some fid →
        (∀ f ∈ db.folders, f.DeletedAt = none → f.ID ≠ fid) →
        DocumentResource.Create now newID db (.Document c) =
          (.error (NewHTTPError (some .ErrRecordNotFound) "Folder not found" StatusNotFound), db)) ∧
      (∀ fid F, c.FolderID = some fid → gorm.First db.folders fid = .ok F →
        F.UserID ≠ c.UserID →
        DocumentResource.Create now newID db (.Document c) =
          (.error (NewHTTPError none "Folder does not belong to the user" StatusBadRequest), db)) ∧
      ((c.FolderID = none ∨
          ∃ fid F, c.FolderID = some fid ∧ gorm.First db.folders fid = .ok F ∧
            F.UserID = c.UserID) →
        (storeCallsSucceed (DocumentResource.Create now newID db (.Document c)) = true →
          DocumentResource.Create now newID db (.Document c) =
            (.ok { Res := some (gorm.prepareCreate now newID c), Code := StatusCreated },
              { db with documents := db.documents ++ [gorm.prepareCreate now newID c] })) ∧
        (storeCallsSucceed (DocumentResource.Create now newID db (.Document c)) = false →
          ∃ err, DocumentResource.Create now newID db (.Document c) =
            (.error (storeError err), db)) ∧
        ((∃ d ∈ db.documents, d.ID = (gorm.prepareCreate now newID c).ID) →
          DocumentResource.Create now newID db (.Document c) =
            (.error (storeError (.ErrUniqueViolation "documents.id")), db)))) ∧
    ((gorm.prepareCreate now newID c).Title = c.Title ∧
      (gorm.prepareCreate now newID c).Content = c.Content ∧
      (gorm.prepareCreate now newID c).UserID = c.UserID ∧
      (gorm.prepareCreate now newID c).FolderID = c.FolderID ∧
      (gorm.prepareCreate now newID c).ID = (if c.ID = uuid.Nil then newID else c.ID)) := by
  have hp := prepareCreate_document now newID c
  refine ⟨?_, ?_, ⟨hp.2.1, hp.2.2.1, hp.1, hp.2.2.2.1, hp.2.2.2.2.2⟩⟩
  · intro hno
    have hU := First_error_of_absent db.users c.UserID hno
    unfold DocumentResource.Create
    simp only [hU]
    rfl
  · intro hex
    obtain ⟨u, hu⟩ := gorm.First_ok_of_exists db.users c.UserID hex
    refine ⟨?_, ?_, ?_⟩
    · intro fid hfid hno
      have hF := First_error_of_absent db.folders fid hno
      unfold DocumentResource.Create
      simp only [hu, hfid, hF]
      rfl
    · intro fid F hfid hF hne
      unfold DocumentResource.Create
      simp only [hu, hfid, hF, ne_eq, hne, not_false_eq_true, if_true]
    · intro hfolder
      have hcheck : DocumentResource.Create now newID db (.Document c) =
          match gorm.Create now newID db.documents c with
          | .error err => (.error (storeError err), db)
          | .ok (created, rows) =>
            (.ok { Res := some created, Code := StatusCreated }, { db with documents := rows }) := by
        unfold DocumentResource.Create
        rcases hfolder with hnone | ⟨fid, F, hfid, hF, hown⟩
        · simp only [hu, hnone]
        · simp only [hu, hfid, hF, ne_eq, hown, not_true_eq_false, if_false]
      rw [hcheck, Create_document_eq]
      by_cases hany :
          db.documents.any (fun r => r.ID == (gorm.prepareCreate now newID c).ID) = true
      · rw [if_pos hany]
        refine ⟨?_, ?_, ?_⟩
        · intro hs
          simp [storeCallsSucceed, storeError, NewHTTPError] at hs
        · intro _
          exact ⟨_, rfl⟩
        · intro _
          rfl
      · rw [if_neg hany]
        refine ⟨fun _ => rfl, ?_, ?_⟩
        · intro hs
          simp [storeCallsSucceed] at hs
        · rintro ⟨d, hd, hid⟩
          exact absurd (List.any_eq_true.2 ⟨d, hd, by simpa using hid⟩) hany

/-- C5, witness: a new document of user 1 in user 1's folder 3 is appended and returned with
201; the same candidate in user 2's folder 4 is refused. -/
theorem C5_document_create_decision_witness :
    DocumentResource.Create 9 99 libraryStore
        (.Document { ID := 0, Title := "New", Content := "text", UserID := 1, FolderID := some 3,
                     CreatedAt := 0, UpdatedAt := 0, DeletedAt := none }) =
      (.ok { Res := some { ID := 99, Title := "New", Content := "text", UserID := 1,
                           FolderID := some 3, CreatedAt := 9, UpdatedAt := 9,
                           DeletedAt := none }, Code := StatusCreated },
        { libraryStore with documents := libraryStore.documents ++
            [{ ID := 99, Title := "New", Content := "text", UserID := 1, FolderID := some 3,
               CreatedAt := 9, UpdatedAt := 9, DeletedAt := none }] }) ∧
    DocumentResource.Create 9 99 libraryStore
        (.Document { ID := 0, Title := "New", Content := "text", UserID := 1, FolderID := some 4,
                     CreatedAt := 0, UpdatedAt := 0, DeletedAt := none }) =
      (.error (NewHTTPError none "Folder does not belong to the user" StatusBadRequest),
        libraryStore) :=
  ⟨((C5_document_create_decision 9 99 libraryStore
      { ID := 0, Title := "New", Content := "text", UserID := 1, FolderID := some 3,
        CreatedAt := 0, UpdatedAt := 0, DeletedAt := none }).2.1 (by decide)).2.2
      (Or.inr ⟨3, { ID := 3, Name := "Alice", UserID := 1, ParentID := none,
                    CreatedAt := 2, UpdatedAt := 2, DeletedAt := none },
        rfl, by decide, rfl⟩) |>.1 (by decide),
   ((C5_document_create_decision 9 99 libraryStore
      { ID := 0, Title := "New", Content := "text", UserID := 1, FolderID := some 4,
        CreatedAt := 0, UpdatedAt := 0, DeletedAt := none }).2.1 (by decide)).2.1 4
      { ID := 4, Name := "Bob", UserID := 2, ParentID := none,
        CreatedAt := 2, UpdatedAt := 2, DeletedAt := none }
      rfl (by decide) (by decide)⟩

/-- C6. For an existing document `d` and a candidate with `d`'s id whose `folder_id` names an
existing folder `F`, `DocumentResource.Update` fails with 400 "Folder does not belong to the
user" exactly when `F`'s owner differs from the owner stored on `d`; and the whole outcome is
the same whatever owner the candidate carries. -/
theorem C6_document_update_mismatch_iff (now : Time) (newID : UUID) (db : DB)
    (c d : Document) (fid : UUID) (F : Folder)
    (hd : gorm.First db.documents c.ID = .ok d) (hfid : c.FolderID = some fid)
    (hF : gorm.First db.folders fid = .ok F) :
    ((DocumentResource.Update now newID db (.Document c)).1 =
        .error (NewHTTPError none "Folder does not belong to the user" StatusBadRequest) ↔
      F.UserID ≠ d.UserID) ∧
    (∀ u, DocumentResource.Update now newID db (.Document { c with UserID := u }) =
      DocumentResource.Update now newID db (.Document c)) := by
  constructor
  · unfold DocumentResource.Update
    simp only [hd, hfid, hF]
    by_cases hne : F.UserID = d.UserID
    · simp only [ne_eq, hne, not_true_eq_false, if_false]
      constructor
      · intro h
        split at h
        · simp [storeError, NewHTTPError] at h
        · cases h
      · intro h; exact h.elim
    · simp only [ne_eq, hne, not_false_eq_true, if_true]
  · intro u
    unfold DocumentResource.Update
    simp only [hd, hfid, hF]

/-- C6, witness: document 5 of user 1 moved to user 2's folder 4 is refused, while the
candidate names user 2 as owner. -/
theorem C6_document_update_mismatch_iff_witness :
    (DocumentResource.Update 9 99 libraryStore
        (.Document { ID := 5, Title := "Notes", Content := "first", UserID := 2,
                     FolderID := some 4, CreatedAt := 0, UpdatedAt := 0, DeletedAt := none })).1 =
      .error (NewHTTPError none "Folder does not belong to the user" StatusBadRequest) :=
  ((C6_document_update_mismatch_iff 9 99 libraryStore
      { ID := 5, Title := "Notes", Content := "first", UserID := 2, FolderID := some 4,
        CreatedAt := 0, UpdatedAt := 0, DeletedAt := none }
      { ID := 5, Title := "Notes", Content := "first", UserID := 1, FolderID := some 3,
        CreatedAt := 3, UpdatedAt := 3, DeletedAt := none }
      4
      { ID := 4, Name := "Bob", UserID := 2, ParentID := none,
        CreatedAt := 2, UpdatedAt := 2, DeletedAt := none }
      (by decide) rfl (by decide)).1).2 (by decide)

/-- C7. When no store call fails, `FolderResource.Create` succeeds if and only if the
candidate's owner is an existing user and its `parent_id` is unset or names an existing
folder; on success the prepared folder is appended and returned with 201; a missing owner
gives 404 "User not found" (also when the parent is missing too), a missing parent under an
existing owner gives 404 "Parent folder not found". -/
theorem C7_folder_create_succeeds_iff (now : Time) (newID : UUID) (db : DB) (c : Folder)
    (hstore : storeCallsSucceed (FolderResource.Create now newID db (.Folder c)) = true) :
    (succeeded (FolderResource.Create now newID db (.Folder c)) = true ↔
      db.hasUser c.UserID ∧ (c.ParentID = none ∨ ∃ p, c.ParentID = some p ∧ db.hasFolder p)) ∧
    (succeeded (FolderResource.Create now newID db (.Folder c)) = true →
      FolderResource.Create now newID db (.Folder c) =
        (.ok { Res := some (gorm.prepareCreate now newID c), Code := StatusCreated },
          { db with folders := db.folders ++ [gorm.prepareCreate now newID c] })) ∧
    (¬ db.hasUser c.UserID →
      FolderResource.Create now newID db (.Folder c) =
        (.error (NewHTTPError (some .ErrRecordNotFound) "User not found" StatusNotFound), db)) ∧
    (db.hasUser c.UserID → (∃ p, c.ParentID = some p ∧ ¬ db.hasFolder p) →
      FolderResource.Create now newID db (.Folder c) =
        (.error (NewHTTPError (some .ErrRecordNotFound) "Parent folder not found"
          StatusNotFound), db)) := by
  have hnoUser : ¬ db.hasUser c.UserID →
      FolderResource.Create now newID db (.Folder c) =
        (.error (NewHTTPError (some .ErrRecordNotFound) "User not found" StatusNotFound), db) := by
    intro hno
    have hU := First_error_of_absent db.users c.UserID
      (fun u hu hd hi => hno ⟨u, hu, hd, hi⟩)
    unfold FolderResource.Create
    simp only [hU]
    rfl
  have hnoParent : db.hasUser c.UserID → (∃ p, c.ParentID = some p ∧ ¬ db.hasFolder p) →
      FolderResource.Create now newID db (.Folder c) =
        (.error (NewHTTPError (some .ErrRecordNotFound) "Parent folder not found"
          StatusNotFound), db) := by
    rintro hex ⟨p, hp, hno⟩
    obtain ⟨u, hu⟩ := gorm.First_ok_of_exists db.users c.UserID hex
    have hF := First_error_of_absent db.folders p
      (fun f hf hd hi => hno ⟨f, hf, hd, hi⟩)
    unfold FolderResource.Create
    simp only [hu, hp, hF]
    rfl
  have hgood : db.hasUser c.UserID →
      (c.ParentID = none ∨ ∃ p, c.ParentID = some p ∧ db.hasFolder p) →
      FolderResource.Create now newID db (.Folder c) =
        (.ok { Res := some (gorm.prepareCreate now newID c), Code := StatusCreated },
          { db with folders := db.folders ++ [gorm.prepareCreate now newID c] }) := by
    intro hex hpar
    obtain ⟨u, hu⟩ := gorm.First_ok_of_exists db.users c.UserID hex
    have hcheck : FolderResource.Create now newID db (.Folder c) =
        match gorm.Create now newID db.folders c with
        | .error err => (.error (storeError err), db)
        | .ok (created, rows) =>
          (.ok { Res := some created, Code := StatusCreated }, { db with folders := rows }) := by
      unfold FolderResource.Create
      rcases hpar with hnone | ⟨p, hp, hpex⟩
      · simp only [hu, hnone]
      · obtain ⟨P, hP⟩ := gorm.First_ok_of_exists db.folders p hpex
        simp only [hu, hp, hP]
    rw [hcheck, Create_folder_eq] at hstore ⊢
    split_ifs at hstore ⊢ with hany
    · simp [storeCallsSucceed, storeError, NewHTTPError] at hstore
    · rfl
  refine ⟨⟨?_, ?_⟩, ?_, hnoUser, hnoParent⟩
  · intro hs
    by_cases hU : db.hasUser c.UserID
    · refine ⟨hU, ?_⟩
      cases hp : c.ParentID with
      | none => exact Or.inl rfl
      | some p =>
        right
        refine ⟨p, rfl, ?_⟩
        by_contra hno
        rw [hnoParent hU ⟨p, hp, hno⟩] at hs
        cases hs
    · rw [hnoUser hU] at hs
      cases hs
  · rintro ⟨hU, hP⟩
    rw [hgood hU hP]
    rfl
  · intro hs
    by_cases hU : db.hasUser c.UserID
    · by_cases hP : c.ParentID = none ∨ ∃ p, c.ParentID = some p ∧ db.hasFolder p
      · exact hgood hU hP
      · exfalso
        cases hp : c.ParentID with
        | none => exact hP (Or.inl hp)
        | some p =>
          have hno : ¬ db.hasFolder p := fun h => hP (Or.inr ⟨p, hp, h⟩)
          rw [hnoParent hU ⟨p, hp, hno⟩] at hs
          cases hs
    · rw [hnoUser hU] at hs
      cases hs

/-- C7, witness: a root folder for the test user, as in the `Create` subtest. -/
theorem C7_folder_create_succeeds_iff_witness :
    FolderResource.Create 3 7 folderTestStore
        (.Folder { ID := 0, Name := "Test Folder", UserID := 1, ParentID := none,
                   CreatedAt := 0, UpdatedAt := 0, DeletedAt := none }) =
      (.ok { Res := some (gorm.prepareCreate 3 7
                ({ ID := 0, Name := "Test Folder", UserID := 1, ParentID := none,
                   CreatedAt := 0, UpdatedAt := 0, DeletedAt := none } : Folder)),
             Code := StatusCreated },
        { folderTestStore with folders := folderTestStore.folders ++
            [gorm.prepareCreate 3 7
              ({ ID := 0, Name := "Test Folder", UserID := 1, ParentID := none,
                 CreatedAt := 0, UpdatedAt := 0, DeletedAt := none } : Folder)] }) :=
  (C7_folder_create_succeeds_iff 3 7 folderTestStore
    { ID := 0, Name := "Test Folder", UserID := 1, ParentID := none,
      CreatedAt := 0, UpdatedAt := 0, DeletedAt := none } (by decide)).2.1 (by decide)

/-! ## Listing -/

theorem filtersParse_spec {parse : String → Option UUID} {req : Request} {key : String}
    (h : filtersParse parse req key = true) :
    (∀ s, req.param "user_id" = some s → (parse s).isSome = true) ∧
      (∀ s, req.param key = some s → s ≠ "null" → (parse s).isSome = true) := by
  unfold filtersParse at h
  rw [Bool.and_eq_true] at h
  constructor
  · intro s hs
    have h1 := h.1
    rw [hs] at h1
    exact h1
  · intro s hs hn
    have h2 := h.2
    rw [hs] at h2
    simpa [hn] using h2

/-- C8. For every store state and every combination of usable filters, the folder and the
document `FindAll` return exactly the rows of the table that the spec lists: not deleted and
satisfying every supplied filter. -/
theorem C8_findAll_returns_exactly_listed (parse : String → Option UUID) (db : DB)
    (req : Request) :
    (filtersParse parse req "parent_id" = true →
      FolderResource.FindAll parse db req =
        .ok { Res := some (db.folders.filter (folderListed parse req)), Code := 0 }) ∧
    (filtersParse parse req "folder_id" = true →
      DocumentResource.FindAll parse db req =
        .ok { Res := some (db.documents.filter (documentListed parse req)), Code := 0 }) := by
  constructor
  · intro hfp
    obtain ⟨hu, hp⟩ := filtersParse_spec hfp
    unfold FolderResource.FindAll gorm.Find folderListed
    cases hqu : req.param "user_id" with
    | none =>
      cases hqp : req.param "parent_id" with
      | none => simp [gorm.live, Model.DeletedAt]
      | some s =>
        by_cases hs : s = "null"
        · simp [hs, gorm.live, Model.DeletedAt]
        · have := hp s hqp hs
          obtain ⟨i, hi⟩ := Option.isSome_iff_exists.1 this
          simp [hs, hi, gorm.live, Model.DeletedAt]
    | some t =>
      obtain ⟨j, hj⟩ := Option.isSome_iff_exists.1 (hu t hqu)
      cases hqp : req.param "parent_id" with
      | none => simp [hj, gorm.live, Model.DeletedAt]
      | some s =>
        by_cases hs : s = "null"
        · simp [hs, hj, gorm.live, Model.DeletedAt, Bool.and_assoc]
        · have := hp s hqp hs
          obtain ⟨i, hi⟩ := Option.isSome_iff_exists.1 this
          simp [hs, hi, hj, gorm.live, Model.DeletedAt, Bool.and_assoc]
  · intro hfp
    obtain ⟨hu, hp⟩ := filtersParse_spec hfp
    unfold DocumentResource.FindAll gorm.Find documentListed
    cases hqu : req.param "user_id" with
    | none =>
      cases hqp : req.param "folder_id" with
      | none => simp [gorm.live, Model.DeletedAt]
      | some s =>
        by_cases hs : s = "null"
        · simp [hs, gorm.live, Model.DeletedAt]
        · have := hp s hqp hs
          obtain ⟨i, hi⟩ := Option.isSome_iff_exists.1 this
          simp [hs, hi, gorm.live, Model.DeletedAt]
    | some t =>
      obtain ⟨j, hj⟩ := Option.isSome_iff_exists.1 (hu t hqu)
      cases hqp : req.param "folder_id" with
      | none => simp [hj, gorm.live, Model.DeletedAt]
      | some s =>
        by_cases hs : s = "null"
        · simp [hs, hj, gorm.live, Model.DeletedAt, Bool.and_assoc]
        · have := hp s hqp hs
          obtain ⟨i, hi⟩ := Option.isSome_iff_exists.1 this
          simp [hs, hi, hj, gorm.live, Model.DeletedAt, Bool.and_assoc]

/-- C8, witness: listing the test store by `parent_id` = test folder returns exactly the
child folder, as the `NestedFolders` subtest expects. -/
theorem C8_findAll_returns_exactly_listed_witness :
    FolderResource.FindAll parseDecimal folderTestStore nestedFoldersRequest =
      .ok { Res := some [{ ID := 4, Name := "Child Folder", UserID := 1, ParentID := some 3,
                           CreatedAt := 4, UpdatedAt := 4, DeletedAt := none }], Code := 0 } := by
  have h := (C8_findAll_returns_exactly_listed parseDecimal folderTestStore
    nestedFoldersRequest).1 (by decide)
  rw [h]
  decide

/-! ## Failures -/

theorem failureLeavesStore_error {α : Type} (db : DB) (e : HTTPError) :
    failureLeavesStore db ((.error e, db) : Outcome α) :=
  fun _ _ => rfl

theorem failureLeavesStore_ok {α : Type} (db db' : DB) (r : Response α) :
    failureLeavesStore db (.ok r, db') := by
  intro e h
  cases h

/-- C9. Whenever `Create`, `Update` or `Delete` of the user, folder or document resource
returns a failure, the store after the call is the store before the call. -/
theorem C9_failure_leaves_store_unchanged (parse : String → Option UUID) (now : Time)
    (newID : UUID) (db : DB) (obj : Obj) (id : String) :
    failureLeavesStore db (UserResource.Create now newID db obj) ∧
    failureLeavesStore db (UserResource.Update now newID db obj) ∧
    failureLeavesStore db (UserResource.Delete parse now db id) ∧
    failureLeavesStore db (FolderResource.Create now newID db obj) ∧
    failureLeavesStore db (FolderResource.Update now newID db obj) ∧
    failureLeavesStore db (FolderResource.Delete parse now db id) ∧
    failureLeavesStore db (DocumentResource.Create now newID db obj) ∧
    failureLeavesStore db (DocumentResource.Update now newID db obj) ∧
    failureLeavesStore db (DocumentResource.Delete parse now db id) := by
  refine ⟨?_, ?_, ?_, ?_, ?_, ?_, ?_, ?_, ?_⟩
  · unfold UserResource.Create
    repeat' (first | split | dsimp only)
    all_goals first | exact failureLeavesStore_error db _ | exact failureLeavesStore_ok db _ _
  · unfold UserResource.Update
    repeat' (first | split | dsimp only)
    all_goals first | exact failureLeavesStore_error db _ | exact failureLeavesStore_ok db _ _
  · unfold UserResource.Delete
    repeat' (first | split | dsimp only)
    all_goals first | exact failureLeavesStore_error db _ | exact failureLeavesStore_ok db _ _
  · unfold FolderResource.Create
    repeat' (first | split | dsimp only)
    all_goals first | exact failureLeavesStore_error db _ | exact failureLeavesStore_ok db _ _
  · unfold FolderResource.Update
    repeat' (first | split | dsimp only)
    all_goals first | exact failureLeavesStore_error db _ | exact failureLeavesStore_ok db _ _
  · unfold FolderResource.Delete
    repeat' (first | split | dsimp only)
    all_goals first | exact failureLeavesStore_error db _ | exact failureLeavesStore_ok db _ _
  · unfold DocumentResource.Create
    repeat' (first | split | dsimp only)
    all_goals first | exact failureLeavesStore_error db _ | exact failureLeavesStore_ok db _ _
  · unfold DocumentResource.Update
    repeat' (first | split | dsimp only)
    all_goals first | exact failureLeavesStore_error db _ | exact failureLeavesStore_ok db _ _
  · unfold DocumentResource.Delete
    repeat' (first | split | dsimp only)
    all_goals first | exact failureLeavesStore_error db _ | exact failureLeavesStore_ok db _ _

/-- C9, witness: the refused deletion of the test folder leaves the test store as it was. -/
theorem C9_failure_leaves_store_unchanged_witness :
    (FolderResource.Delete parseDecimal 6 folderTestStore "3").2 = folderTestStore :=
  (C9_failure_leaves_store_unchanged parseDecimal 6 99 folderTestStore .Other "3").2.2.2.2.2.1
    (NewHTTPError none "Cannot delete folder with subfolders" StatusBadRequest) (by decide)

/-- C10. For an id string that does not parse, `FindOne` and `Delete` of each resource fail
with InvalidArgument (400), and so does the folder or document `FindAll` when a `user_id`
value, or a `parent_id` / `folder_id` value other than the sentinel "null", does not parse;
the error is one and the same for every store state, and `Delete` returns the store as it
received it. -/
theorem C10_unparseable_id_is_invalid_argument (parse : String → Option UUID) (now : Time)
    (id : String) (hbad : parse id = none) :
    (∀ db, UserResource.FindOne parse db id =
      .error (NewHTTPError (some (.InvalidUUID id)) "Invalid user ID" StatusBadRequest)) ∧
    (∀ db, FolderResource.FindOne parse db id =
      .error (NewHTTPError (some (.InvalidUUID id)) "Invalid folder ID" StatusBadRequest)) ∧
    (∀ db, DocumentResource.FindOne parse db id =
      .error (NewHTTPError (some (.InvalidUUID id)) "Invalid document ID" StatusBadRequest)) ∧
    (∀ db, UserResource.Delete parse now db id =
      (.error (NewHTTPError (some (.InvalidUUID id)) "Invalid user ID" StatusBadRequest), db)) ∧
    (∀ db, FolderResource.Delete parse now db id =
      (.error (NewHTTPError (some (.InvalidUUID id)) "Invalid folder ID" StatusBadRequest), db)) ∧
    (∀ db, DocumentResource.Delete parse now db id =
      (.error (NewHTTPError (some (.InvalidUUID id)) "Invalid document ID" StatusBadRequest),
        db)) ∧
    (∀ msg, (NewHTTPError (some (.InvalidUUID id)) msg StatusBadRequest).isInvalidArgument
      = true) ∧
    (∀ req : Request,
      (req.param "user_id" = some id ∨ (req.param "parent_id" = some id ∧ id ≠ "null")) →
      ∃ e, e.isInvalidArgument = true ∧ ∀ db, FolderResource.FindAll parse db req = .error e) ∧
    (∀ req : Request,
      (req.param "user_id" = some id ∨ (req.param "folder_id" = some id ∧ id ≠ "null")) →
      ∃ e, e.isInvalidArgument = true ∧
        ∀ db, DocumentResource.FindAll parse db req = .error e) := by
  refine ⟨?_, ?_, ?_, ?_, ?_, ?_, ?_, ?_, ?_⟩
  · intro db; unfold UserResource.FindOne; simp only [hbad]
  · intro db; unfold FolderResource.FindOne; simp only [hbad]
  · intro db; unfold DocumentResource.FindOne; simp only [hbad]
  · intro db; unfold UserResource.Delete; simp only [hbad]
  · intro db; unfold FolderResource.Delete; simp only [hbad]
  · intro db; unfold DocumentResource.Delete; simp only [hbad]
  · intro msg; rfl
  · intro req h
    rcases h with hu | ⟨hp, hnull⟩
    · exact ⟨NewHTTPError (some (.InvalidUUID id)) "Invalid user ID" StatusBadRequest, rfl,
        fun db => by unfold FolderResource.FindAll; simp only [hu, hbad]⟩
    · cases hqu : req.param "user_id" with
      | none =>
        exact ⟨NewHTTPError (some (.InvalidUUID id)) "Invalid parent ID" StatusBadRequest, rfl,
          fun db => by
            unfold FolderResource.FindAll
            simp only [hqu, hp, hnull, if_false, hbad]⟩
      | some t =>
        cases ht : parse t with
        | none =>
          exact ⟨NewHTTPError (some (.InvalidUUID t)) "Invalid user ID" StatusBadRequest, rfl,
            fun db => by unfold FolderResource.FindAll; simp only [hqu, ht]⟩
        | some j =>
          exact ⟨NewHTTPError (some (.InvalidUUID id)) "Invalid parent ID" StatusBadRequest, rfl,
            fun db => by
              unfold FolderResource.FindAll
              simp only [hqu, ht, hp, hnull, if_false, hbad]⟩
  · intro req h
    rcases h with hu | ⟨hp, hnull⟩
    · exact ⟨NewHTTPError (some (.InvalidUUID id)) "Invalid user ID" StatusBadRequest, rfl,
        fun db => by unfold DocumentResource.FindAll; simp only [hu, hbad]⟩
    · cases hqu : req.param "user_id" with
      | none =>
        exact ⟨NewHTTPError (some (.InvalidUUID id)) "Invalid folder ID" StatusBadRequest, rfl,
          fun db => by
            unfold DocumentResource.FindAll
            simp only [hqu, hp, hnull, if_false, hbad]⟩
      | some t =>
        cases ht : parse t with
        | none =>
          exact ⟨NewHTTPError (some (.InvalidUUID t)) "Invalid user ID" StatusBadRequest, rfl,
            fun db => by unfold DocumentResource.FindAll; simp only [hqu, ht]⟩
        | some j =>
          exact ⟨NewHTTPError (some (.InvalidUUID id)) "Invalid folder ID" StatusBadRequest, rfl,
            fun db => by
              unfold DocumentResource.FindAll
              simp only [hqu, ht, hp, hnull, if_false, hbad]⟩

/-- C10, witness: "not-a-uuid" is no identifier; deleting it from the library store is
refused with 400 and the store comes back as it was. -/
theorem C10_unparseable_id_is_invalid_argument_witness :
    DocumentResource.Delete parseDecimal 9 libraryStore "not-a-uuid" =
      (.error (NewHTTPError (some (.InvalidUUID "not-a-uuid")) "Invalid document ID"
        StatusBadRequest), libraryStore) :=
  (C10_unparseable_id_is_invalid_argument parseDecimal 9 "not-a-uuid"
    (by decide)).2.2.2.2.2.1 libraryStore

/-! ## User creation and uniqueness -/

theorem prepareCreate_user (now : Time) (newID : UUID) (c : User) :
    (gorm.prepareCreate now newID c).Username = c.Username ∧
      (gorm.prepareCreate now newID c).Email = c.Email ∧
      (gorm.prepareCreate now newID c).DeletedAt = c.DeletedAt ∧
      (gorm.prepareCreate now newID c).ID = (if c.ID = uuid.Nil then newID else c.ID) := by
  simp only [gorm.prepareCreate, Model.BeforeCreate, Model.CreatedAt, Model.UpdatedAt,
    Model.setCreatedAt, Model.setUpdatedAt, User.BeforeCreate]
  split_ifs <;> simp_all

theorem Create_user_collision (now : Time) (newID : UUID) (rows : List User) (c u : User)
    (hu : u ∈ rows) (hc : c.Username = u.Username ∨ c.Email = u.Email) :
    ∃ col, gorm.Create now newID rows c = .error (.ErrUniqueViolation col) := by
  obtain ⟨hn, he, _, _⟩ := prepareCreate_user now newID c
  unfold gorm.Create gorm.insertViolation
  simp only
  by_cases hid : rows.any (fun r => Model.ID r == Model.ID (gorm.prepareCreate now newID c)) = true
  · rw [if_pos hid]
    exact ⟨_, rfl⟩
  · rw [if_neg hid]
    simp only [Model.uniques, hn, he, List.find?]
    by_cases h1 : rows.any (fun r =>
        [("users.username", r.Username), ("users.email", r.Email)].contains
          ("users.username", c.Username)) = true
    · rw [h1]
      exact ⟨_, rfl⟩
    · have h1' : rows.any (fun r =>
          [("users.username", r.Username), ("users.email", r.Email)].contains
            ("users.username", c.Username)) = false := by simpa using h1
      rw [h1']
      have h2 : rows.any (fun r =>
          [("users.username", r.Username), ("users.email", r.Email)].contains
            ("users.email", c.Email)) = true := by
        rw [List.any_eq_true]
        refine ⟨u, hu, ?_⟩
        rcases hc with hc | hc
        · exfalso
          apply h1
          rw [List.any_eq_true]
          exact ⟨u, hu, by simp [hc]⟩
        · simp [hc]
      rw [h2]
      exact ⟨_, rfl⟩

theorem Create_user_error (now : Time) (newID : UUID) (db : DB) (c : User) (err : GoError)
    (h : gorm.Create now newID db.users c = .error err) :
    UserResource.Create now newID db (.User c) =
      (.error (NewHTTPError (some err) err.Error StatusInternalServerError), db) := by
  unfold UserResource.Create
  simp only [h]
  rfl

/-- C11. For every store state holding a user row with username `n` or email `m`,
`UserResource.Create` of a candidate with that username or that email (whatever its other
fields) fails with an HTTP error, and the store, the users table included, is unchanged. -/
theorem C11_duplicate_user_rejected (now : Time) (newID : UUID) (db : DB) (c u : User)
    (hu : u ∈ db.users) (hc : c.Username = u.Username ∨ c.Email = u.Email) :
    ∃ e : HTTPError, UserResource.Create now newID db (.User c) = (.error e, db) := by
  obtain ⟨col, h⟩ := Create_user_collision now newID db.users c u hu hc
  exact ⟨_, Create_user_error now newID db c _ h⟩

/-- C11, witness: a second "alice" with another email in the library store. -/
theorem C11_duplicate_user_rejected_witness :
    ∃ e : HTTPError, UserResource.Create 9 99 libraryStore
        (.User { ID := 0, Username := "alice", Email := "different@example.com",
                 CreatedAt := 0, UpdatedAt := 0, DeletedAt := none }) =
      (.error e, libraryStore) :=
  C11_duplicate_user_rejected 9 99 libraryStore
    { ID := 0, Username := "alice", Email := "different@example.com",
      CreatedAt := 0, UpdatedAt := 0, DeletedAt := none }
    { ID := 1, Username := "alice", Email := "alice@example.com",
      CreatedAt := 1, UpdatedAt := 1, DeletedAt := none }
    (by decide) (Or.inl rfl)

/-- C12, as stated, fails: the username collision of a second "alice" is reported with
status 500, the 500-class form of a failed store call, and not as a kind of its own. -/
theorem C12_uniqueness_is_500_counterexample :
    UserResource.Create 9 99 libraryStore
        (.User { ID := 0, Username := "alice", Email := "different@example.com",
                 CreatedAt := 0, UpdatedAt := 0, DeletedAt := none }) =
      (.error (NewHTTPError (some (.ErrUniqueViolation "users.username"))
          "UNIQUE constraint failed: users.username" StatusInternalServerError),
        libraryStore) ∧
    storeCallsSucceed (UserResource.Create 9 99 libraryStore
        (.User { ID := 0, Username := "alice", Email := "different@example.com",
                 CreatedAt := 0, UpdatedAt := 0, DeletedAt := none })) = false := by
  decide

/-- C12, amended. `UserResource.Create` reports every error of the store's INSERT in one
form, status 500 with the store's error text as message; a username or email collision is
such an error (a uniqueness violation of some column) and is reported in that same form. -/
theorem C12_uniqueness_reported_as_store_failure (now : Time) (newID : UUID) (db : DB)
    (c : User) :
    (∀ err, gorm.Create now newID db.users c = .error err →
      UserResource.Create now newID db (.User c) =
        (.error (NewHTTPError (some err) err.Error StatusInternalServerError), db)) ∧
    (∀ u ∈ db.users, (c.Username = u.Username ∨ c.Email = u.Email) →
      ∃ col, UserResource.Create now newID db (.User c) =
        (.error (NewHTTPError (some (.ErrUniqueViolation col))
          ("UNIQUE constraint failed: " ++ col) StatusInternalServerError), db)) := by
  refine ⟨fun err h => Create_user_error now newID db c err h, ?_⟩
  intro u hu hc
  obtain ⟨col, h⟩ := Create_user_collision now newID db.users c u hu hc
  exact ⟨col, Create_user_error now newID db c _ h⟩

/-- C12, witness: the email collision of a second user with alice's email. -/
theorem C12_uniqueness_reported_as_store_failure_witness :
    ∃ col, UserResource.Create 9 99 libraryStore
        (.User { ID := 0, Username := "carol", Email := "alice@example.com",
                 CreatedAt := 0, UpdatedAt := 0, DeletedAt := none }) =
      (.error (NewHTTPError (some (.ErrUniqueViolation col))
        ("UNIQUE constraint failed: " ++ col) StatusInternalServerError), libraryStore) :=
  (C12_uniqueness_reported_as_store_failure 9 99 libraryStore
    { ID := 0, Username := "carol", Email := "alice@example.com",
      CreatedAt := 0, UpdatedAt := 0, DeletedAt := none }).2
    { ID := 1, Username := "alice", Email := "alice@example.com",
      CreatedAt := 1, UpdatedAt := 1, DeletedAt := none }
    (by decide) (Or.inr rfl)

/-! ## Identity allocation -/

theorem Create_ok_spec {α : Type} [Model α] {now : Time} {newID : UUID} {rows rows' : List α}
    {c x : α} (h : gorm.Create now newID rows c = .ok (x, rows')) :
    x = gorm.prepareCreate now newID c ∧ rows' = rows ++ [x] ∧
      ∀ r ∈ rows, Model.ID r ≠ Model.ID x := by
  unfold gorm.Create at h
  simp only at h
  cases hv : gorm.insertViolation rows (gorm.prepareCreate now newID c) with
  | some e => rw [hv] at h; cases h
  | none =>
    rw [hv] at h
    simp only [Except.ok.injEq, Prod.mk.injEq] at h
    obtain ⟨hx, hr⟩ := h
    refine ⟨hx.symm, by rw [← hr, ← hx], ?_⟩
    intro r hr hid
    unfold gorm.insertViolation at hv
    split_ifs at hv with hany
    apply hany
    rw [List.any_eq_true]
    exact ⟨r, hr, by simpa [hx] using hid⟩

/-! ## What each writing controller does to the store -/

theorem userCreate_effect (now : Time) (newID : UUID) (db : DB) (obj : Obj) :
    (∃ e, UserResource.Create now newID db obj = (.error e, db)) ∨
    (∃ c x rows, obj = .User c ∧ gorm.Create now newID db.users c = .ok (x, rows) ∧
      UserResource.Create now newID db obj =
        (.ok { Res := some x, Code := StatusCreated }, { db with users := rows })) := by
  cases obj with
  | User c =>
    cases hc : gorm.Create now newID db.users c with
    | error err => left; exact ⟨_, by unfold UserResource.Create; simp only [hc]; rfl⟩
    | ok p =>
      obtain ⟨x, rows⟩ := p
      right
      exact ⟨c, x, rows, rfl, hc, by unfold UserResource.Create; simp only [hc]⟩
  | Folder _ => left; exact ⟨_, rfl⟩
  | Document _ => left; exact ⟨_, rfl⟩
  | Other => left; exact ⟨_, rfl⟩

theorem folderCreate_effect (now : Time) (newID : UUID) (db : DB) (obj : Obj) :
    (∃ e, FolderResource.Create now newID db obj = (.error e, db)) ∨
    (∃ c x rows, obj = .Folder c ∧
      (∀ p, c.ParentID = some p → ∃ P, gorm.First db.folders p = .ok P) ∧
      gorm.Create now newID db.folders c = .ok (x, rows) ∧
      FolderResource.Create now newID db obj =
        (.ok { Res := some x, Code := StatusCreated }, { db with folders := rows })) := by
  cases obj with
  | Folder c =>
    cases hu : gorm.First db.users c.UserID with
    | error err => left; exact ⟨_, by unfold FolderResource.Create; simp only [hu]; rfl⟩
    | ok u =>
      have hparent : (∃ e, FolderResource.Create now newID db (.Folder c) = (.error e, db)) ∨
          ((∀ p, c.ParentID = some p → ∃ P, gorm.First db.folders p = .ok P) ∧
            FolderResource.Create now newID db (.Folder c) =
              match gorm.Create now newID db.folders c with
              | .error err => (.error (storeError err), db)
              | .ok (created, rows) =>
                (.ok { Res := some created, Code := StatusCreated },
                  { db with folders := rows })) := by
        cases hp : c.ParentID with
        | none =>
          right
          exact ⟨fun p h => (by cases h), (by unfold FolderResource.Create; simp only [hu, hp])⟩
        | some p =>
          cases hP : gorm.First db.folders p with
          | error err =>
            left; exact ⟨_, by unfold FolderResource.Create; simp only [hu, hp, hP]; rfl⟩
          | ok Pf =>
            right
            refine ⟨fun q h => ?_, by unfold FolderResource.Create; simp only [hu, hp, hP]⟩
            cases h
            exact ⟨Pf, hP⟩
      rcases hparent with he | ⟨hpar, heq⟩
      · exact Or.inl he
      · cases hc : gorm.Create now newID db.folders c with
        | error err => left; exact ⟨_, by rw [heq, hc]⟩
        | ok p =>
          obtain ⟨x, rows⟩ := p
          right
          exact ⟨c, x, rows, rfl, hpar, hc, by rw [heq, hc]⟩
  | User _ => left; exact ⟨_, rfl⟩
  | Document _ => left; exact ⟨_, rfl⟩
  | Other => left; exact ⟨_, rfl⟩

theorem documentCreate_effect (now : Time) (newID : UUID) (db : DB) (obj : Obj) :
    (∃ e, DocumentResource.Create now newID db obj = (.error e, db)) ∨
    (∃ c x rows, obj = .Document c ∧
      (∀ p, c.FolderID = some p →
        ∃ F, gorm.First db.folders p = .ok F ∧ F.UserID = c.UserID) ∧
      gorm.Create now newID db.documents c = .ok (x, rows) ∧
      DocumentResource.Create now newID db obj =
        (.ok { Res := some x, Code := StatusCreated }, { db with documents := rows })) := by
  cases obj with
  | Document c =>
    cases hu : gorm.First db.users c.UserID with
    | error err => left; exact ⟨_, by unfold DocumentResource.Create; simp only [hu]; rfl⟩
    | ok u =>
      have hfolder : (∃ e, DocumentResource.Create now newID db (.Document c) = (.error e, db)) ∨
          ((∀ p, c.FolderID = some p →
              ∃ F, gorm.First db.folders p = .ok F ∧ F.UserID = c.UserID) ∧
            DocumentResource.Create now newID db (.Document c) =
              match gorm.Create now newID db.documents c with
              | .error err => (.error (storeError err), db)
              | .ok (created, rows) =>
                (.ok { Res := some created, Code := StatusCreated },
                  { db with documents := rows })) := by
        cases hp : c.FolderID with
        | none =>
          right
          exact ⟨fun p h => (by cases h), (by unfold DocumentResource.Create; simp only [hu, hp])⟩
        | some p =>
          cases hP : gorm.First db.folders p with
          | error err =>
            left; exact ⟨_, by unfold DocumentResource.Create; simp only [hu, hp, hP]; rfl⟩
          | ok F =>
            by_cases hown : F.UserID = c.UserID
            · right
              refine ⟨fun q h => ?_, by
                unfold DocumentResource.Create
                simp only [hu, hp, hP, ne_eq, hown, not_true_eq_false, if_false]⟩
              cases h
              exact ⟨F, hP, hown⟩
            · left
              exact ⟨_, by
                unfold DocumentResource.Create
                simp only [hu, hp, hP, ne_eq, hown, not_false_eq_true, if_true]
                rfl⟩
      rcases hfolder with he | ⟨hpar, heq⟩
      · exact Or.inl he
      · cases hc : gorm.Create now newID db.documents c with
        | error err => left; exact ⟨_, by rw [heq, hc]⟩
        | ok p =>
          obtain ⟨x, rows⟩ := p
          right
          exact ⟨c, x, rows, rfl, hpar, hc, by rw [heq, hc]⟩
  | User _ => left; exact ⟨_, rfl⟩
  | Folder _ => left; exact ⟨_, rfl⟩
  | Other => left; exact ⟨_, rfl⟩

theorem userUpdate_effect (now : Time) (newID : UUID) (db : DB) (obj : Obj) :
    (∃ e, UserResource.Update now newID db obj = (.error e, db)) ∨
    (∃ c E saved rows, obj = .User c ∧ gorm.First db.users c.ID = .ok E ∧
      gorm.Save now newID db.users c = .ok (saved, rows) ∧
      UserResource.Update now newID db obj =
        (.ok { Res := some saved, Code := StatusOK }, { db with users := rows })) := by
  cases obj with
  | User c =>
    cases hE : gorm.First db.users c.ID with
    | error err => left; exact ⟨_, by unfold UserResource.Update; simp only [hE]; rfl⟩
    | ok E =>
      cases hs : gorm.Save now newID db.users c with
      | error err => left; exact ⟨_, by unfold UserResource.Update; simp only [hE, hs]; rfl⟩
      | ok p =>
        obtain ⟨saved, rows⟩ := p
        right
        exact ⟨c, E, saved, rows, rfl, hE, hs, by
          unfold UserResource.Update; simp only [hE, hs]⟩
  | Folder _ => left; exact ⟨_, rfl⟩
  | Document _ => left; exact ⟨_, rfl⟩
  | Other => left; exact ⟨_, rfl⟩

theorem folderUpdate_effect (now : Time) (newID : UUID) (db : DB) (obj : Obj) :
    (∃ e, FolderResource.Update now newID db obj = (.error e, db)) ∨
    (∃ c E saved rows, obj = .Folder c ∧ gorm.First db.folders c.ID = .ok E ∧
      (∀ p, c.ParentID = some p → p ≠ c.ID ∧ ∃ P, gorm.First db.folders p = .ok P) ∧
      gorm.Save now newID db.folders { c with UserID := E.UserID } = .ok (saved, rows) ∧
      FolderResource.Update now newID db obj =
        (.ok { Res := some saved, Code := StatusOK }, { db with folders := rows })) := by
  cases obj with
  | Folder c =>
    cases hE : gorm.First db.folders c.ID with
    | error err => left; exact ⟨_, by unfold FolderResource.Update; simp only [hE]; rfl⟩
    | ok E =>
      have hparent : (∃ e, FolderResource.Update now newID db (.Folder c) = (.error e, db)) ∨
          ((∀ p, c.ParentID = some p → p ≠ c.ID ∧ ∃ P, gorm.First db.folders p = .ok P) ∧
            FolderResource.Update now newID db (.Folder c) =
              match gorm.Save now newID db.folders { c with UserID := E.UserID } with
              | .error err => (.error (storeError err), db)
              | .ok (saved, rows) =>
                (.ok { Res := some saved, Code := StatusOK }, { db with folders := rows })) := by
        cases hp : c.ParentID with
        | none =>
          right
          exact ⟨fun p h => (by cases h), (by unfold FolderResource.Update; simp only [hE, hp])⟩
        | some p =>
          by_cases hself : p = c.ID
          · left
            exact ⟨_, by
              unfold FolderResource.Update
              simp only [hE, hp, hself, if_true]
              rfl⟩
          · cases hP : gorm.First db.folders p with
            | error err =>
              left
              exact ⟨_, by
                unfold FolderResource.Update
                simp only [hE, hp, hself, if_false, hP]
                rfl⟩
            | ok Pf =>
              right
              refine ⟨fun q h => ?_, by
                unfold FolderResource.Update
                simp only [hE, hp, hself, if_false, hP]⟩
              cases h
              exact ⟨hself, Pf, hP⟩
      rcases hparent with he | ⟨hpar, heq⟩
      · exact Or.inl he
      · cases hs : gorm.Save now newID db.folders { c with UserID := E.UserID } with
        | error err => left; exact ⟨_, by rw [heq, hs]⟩
        | ok p =>
          obtain ⟨saved, rows⟩ := p
          right
          exact ⟨c, E, saved, rows, rfl, hE, hpar, hs, by rw [heq, hs]⟩
  | User _ => left; exact ⟨_, rfl⟩
  | Document _ => left; exact ⟨_, rfl⟩
  | Other => left; exact ⟨_, rfl⟩

theorem documentUpdate_effect (now : Time) (newID : UUID) (db : DB) (obj : Obj) :
    (∃ e, DocumentResource.Update now newID db obj = (.error e, db)) ∨
    (∃ c E saved rows, obj = .Document c ∧ gorm.First db.documents c.ID = .ok E ∧
      (∀ p, c.FolderID = some p →
        ∃ F, gorm.First db.folders p = .ok F ∧ F.UserID = E.UserID) ∧
      gorm.Save now newID db.documents { c with UserID := E.UserID } = .ok (saved, rows) ∧
      DocumentResource.Update now newID db obj =
        (.ok { Res := some saved, Code := StatusOK }, { db with documents := rows })) := by
  cases obj with
  | Document c =>
    cases hE : gorm.First db.documents c.ID with
    | error err => left; exact ⟨_, by unfold DocumentResource.Update; simp only [hE]; rfl⟩
    | ok E =>
      have hfolder : (∃ e, DocumentResource.Update now newID db (.Document c) = (.error e, db)) ∨
          ((∀ p, c.FolderID = some p →
              ∃ F, gorm.First db.folders p = .ok F ∧ F.UserID = E.UserID) ∧
            DocumentResource.Update now newID db (.Document c) =
              match gorm.Save now newID db.documents { c with UserID := E.UserID } with
              | .error err => (.error (storeError err), db)
              | .ok (saved, rows) =>
                (.ok { Res := some saved, Code := StatusOK },
                  { db with documents := rows })) := by
        cases hp : c.FolderID with
        | none =>
          right
          exact ⟨fun p h => (by cases h),
            (by unfold DocumentResource.Update; simp only [hE, hp])⟩
        | some p =>
          cases hP : gorm.First db.folders p with
          | error err =>
            left
            exact ⟨_, by unfold DocumentResource.Update; simp only [hE, hp, hP]; rfl⟩
          | ok F =>
            by_cases hown : F.UserID = E.UserID
            · right
              refine ⟨fun q h => ?_, by
                unfold DocumentResource.Update
                simp only [hE, hp, hP, ne_eq, hown, not_true_eq_false, if_false]⟩
              cases h
              exact ⟨F, hP, hown⟩
            · left
              exact ⟨_, by
                unfold DocumentResource.Update
                simp only [hE, hp, hP, ne_eq, hown, not_false_eq_true, if_true]
                rfl⟩
      rcases hfolder with he | ⟨hpar, heq⟩
      · exact Or.inl he
      · cases hs : gorm.Save now newID db.documents { c with UserID := E.UserID } with
        | error err => left; exact ⟨_, by rw [heq, hs]⟩
        | ok p =>
          obtain ⟨saved, rows⟩ := p
          right
          exact ⟨c, E, saved, rows, rfl, hE, hpar, hs, by rw [heq, hs]⟩
  | User _ => left; exact ⟨_, rfl⟩
  | Folder _ => left; exact ⟨_, rfl⟩
  | Other => left; exact ⟨_, rfl⟩

theorem userDelete_effect (parse : String → Option UUID) (now : Time) (db : DB)
    (id : String) :
    (∃ e, UserResource.Delete parse now db id = (.error e, db)) ∨
    (∃ uid u rows, parse id = some uid ∧ gorm.First db.users uid = .ok u ∧
      gorm.Delete now db.users u = .ok rows ∧
      UserResource.Delete parse now db id =
        (.ok { Res := none, Code := StatusNoContent }, { db with users := rows })) := by
  cases hp : parse id with
  | none => left; exact ⟨_, by unfold UserResource.Delete; simp only [hp]; rfl⟩
  | some uid =>
    cases hu : gorm.First db.users uid with
    | error err => left; exact ⟨_, by unfold UserResource.Delete; simp only [hp, hu]; rfl⟩
    | ok u =>
      cases hd : gorm.Delete now db.users u with
      | error err =>
        left; exact ⟨_, by unfold UserResource.Delete; simp only [hp, hu, hd]; rfl⟩
      | ok rows =>
        right
        exact ⟨uid, u, rows, rfl, hu, hd, by
          unfold UserResource.Delete; simp only [hp, hu, hd]⟩

theorem documentDelete_effect (parse : String → Option UUID) (now : Time) (db : DB)
    (id : String) :
    (∃ e, DocumentResource.Delete parse now db id = (.error e, db)) ∨
    (∃ uid d rows, parse id = some uid ∧ gorm.First db.documents uid = .ok d ∧
      gorm.Delete now db.documents d = .ok rows ∧
      DocumentResource.Delete parse now db id =
        (.ok { Res := none, Code := StatusNoContent }, { db with documents := rows })) := by
  cases hp : parse id with
  | none => left; exact ⟨_, by unfold DocumentResource.Delete; simp only [hp]; rfl⟩
  | some uid =>
    cases hu : gorm.First db.documents uid with
    | error err => left; exact ⟨_, by unfold DocumentResource.Delete; simp only [hp, hu]; rfl⟩
    | ok d =>
      cases hd : gorm.Delete now db.documents d with
      | error err =>
        left; exact ⟨_, by unfold DocumentResource.Delete; simp only [hp, hu, hd]; rfl⟩
      | ok rows =>
        right
        exact ⟨uid, d, rows, rfl, hu, hd, by
          unfold DocumentResource.Delete; simp only [hp, hu, hd]⟩

theorem folderDelete_effect (parse : String → Option UUID) (now : Time) (db : DB)
    (id : String) :
    (∃ e, FolderResource.Delete parse now db id = (.error e, db)) ∨
    (∃ uid f rows, parse id = some uid ∧ gorm.First db.folders uid = .ok f ∧
      gorm.Count db.folders (fun c => c.ParentID == some uid) = 0 ∧
      gorm.Count db.documents (fun d => d.FolderID == some uid) = 0 ∧
      gorm.Delete now db.folders f = .ok rows ∧
      FolderResource.Delete parse now db id =
        (.ok { Res := none, Code := StatusNoContent }, { db with folders := rows })) := by
  cases hp : parse id with
  | none => left; exact ⟨_, by unfold FolderResource.Delete; simp only [hp]; rfl⟩
  | some uid =>
    cases hu : gorm.First db.folders uid with
    | error err => left; exact ⟨_, by unfold FolderResource.Delete; simp only [hp, hu]; rfl⟩
    | ok f =>
      by_cases h1 : gorm.Count db.folders (fun c => c.ParentID == some uid) > 0
      · left
        exact ⟨_, by unfold FolderResource.Delete; simp only [hp, hu, h1, if_true]; rfl⟩
      · by_cases h2 : gorm.Count db.documents (fun d => d.FolderID == some uid) > 0
        · left
          exact ⟨_, by
            unfold FolderResource.Delete
            simp only [hp, hu, h1, if_false, h2, if_true]
            rfl⟩
        · cases hd : gorm.Delete now db.folders f with
          | error err =>
            left
            exact ⟨_, by
              unfold FolderResource.Delete
              simp only [hp, hu, h1, if_false, h2, hd]
              rfl⟩
          | ok rows =>
            right
            exact ⟨uid, f, rows, rfl, hu, by omega, by omega, hd, by
              unfold FolderResource.Delete
              simp only [hp, hu, h1, if_false, h2, hd]⟩

/-! ## Identity allocation -/

/-- C13. With `uuid.New()` yielding a non-nil id: `BeforeCreate` of each model returns an
entity with a non-nil id unchanged, and an entity with the nil id with exactly its id replaced
by the generated one; and every successful `Create` of the three resources returns an entity
whose id is not the nil UUID. -/
theorem C13_beforeCreate_assigns_id (now : Time) (newID : UUID) (db : DB)
    (hnew : newID ≠ uuid.Nil) :
    (∀ u : User, (u.ID ≠ uuid.Nil → User.BeforeCreate newID u = u) ∧
      (u.ID = uuid.Nil → User.BeforeCreate newID u = { u with ID := newID } ∧
        (User.BeforeCreate newID u).ID ≠ uuid.Nil)) ∧
    (∀ f : Folder, (f.ID ≠ uuid.Nil → Folder.BeforeCreate newID f = f) ∧
      (f.ID = uuid.Nil → Folder.BeforeCreate newID f = { f with ID := newID } ∧
        (Folder.BeforeCreate newID f).ID ≠ uuid.Nil)) ∧
    (∀ d : Document, (d.ID ≠ uuid.Nil → Document.BeforeCreate newID d = d) ∧
      (d.ID = uuid.Nil → Document.BeforeCreate newID d = { d with ID := newID } ∧
        (Document.BeforeCreate newID d).ID ≠ uuid.Nil)) ∧
    (∀ obj r, (UserResource.Create now newID db obj).1 = .ok r →
      ∃ x, r.Res = some x ∧ x.ID ≠ uuid.Nil) ∧
    (∀ obj r, (FolderResource.Create now newID db obj).1 = .ok r →
      ∃ x, r.Res = some x ∧ x.ID ≠ uuid.Nil) ∧
    (∀ obj r, (DocumentResource.Create now newID db obj).1 = .ok r →
      ∃ x, r.Res = some x ∧ x.ID ≠ uuid.Nil) := by
  have hid : ∀ cid : UUID, (if cid = uuid.Nil then newID else cid) ≠ uuid.Nil := by
    intro cid
    split_ifs with hn
    · exact hnew
    · exact hn
  refine ⟨?_, ?_, ?_, ?_, ?_, ?_⟩
  · intro u
    unfold User.BeforeCreate
    exact ⟨fun h => by rw [if_neg h], fun h => by rw [if_pos h]; exact ⟨rfl, hnew⟩⟩
  · intro f
    unfold Folder.BeforeCreate
    exact ⟨fun h => by rw [if_neg h], fun h => by rw [if_pos h]; exact ⟨rfl, hnew⟩⟩
  · intro d
    unfold Document.BeforeCreate
    exact ⟨fun h => by rw [if_neg h], fun h => by rw [if_pos h]; exact ⟨rfl, hnew⟩⟩
  · intro obj r h
    rcases userCreate_effect now newID db obj with ⟨e, he⟩ | ⟨c, x, rows, _, hc, heq⟩
    · rw [he] at h; cases h
    · rw [heq] at h
      simp only [Except.ok.injEq] at h
      refine ⟨x, by rw [← h], ?_⟩
      rw [(Create_ok_spec hc).1, (prepareCreate_user now newID c).2.2.2]
      exact hid c.ID
  · intro obj r h
    rcases folderCreate_effect now newID db obj with
      ⟨e, he⟩ | ⟨c, x, rows, _, _, hc, heq⟩
    · rw [he] at h; cases h
    · rw [heq] at h
      simp only [Except.ok.injEq] at h
      refine ⟨x, by rw [← h], ?_⟩
      rw [(Create_ok_spec hc).1, (prepareCreate_folder now newID c).2.2.2.2]
      exact hid c.ID
  · intro obj r h
    rcases documentCreate_effect now newID db obj with
      ⟨e, he⟩ | ⟨c, x, rows, _, _, hc, heq⟩
    · rw [he] at h; cases h
    · rw [heq] at h
      simp only [Except.ok.injEq] at h
      refine ⟨x, by rw [← h], ?_⟩
      rw [(Create_ok_spec hc).1, (prepareCreate_document now newID c).2.2.2.2.2]
      exact hid c.ID

/-- C13, witness: the `Create` subtests' candidates carry the nil id; with 7 generated, the
hook assigns 7 and the created folder is returned with id 7. -/
theorem C13_beforeCreate_assigns_id_witness :
    Folder.BeforeCreate 7 { ID := 0, Name := "Test Folder", UserID := 1, ParentID := none,
                            CreatedAt := 0, UpdatedAt := 0, DeletedAt := none } =
      { ID := 7, Name := "Test Folder", UserID := 1, ParentID := none,
        CreatedAt := 0, UpdatedAt := 0, DeletedAt := none } ∧
    ∃ x : Folder, x.ID ≠ uuid.Nil ∧
      (FolderResource.Create 3 7 folderTestStore
        (.Folder { ID := 0, Name := "Test Folder", UserID := 1, ParentID := none,
                   CreatedAt := 0, UpdatedAt := 0, DeletedAt := none })).1 =
        .ok { Res := some x, Code := StatusCreated } := by
  have h := C13_beforeCreate_assigns_id 3 7 folderTestStore (by decide)
  refine ⟨((h.2.1 _).2 rfl).1, ?_⟩
  obtain ⟨x, hx, hne⟩ := h.2.2.2.2.1
    (.Folder { ID := 0, Name := "Test Folder", UserID := 1, ParentID := none,
               CreatedAt := 0, UpdatedAt := 0, DeletedAt := none })
    { Res := some { ID := 7, Name := "Test Folder", UserID := 1, ParentID := none,
                    CreatedAt := 3, UpdatedAt := 3, DeletedAt := none },
      Code := StatusCreated } (by decide)
  simp only [Option.some.injEq] at hx
  exact ⟨x, hne, by rw [← hx]; decide⟩

/-! ## The folder and document graph over sequences of calls -/

/-- C14, at the failing input: every call of the sequence succeeds, and in the store reached
the non-deleted document 4 references folder 2, which the last `Update` (candidate with
`deleted_at` set) has soft-deleted. -/
theorem C14_document_in_deleted_folder_reached :
    (∀ op ∈ softDeletingUpdateCalls, op.freshID = true) ∧
    allSucceed parseDecimal softDeletingUpdateCalls DB.empty = true ∧
    (run parseDecimal softDeletingUpdateCalls DB.empty).documents =
      [{ ID := 4, Title := "Notes", Content := "text", UserID := 1, FolderID := some 2,
         CreatedAt := 4, UpdatedAt := 4, DeletedAt := none }] ∧
    gorm.First (run parseDecimal softDeletingUpdateCalls DB.empty).folders 2 =
      .error .ErrRecordNotFound ∧
    (run parseDecimal softDeletingUpdateCalls DB.empty).documentsWellPlaced = false := by
  decide

/-- C15, at the failing input: every call of the sequence succeeds, and in the store reached
the non-deleted folder 3 has `parent_id = 2` while folder 2 is soft-deleted. -/
theorem C15_folder_under_deleted_parent_reached :
    (∀ op ∈ softDeletingUpdateCalls, op.freshID = true) ∧
    allSucceed parseDecimal softDeletingUpdateCalls DB.empty = true ∧
    (run parseDecimal softDeletingUpdateCalls DB.empty).folders =
      [{ ID := 2, Name := "Inbox", UserID := 1, ParentID := none,
         CreatedAt := 2, UpdatedAt := 5, DeletedAt := some 5 },
       { ID := 3, Name := "Sub", UserID := 1, ParentID := some 2,
         CreatedAt := 3, UpdatedAt := 3, DeletedAt := none }] ∧
    (run parseDecimal softDeletingUpdateCalls DB.empty).foldersWellParented = false := by
  decide

/-- C16, at the failing input: every call of the sequence succeeds, and in the store reached
folder 2 has parent 3 and folder 3 has parent 2, so folder 2 is reachable from itself. -/
theorem C16_mutual_parents_reached :
    (∀ op ∈ mutualParentCalls, op.freshID = true) ∧
    allSucceed parseDecimal mutualParentCalls DB.empty = true ∧
    (run parseDecimal mutualParentCalls DB.empty).parentEdge 2 3 ∧
    (run parseDecimal mutualParentCalls DB.empty).parentEdge 3 2 ∧
    (run parseDecimal mutualParentCalls DB.empty).hasParentCycle := by
  have h23 : (run parseDecimal mutualParentCalls DB.empty).parentEdge 2 3 := by decide
  have h32 : (run parseDecimal mutualParentCalls DB.empty).parentEdge 3 2 := by decide
  exact ⟨by decide, by decide, h23, h32, 2, Relation.TransGen.tail (Relation.TransGen.single h23) h32⟩

theorem Delete_ok_rows {α : Type} [Model α] {now : Time} {rows rows' : List α} {x : α}
    (h : gorm.Delete now rows x = .ok rows') :
    Model.ID x ≠ uuid.Nil ∧
      rows' = rows.map (fun r =>
        if gorm.live r && Model.ID r == Model.ID x then Model.setDeletedAt (some now) r else r) := by
  unfold gorm.Delete at h
  split_ifs at h with hn
  simp only [Except.ok.injEq] at h
  exact ⟨hn, h.symm⟩

theorem folderInv_step (parse : String → Option UUID) (db : DB) (op : Op)
    (hfresh : op.freshID = true) (hk : db.folderKeysSet) (hs : db.noSelfParent) :
    (op.apply parse db).folderKeysSet ∧ (op.apply parse db).noSelfParent := by
  cases op with
  | UserCreate now newID obj =>
    rcases userCreate_effect now newID db obj with ⟨e, he⟩ | ⟨c, x, rows, _, _, heq⟩
    · simp only [Op.apply, he]; exact ⟨hk, hs⟩
    · simp only [Op.apply, heq]; exact ⟨hk, hs⟩
  | UserUpdate now newID obj =>
    rcases userUpdate_effect now newID db obj with
      ⟨e, he⟩ | ⟨c, E, x, rows, _, _, _, heq⟩
    · simp only [Op.apply, he]; exact ⟨hk, hs⟩
    · simp only [Op.apply, heq]; exact ⟨hk, hs⟩
  | UserDelete now id =>
    rcases userDelete_effect parse now db id with ⟨e, he⟩ | ⟨u, x, rows, _, _, _, heq⟩
    · simp only [Op.apply, he]; exact ⟨hk, hs⟩
    · simp only [Op.apply, heq]; exact ⟨hk, hs⟩
  | DocumentCreate now newID obj =>
    rcases documentCreate_effect now newID db obj with
      ⟨e, he⟩ | ⟨c, x, rows, _, _, _, heq⟩
    · simp only [Op.apply, he]; exact ⟨hk, hs⟩
    · simp only [Op.apply, heq]; exact ⟨hk, hs⟩
  | DocumentUpdate now newID obj =>
    rcases documentUpdate_effect now newID db obj with
      ⟨e, he⟩ | ⟨c, E, x, rows, _, _, _, _, heq⟩
    · simp only [Op.apply, he]; exact ⟨hk, hs⟩
    · simp only [Op.apply, heq]; exact ⟨hk, hs⟩
  | DocumentDelete now id =>
    rcases documentDelete_effect parse now db id with
      ⟨e, he⟩ | ⟨u, x, rows, _, _, _, heq⟩
    · simp only [Op.apply, he]; exact ⟨hk, hs⟩
    · simp only [Op.apply, heq]; exact ⟨hk, hs⟩
  | FolderCreate now newID obj =>
    have hnew : newID ≠ uuid.Nil := by simpa [Op.freshID] using hfresh
    rcases folderCreate_effect now newID db obj with
      ⟨e, he⟩ | ⟨c, x, rows, _, hpar, hc, heq⟩
    · simp only [Op.apply, he]; exact ⟨hk, hs⟩
    · simp only [Op.apply, heq]
      obtain ⟨hx, hrows, hfree⟩ := Create_ok_spec hc
      obtain ⟨_, _, hxp, _, hxid⟩ := prepareCreate_folder now newID c
      rw [← hx] at hxp hxid
      have hxnil : x.ID ≠ uuid.Nil := by
        rw [hxid]
        split_ifs with hn
        · exact hnew
        · exact hn
      have hxself : x.ParentID ≠ some x.ID := by
        intro hself
        rw [hxp] at hself
        obtain ⟨Pf, hP⟩ := hpar x.ID hself
        obtain ⟨hm, _, hi⟩ := gorm.First_ok_spec hP
        exact hfree Pf hm hi
      constructor
      · intro f hf
        rw [hrows, List.mem_append, List.mem_singleton] at hf
        rcases hf with hf | hf
        · exact hk f hf
        · rw [hf]; exact hxnil
      · intro f hf
        rw [hrows, List.mem_append, List.mem_singleton] at hf
        rcases hf with hf | hf
        · exact hs f hf
        · rw [hf]; exact hxself
  | FolderUpdate now newID obj =>
    rcases folderUpdate_effect now newID db obj with
      ⟨e, he⟩ | ⟨c, E, saved, rows, _, hE, hpar, hsave, heq⟩
    · simp only [Op.apply, he]; exact ⟨hk, hs⟩
    · simp only [Op.apply, heq]
      obtain ⟨hEm, _, hEi⟩ := gorm.First_ok_spec hE
      have hcnil : c.ID ≠ uuid.Nil := by
        have := hk E hEm
        rwa [show E.ID = c.ID from hEi] at this
      have hE' : gorm.First db.folders ({ c with UserID := E.UserID } : Folder).ID = .ok E := hE
      rw [Save_folder_of_First now newID hE'] at hsave
      simp only [hcnil, if_false, Except.ok.injEq, Prod.mk.injEq] at hsave
      obtain ⟨hx, hrows⟩ := hsave
      have hsid : saved.ID = c.ID := by rw [← hx]
      have hspar : saved.ParentID = c.ParentID := by rw [← hx]
      have hmem : ∀ f ∈ rows, f ∈ db.folders ∨ f = saved := by
        intro f hf
        rw [← hrows, List.mem_map] at hf
        obtain ⟨r0, hr0, hf0⟩ := hf
        split_ifs at hf0
        · right; rw [← hf0, hx]
        · left; rw [← hf0]; exact hr0
      constructor
      · intro f hf
        rcases hmem f hf with h | h
        · exact hk f h
        · rw [h, hsid]; exact hcnil
      · intro f hf
        rcases hmem f hf with h | h
        · exact hs f h
        · rw [h, hsid, hspar]
          intro hself
          exact (hpar c.ID hself).1 rfl
  | FolderDelete now id =>
    rcases folderDelete_effect parse now db id with
      ⟨e, he⟩ | ⟨u, x, rows, _, _, _, _, hd, heq⟩
    · simp only [Op.apply, he]; exact ⟨hk, hs⟩
    · simp only [Op.apply, heq]
      obtain ⟨_, hrows⟩ := Delete_ok_rows hd
      have hmem : ∀ f ∈ rows, ∃ r ∈ db.folders, f.ID = r.ID ∧ f.ParentID = r.ParentID := by
        intro f hf
        rw [hrows, List.mem_map] at hf
        obtain ⟨r0, hr0, hf0⟩ := hf
        refine ⟨r0, hr0, ?_⟩
        split_ifs at hf0
        · rw [← hf0]; exact ⟨rfl, rfl⟩
        · rw [← hf0]; exact ⟨rfl, rfl⟩
      constructor
      · intro f hf
        obtain ⟨r, hr, hi, _⟩ := hmem f hf
        rw [hi]; exact hk r hr
      · intro f hf
        obtain ⟨r, hr, hi, hp⟩ := hmem f hf
        rw [hi, hp]; exact hs r hr

theorem folderInv_run (parse : String → Option UUID) (ops : List Op) :
    ∀ db : DB, (∀ op ∈ ops, op.freshID = true) → db.folderKeysSet → db.noSelfParent →
      (run parse ops db).folderKeysSet ∧ (run parse ops db).noSelfParent := by
  induction ops with
  | nil => intro db _ hk hs; exact ⟨hk, hs⟩
  | cons op ops ih =>
    intro db hfresh hk hs
    obtain ⟨hk', hs'⟩ := folderInv_step parse db op (hfresh op (List.mem_cons_self _ _)) hk hs
    exact ih (op.apply parse db) (fun o ho => hfresh o (List.mem_cons_of_mem _ ho)) hk' hs'

/-- C17. In every store state reachable from the empty store by a sequence of controller
calls (caller-supplied ids included), no stored folder has `parent_id` equal to its own id. -/
theorem C17_reachable_no_self_parent (parse : String → Option UUID) (db : DB)
    (hreach : Reachable parse db) : db.noSelfParent := by
  obtain ⟨ops, hfresh, hrun⟩ := hreach
  rw [← hrun]
  exact (folderInv_run parse ops DB.empty hfresh
    (fun f hf => by cases hf) (fun f hf => by cases hf)).2

/-- C17, witness: the store reached by the mutual-parent calls has no self-parented folder. -/
theorem C17_reachable_no_self_parent_witness :
    (run parseDecimal mutualParentCalls DB.empty).noSelfParent :=
  C17_reachable_no_self_parent parseDecimal (run parseDecimal mutualParentCalls DB.empty)
    ⟨mutualParentCalls, by decide, rfl⟩

/-! ## Deleted entities stay deleted -/

theorem buried_Create {α : Type} [Model α] {now : Time} {newID : UUID} {rows rows' : List α}
    {c x : α} {i : UUID} (h : gorm.Create now newID rows c = .ok (x, rows'))
    (hb : buried i rows) : buried i rows' := by
  obtain ⟨_, hrows, hfree⟩ := Create_ok_spec h
  obtain ⟨⟨r0, hr0, hi0⟩, hall⟩ := hb
  constructor
  · exact ⟨r0, by rw [hrows]; exact List.mem_append_left _ hr0, hi0⟩
  · intro r hr hi
    rw [hrows, List.mem_append, List.mem_singleton] at hr
    rcases hr with hr | hr
    · exact hall r hr hi
    · exfalso
      rw [hr] at hi
      exact hfree r0 hr0 (hi0.trans hi.symm)

theorem buried_Save {α : Type} [Model α] [LawfulModel α] {now : Time} {newID : UUID}
    {rows rows' : List α} {c E x : α} {i : UUID} (hE : gorm.First rows (Model.ID c) = .ok E)
    (h : gorm.Save now newID rows c = .ok (x, rows')) (hb : buried i rows) :
    buried i rows' := by
  unfold gorm.Save at h
  by_cases hnil : Model.ID c = uuid.Nil
  · rw [if_pos hnil] at h
    exact buried_Create h hb
  · rw [if_neg hnil] at h
    simp only [any_live_of_First hE, if_true] at h
    cases hv : gorm.updateViolation rows (Model.setUpdatedAt now c) with
    | some e => rw [hv] at h; cases h
    | none =>
      rw [hv] at h
      simp only [Except.ok.injEq, Prod.mk.injEq] at h
      obtain ⟨_, hrows⟩ := h
      obtain ⟨hEm, hEd, hEi⟩ := gorm.First_ok_spec hE
      obtain ⟨⟨r0, hr0, hi0⟩, hall⟩ := hb
      have hci : Model.ID c ≠ i := by
        intro hci
        exact hall E hEm (hEi.trans hci) hEd
      constructor
      · refine ⟨r0, ?_, hi0⟩
        rw [← hrows, List.mem_map]
        refine ⟨r0, hr0, ?_⟩
        have hdead : gorm.live r0 = false := by
          cases hl : gorm.live r0 with
          | false => rfl
          | true => exact absurd ((gorm.live_iff r0).1 hl) (hall r0 hr0 hi0)
        simp [hdead]
      · intro r hr hi
        rw [← hrows, List.mem_map] at hr
        obtain ⟨r1, hr1, hr⟩ := hr
        split_ifs at hr
        · exfalso
          rw [← hr, LawfulModel.ID_setUpdatedAt] at hi
          exact hci hi
        · rw [← hr] at hi ⊢
          exact hall r1 hr1 hi

theorem buried_Delete {α : Type} [Model α] [LawfulModel α] {now : Time}
    {rows rows' : List α} {x : α} {i : UUID} (h : gorm.Delete now rows x = .ok rows')
    (hb : buried i rows) : buried i rows' := by
  obtain ⟨_, hrows⟩ := Delete_ok_rows h
  obtain ⟨⟨r0, hr0, hi0⟩, hall⟩ := hb
  constructor
  · have hg : Model.ID (if gorm.live r0 && Model.ID r0 == Model.ID x then
        Model.setDeletedAt (some now) r0 else r0) = i := by
      split_ifs
      · rw [LawfulModel.ID_setDeletedAt]; exact hi0
      · exact hi0
    exact ⟨_, by rw [hrows]; exact List.mem_map.2 ⟨r0, hr0, rfl⟩, hg⟩
  · intro r hr hi
    rw [hrows, List.mem_map] at hr
    obtain ⟨r1, hr1, hr⟩ := hr
    split_ifs at hr
    · rw [← hr, LawfulModel.DeletedAt_setDeletedAt]
      exact Option.some_ne_none _
    · rw [← hr] at hi ⊢
      exact hall r1 hr1 hi

theorem buried_of_Delete {α : Type} [Model α] [LawfulModel α] {now : Time}
    {rows rows' : List α} {x : α} {i : UUID} (hx : gorm.First rows i = .ok x)
    (h : gorm.Delete now rows x = .ok rows') : buried i rows' := by
  obtain ⟨_, hrows⟩ := Delete_ok_rows h
  obtain ⟨hxm, _, hxi⟩ := gorm.First_ok_spec hx
  constructor
  · have hg : Model.ID (if gorm.live x && Model.ID x == Model.ID x then
        Model.setDeletedAt (some now) x else x) = i := by
      split_ifs
      · rw [LawfulModel.ID_setDeletedAt]; exact hxi
      · exact hxi
    exact ⟨_, by rw [hrows]; exact List.mem_map.2 ⟨x, hxm, rfl⟩, hg⟩
  · intro r hr hi
    rw [hrows, List.mem_map] at hr
    obtain ⟨r1, hr1, hr⟩ := hr
    split_ifs at hr with hc
    · rw [← hr, LawfulModel.DeletedAt_setDeletedAt]
      exact Option.some_ne_none _
    · rw [← hr] at hi ⊢
      intro hd
      apply hc
      simp [(gorm.live_iff r1).2 hd, hi, hxi]

theorem buried_absent {α : Type} [Model α] {rows : List α} {i : UUID} (hb : buried i rows) :
    gorm.First rows i = .error .ErrRecordNotFound ∧
      gorm.Count rows (fun r => Model.ID r == i) = 0 := by
  constructor
  · exact First_error_of_absent rows i (fun r hr hd hi => hb.2 r hr hi hd)
  · rw [gorm.Count_eq_zero_iff]
    intro r hr hd
    cases hq : (Model.ID r == i) with
    | false => rfl
    | true => exact absurd hd (hb.2 r hr (by simpa using hq))

theorem buried_step (parse : String → Option UUID) (db : DB) (op : Op) (i : UUID) :
    (buried i db.users → buried i (op.apply parse db).users) ∧
    (buried i db.folders → buried i (op.apply parse db).folders) ∧
    (buried i db.documents → buried i (op.apply parse db).documents) := by
  cases op with
  | UserCreate now newID obj =>
    rcases userCreate_effect now newID db obj with ⟨e, he⟩ | ⟨c, x, rows, _, hc, heq⟩
    · simp only [Op.apply, he]; exact ⟨id, id, id⟩
    · simp only [Op.apply, heq]; exact ⟨buried_Create hc, id, id⟩
  | UserUpdate now newID obj =>
    rcases userUpdate_effect now newID db obj with
      ⟨e, he⟩ | ⟨c, E, x, rows, _, hE, hs, heq⟩
    · simp only [Op.apply, he]; exact ⟨id, id, id⟩
    · simp only [Op.apply, heq]; exact ⟨buried_Save hE hs, id, id⟩
  | UserDelete now sid =>
    rcases userDelete_effect parse now db sid with
      ⟨e, he⟩ | ⟨u, x, rows, _, _, hd, heq⟩
    · simp only [Op.apply, he]; exact ⟨id, id, id⟩
    · simp only [Op.apply, heq]; exact ⟨buried_Delete hd, id, id⟩
  | FolderCreate now newID obj =>
    rcases folderCreate_effect now newID db obj with
      ⟨e, he⟩ | ⟨c, x, rows, _, _, hc, heq⟩
    · simp only [Op.apply, he]; exact ⟨id, id, id⟩
    · simp only [Op.apply, heq]; exact ⟨id, buried_Create hc, id⟩
  | FolderUpdate now newID obj =>
    rcases folderUpdate_effect now newID db obj with
      ⟨e, he⟩ | ⟨c, E, x, rows, _, hE, _, hs, heq⟩
    · simp only [Op.apply, he]; exact ⟨id, id, id⟩
    · simp only [Op.apply, heq]
      have hE' : gorm.First db.folders
          (Model.ID ({ c with UserID := E.UserID } : Folder)) = .ok E := hE
      exact ⟨id, buried_Save hE' hs, id⟩
  | FolderDelete now sid =>
    rcases folderDelete_effect parse now db sid with
      ⟨e, he⟩ | ⟨u, x, rows, _, _, _, _, hd, heq⟩
    · simp only [Op.apply, he]; exact ⟨id, id, id⟩
    · simp only [Op.apply, heq]; exact ⟨id, buried_Delete hd, id⟩
  | DocumentCreate now newID obj =>
    rcases documentCreate_effect now newID db obj with
      ⟨e, he⟩ | ⟨c, x, rows, _, _, hc, heq⟩
    · simp only [Op.apply, he]; exact ⟨id, id, id⟩
    · simp only [Op.apply, heq]; exact ⟨id, id, buried_Create hc⟩
  | DocumentUpdate now newID obj =>
    rcases documentUpdate_effect now newID db obj with
      ⟨e, he⟩ | ⟨c, E, x, rows, _, hE, _, hs, heq⟩
    · simp only [Op.apply, he]; exact ⟨id, id, id⟩
    · simp only [Op.apply, heq]
      have hE' : gorm.First db.documents
          (Model.ID ({ c with UserID := E.UserID } : Document)) = .ok E := hE
      exact ⟨id, id, buried_Save hE' hs⟩
  | DocumentDelete now sid =>
    rcases documentDelete_effect parse now db sid with
      ⟨e, he⟩ | ⟨u, x, rows, _, _, hd, heq⟩
    · simp only [Op.apply, he]; exact ⟨id, id, id⟩
    · simp only [Op.apply, heq]; exact ⟨id, id, buried_Delete hd⟩

theorem buried_run (parse : String → Option UUID) (i : UUID) (ops : List Op) :
    ∀ db : DB,
      (buried i db.users → buried i (run parse ops db).users) ∧
      (buried i db.folders → buried i (run parse ops db).folders) ∧
      (buried i db.documents → buried i (run parse ops db).documents) := by
  induction ops with
  | nil => intro db; exact ⟨id, id, id⟩
  | cons op ops ih =>
    intro db
    obtain ⟨h1, h2, h3⟩ := buried_step parse db op i
    obtain ⟨k1, k2, k3⟩ := ih (op.apply parse db)
    exact ⟨fun h => k1 (h1 h), fun h => k2 (h2 h), fun h => k3 (h3 h)⟩

/-- C18. Once `Delete` of a user, folder or document with id `i` has succeeded, then after
every subsequent sequence of controller calls `FindOne` of that id fails with 404 and no
non-deleted row of that resource has id `i`. -/
theorem C18_deleted_stays_deleted (parse : String → Option UUID) (now : Time) (db : DB)
    (id : String) (i : UUID) (hid : parse id = some i) (ops : List Op) :
    (succeeded (UserResource.Delete parse now db id) = true →
      UserResource.FindOne parse (run parse ops (UserResource.Delete parse now db id).2) id =
        .error (NewHTTPError (some .ErrRecordNotFound) "User not found" StatusNotFound) ∧
      gorm.Count (run parse ops (UserResource.Delete parse now db id).2).users
        (fun r => r.ID == i) = 0) ∧
    (succeeded (FolderResource.Delete parse now db id) = true →
      FolderResource.FindOne parse (run parse ops (FolderResource.Delete parse now db id).2) id =
        .error (NewHTTPError (some .ErrRecordNotFound) "Folder not found" StatusNotFound) ∧
      gorm.Count (run parse ops (FolderResource.Delete parse now db id).2).folders
        (fun r => r.ID == i) = 0) ∧
    (succeeded (DocumentResource.Delete parse now db id) = true →
      DocumentResource.FindOne parse
          (run parse ops (DocumentResource.Delete parse now db id).2) id =
        .error (NewHTTPError (some .ErrRecordNotFound) "Document not found" StatusNotFound) ∧
      gorm.Count (run parse ops (DocumentResource.Delete parse now db id).2).documents
        (fun r => r.ID == i) = 0) := by
  refine ⟨?_, ?_, ?_⟩
  · intro hs
    rcases userDelete_effect parse now db id with
      ⟨e, he⟩ | ⟨u, x, rows, hp, hx, hd, heq⟩
    · rw [he] at hs; cases hs
    · rw [hid] at hp
      cases hp
      rw [heq]
      have hb := (buried_run parse i ops { db with users := rows }).1 (buried_of_Delete hx hd)
      obtain ⟨hF, hC⟩ := buried_absent hb
      refine ⟨?_, hC⟩
      unfold UserResource.FindOne
      simp only [hid, hF]
      rfl
  · intro hs
    rcases folderDelete_effect parse now db id with
      ⟨e, he⟩ | ⟨u, x, rows, hp, hx, _, _, hd, heq⟩
    · rw [he] at hs; cases hs
    · rw [hid] at hp
      cases hp
      rw [heq]
      have hb := (buried_run parse i ops { db with folders := rows }).2.1 (buried_of_Delete hx hd)
      obtain ⟨hF, hC⟩ := buried_absent hb
      refine ⟨?_, hC⟩
      unfold FolderResource.FindOne
      simp only [hid, hF]
      rfl
  · intro hs
    rcases documentDelete_effect parse now db id with
      ⟨e, he⟩ | ⟨u, x, rows, hp, hx, hd, heq⟩
    · rw [he] at hs; cases hs
    · rw [hid] at hp
      cases hp
      rw [heq]
      have hb := (buried_run parse i ops { db with documents := rows }).2.2 (buried_of_Delete hx hd)
      obtain ⟨hF, hC⟩ := buried_absent hb
      refine ⟨?_, hC⟩
      unfold DocumentResource.FindOne
      simp only [hid, hF]
      rfl

/-- C18, witness: document 5 of the library store is deleted; an update, a creation with the
same id and a second deletion later, `FindOne` still answers 404. -/
theorem C18_deleted_stays_deleted_witness :
    DocumentResource.FindOne parseDecimal
        (run parseDecimal reviveAttempts
          (DocumentResource.Delete parseDecimal 8 libraryStore "5").2) "5" =
      .error (NewHTTPError (some .ErrRecordNotFound) "Document not found" StatusNotFound) :=
  ((C18_deleted_stays_deleted parseDecimal 8 libraryStore "5" 5 (by decide)
    reviveAttempts).2.2 (by decide)).1

/-! ## Update and the soft-delete column -/

/-- C19, at the failing input: candidates with the id of the existing user 1, folder 3 and
document 5 of the library store that carry `deleted_at`; each `Update` succeeds with 200 and
afterwards the entity is no longer found: the update has soft-deleted it. -/
theorem C19_update_soft_deletes :
    (succeeded (UserResource.Update 9 99 libraryStore
        (.User { ID := 1, Username := "alice", Email := "alice@example.com",
                 CreatedAt := 1, UpdatedAt := 1, DeletedAt := some 9 })) = true ∧
      gorm.First (UserResource.Update 9 99 libraryStore
        (.User { ID := 1, Username := "alice", Email := "alice@example.com",
                 CreatedAt := 1, UpdatedAt := 1, DeletedAt := some 9 })).2.users 1 =
        .error .ErrRecordNotFound) ∧
    (succeeded (FolderResource.Update 9 99 libraryStore
        (.Folder { ID := 3, Name := "Alice", UserID := 1, ParentID := none,
                   CreatedAt := 2, UpdatedAt := 2, DeletedAt := some 9 })) = true ∧
      (FolderResource.Update 9 99 libraryStore
        (.Folder { ID := 3, Name := "Alice", UserID := 1, ParentID := none,
                   CreatedAt := 2, UpdatedAt := 2, DeletedAt := some 9 })).2.folders =
        [{ ID := 3, Name := "Alice", UserID := 1, ParentID := none,
           CreatedAt := 2, UpdatedAt := 9, DeletedAt := some 9 },
         { ID := 4, Name := "Bob", UserID := 2, ParentID := none,
           CreatedAt := 2, UpdatedAt := 2, DeletedAt := none }] ∧
      gorm.First (FolderResource.Update 9 99 libraryStore
        (.Folder { ID := 3, Name := "Alice", UserID := 1, ParentID := none,
                   CreatedAt := 2, UpdatedAt := 2, DeletedAt := some 9 })).2.folders 3 =
        .error .ErrRecordNotFound) ∧
    (succeeded (DocumentResource.Update 9 99 libraryStore
        (.Document { ID := 5, Title := "Notes", Content := "first", UserID := 1,
                     FolderID := some 3, CreatedAt := 3, UpdatedAt := 3,
                     DeletedAt := some 9 })) = true ∧
      gorm.First (DocumentResource.Update 9 99 libraryStore
        (.Document { ID := 5, Title := "Notes", Content := "first", UserID := 1,
                     FolderID := some 3, CreatedAt := 3, UpdatedAt := 3,
                     DeletedAt := some 9 })).2.documents 5 =
        .error .ErrRecordNotFound) := by
  decide

/-- C20, at the failing input: the update of document 5 with a new title and content and
`deleted_at` set succeeds and the response carries the candidate's fields, but the record
cannot be read back by id: `FindOne` answers 404. -/
theorem C20_update_not_read_back :
    (DocumentResource.Update 9 99 libraryStore
        (.Document { ID := 5, Title := "Updated Document", Content := "Updated Content",
                     UserID := 1, FolderID := some 3, CreatedAt := 3, UpdatedAt := 3,
                     DeletedAt := some 9 })).1 =
      .ok { Res := some { ID := 5, Title := "Updated Document", Content := "Updated Content",
                          UserID := 1, FolderID := some 3, CreatedAt := 3, UpdatedAt := 9,
                          DeletedAt := some 9 }, Code := StatusOK } ∧
    DocumentResource.FindOne parseDecimal
        (DocumentResource.Update 9 99 libraryStore
          (.Document { ID := 5, Title := "Updated Document", Content := "Updated Content",
                       UserID := 1, FolderID := some 3, CreatedAt := 3, UpdatedAt := 3,
                       DeletedAt := some 9 })).2 "5" =
      .error (NewHTTPError (some .ErrRecordNotFound) "Document not found" StatusNotFound) := by
  decide

theorem Save_read_back {α : Type} [Model α] [LawfulModel α] {now : Time} {newID : UUID}
    {rows rows' : List α} {c E x : α} (hE : gorm.First rows (Model.ID c) = .ok E)
    (hnil : Model.ID c ≠ uuid.Nil) (hlive : Model.DeletedAt c = none)
    (h : gorm.Save now newID rows c = .ok (x, rows')) :
    x = Model.setUpdatedAt now c ∧ gorm.First rows' (Model.ID c) = .ok x := by
  unfold gorm.Save at h
  rw [if_neg hnil] at h
  simp only [any_live_of_First hE, if_true] at h
  cases hv : gorm.updateViolation rows (Model.setUpdatedAt now c) with
  | some e => rw [hv] at h; cases h
  | none =>
    rw [hv] at h
    simp only [Except.ok.injEq, Prod.mk.injEq] at h
    obtain ⟨hx, hrows⟩ := h
    refine ⟨hx.symm, ?_⟩
    have hxl : gorm.live x = true := by
      rw [gorm.live_iff, ← hx, LawfulModel.DeletedAt_setUpdatedAt]
      exact hlive
    have hxi : Model.ID x = Model.ID c := by
      rw [← hx, LawfulModel.ID_setUpdatedAt]
    have hfun : ((fun r => gorm.live r && Model.ID r == Model.ID c) ∘
        (fun r => if gorm.live r && Model.ID r == Model.ID c then Model.setUpdatedAt now c
          else r)) = (fun r => gorm.live r && Model.ID r == Model.ID c) := by
      funext r
      simp only [Function.comp]
      split_ifs with hc
      · rw [hx, hxl, hxi, hc]
        simp
      · rfl
    unfold gorm.First at hE ⊢
    rw [← hrows, List.find?_map, hfun]
    cases hf : rows.find? (fun r => gorm.live r && Model.ID r == Model.ID c) with
    | none => rw [hf] at hE; cases hE
    | some y =>
      have hy := List.find?_some hf
      simp only [Option.map_some']
      rw [if_pos hy, hx]

/-- Away from the soft-delete column the updates behave: for a candidate with a non-nil id
of an existing entity and `deleted_at` unset, a successful `Update` responds with the
candidate (owner restored, `updated_at` set) and reading its id back finds that record. -/
theorem Update_with_deleted_at_unset (now : Time) (newID : UUID) (db : DB) :
    (∀ (c E : User) r, gorm.First db.users c.ID = .ok E → c.ID ≠ uuid.Nil →
      c.DeletedAt = none → (UserResource.Update now newID db (.User c)).1 = .ok r →
      r.Res = some { c with UpdatedAt := now } ∧
      gorm.First (UserResource.Update now newID db (.User c)).2.users c.ID =
        .ok { c with UpdatedAt := now }) ∧
    (∀ (c E : Folder) r, gorm.First db.folders c.ID = .ok E → c.ID ≠ uuid.Nil →
      c.DeletedAt = none → (FolderResource.Update now newID db (.Folder c)).1 = .ok r →
      r.Res = some { c with UserID := E.UserID, UpdatedAt := now } ∧
      gorm.First (FolderResource.Update now newID db (.Folder c)).2.folders c.ID =
        .ok { c with UserID := E.UserID, UpdatedAt := now }) ∧
    (∀ (c E : Document) r, gorm.First db.documents c.ID = .ok E → c.ID ≠ uuid.Nil →
      c.DeletedAt = none → (DocumentResource.Update now newID db (.Document c)).1 = .ok r →
      r.Res = some { c with UserID := E.UserID, UpdatedAt := now } ∧
      gorm.First (DocumentResource.Update now newID db (.Document c)).2.documents c.ID =
        .ok { c with UserID := E.UserID, UpdatedAt := now }) := by
  refine ⟨?_, ?_, ?_⟩
  · intro c E r hE hnil hlive hr
    rcases userUpdate_effect now newID db (.User c) with
      ⟨e, he⟩ | ⟨c', E', saved, rows, hobj, hE', hs, heq⟩
    · rw [he] at hr; cases hr
    · cases hobj
      rw [heq] at hr ⊢
      simp only [Except.ok.injEq] at hr
      obtain ⟨hx, hF⟩ := Save_read_back (c := c) hE' hnil hlive hs
      rw [← hr]
      exact ⟨by rw [hx]; rfl, by rw [hx] at hF; exact hF⟩
  · intro c E r hE hnil hlive hr
    rcases folderUpdate_effect now newID db (.Folder c) with
      ⟨e, he⟩ | ⟨c', E', saved, rows, hobj, hE', _, hs, heq⟩
    · rw [he] at hr; cases hr
    · cases hobj
      rw [hE] at hE'
      cases hE'
      rw [heq] at hr ⊢
      simp only [Except.ok.injEq] at hr
      have hE2 : gorm.First db.folders
          (Model.ID ({ c with UserID := E.UserID } : Folder)) = .ok E := hE
      obtain ⟨hx, hF⟩ := Save_read_back hE2 hnil hlive hs
      rw [← hr]
      exact ⟨by rw [hx]; rfl, by rw [hx] at hF; exact hF⟩
  · intro c E r hE hnil hlive hr
    rcases documentUpdate_effect now newID db (.Document c) with
      ⟨e, he⟩ | ⟨c', E', saved, rows, hobj, hE', _, hs, heq⟩
    · rw [he] at hr; cases hr
    · cases hobj
      rw [hE] at hE'
      cases hE'
      rw [heq] at hr ⊢
      simp only [Except.ok.injEq] at hr
      have hE2 : gorm.First db.documents
          (Model.ID ({ c with UserID := E.UserID } : Document)) = .ok E := hE
      obtain ⟨hx, hF⟩ := Save_read_back hE2 hnil hlive hs
      rw [← hr]
      exact ⟨by rw [hx]; rfl, by rw [hx] at hF; exact hF⟩

/-! ## Precedence of the deletion guards -/

theorem Count_pos_iff {α : Type} [Model α] {rows : List α} {p : α → Bool} :
    gorm.Count rows p > 0 ↔ ∃ r ∈ rows, Model.DeletedAt r = none ∧ p r = true := by
  constructor
  · intro h
    by_contra hno
    have hz : gorm.Count rows p = 0 := by
      rw [gorm.Count_eq_zero_iff]
      intro r hr hd
      cases hp : p r with
      | false => rfl
      | true => exact absurd ⟨r, hr, hd, hp⟩ hno
    omega
  · rintro ⟨r, hr, hd, hp⟩
    rcases Nat.eq_zero_or_pos (gorm.Count rows p) with h | h
    · rw [gorm.Count_eq_zero_iff] at h
      have := h r hr hd
      rw [hp] at this
      cases this
    · exact h

/-- C23. For an existing folder: with a live child folder and a live document `Delete` fails
with 400 "Cannot delete folder with subfolders" (the subfolder guard runs first); and it
fails with 400 "Cannot delete folder with documents" exactly when the folder has no live
child folder and at least one live document. -/
theorem C23_children_reported_before_documents (parse : String → Option UUID) (now : Time)
    (db : DB) (id : String) (f : Folder) (hf : f ∈ db.folders) (hlive : f.DeletedAt = none)
    (hid : parse id = some f.ID) :
    ((∃ c ∈ db.folders, c.DeletedAt = none ∧ c.ParentID = some f.ID) →
      (∃ d ∈ db.documents, d.DeletedAt = none ∧ d.FolderID = some f.ID) →
      FolderResource.Delete parse now db id =
        (.error (NewHTTPError none "Cannot delete folder with subfolders" StatusBadRequest),
          db)) ∧
    ((FolderResource.Delete parse now db id).1 =
        .error (NewHTTPError none "Cannot delete folder with documents" StatusBadRequest) ↔
      (∀ c ∈ db.folders, c.DeletedAt = none → c.ParentID ≠ some f.ID) ∧
        ∃ d ∈ db.documents, d.DeletedAt = none ∧ d.FolderID = some f.ID) := by
  obtain ⟨f', hf'⟩ := gorm.First_ok_of_exists db.folders f.ID ⟨f, hf, hlive, rfl⟩
  have hsub : gorm.Count db.folders (fun c => c.ParentID == some f.ID) > 0 ↔
      ∃ c ∈ db.folders, c.DeletedAt = none ∧ c.ParentID = some f.ID := by
    rw [Count_pos_iff]
    constructor
    · rintro ⟨c, hc, hd, hp⟩
      exact ⟨c, hc, hd, by simpa using hp⟩
    · rintro ⟨c, hc, hd, hp⟩
      exact ⟨c, hc, hd, by simpa using hp⟩
  have hdoc : gorm.Count db.documents (fun d => d.FolderID == some f.ID) > 0 ↔
      ∃ d ∈ db.documents, d.DeletedAt = none ∧ d.FolderID = some f.ID := by
    rw [Count_pos_iff]
    constructor
    · rintro ⟨d, hd, hl, hp⟩
      exact ⟨d, hd, hl, by simpa using hp⟩
    · rintro ⟨d, hd, hl, hp⟩
      exact ⟨d, hd, hl, by simpa using hp⟩
  rw [Delete_folder_cases parse now db id f.ID f' hid hf']
  constructor
  · intro hc _
    rw [if_pos (hsub.2 hc)]
  · by_cases h1 : gorm.Count db.folders (fun c => c.ParentID == some f.ID) > 0
    · rw [if_pos h1]
      constructor
      · intro h
        simp [NewHTTPError] at h
      · rintro ⟨hno, _⟩
        obtain ⟨c, hc, hd, hp⟩ := hsub.1 h1
        exact absurd hp (hno c hc hd)
    · rw [if_neg h1]
      have hno : ∀ c ∈ db.folders, c.DeletedAt = none → c.ParentID ≠ some f.ID := by
        intro c hc hd hp
        exact h1 (hsub.2 ⟨c, hc, hd, hp⟩)
      by_cases h2 : gorm.Count db.documents (fun d => d.FolderID == some f.ID) > 0
      · rw [if_pos h2]
        exact ⟨fun _ => ⟨hno, hdoc.1 h2⟩, fun _ => rfl⟩
      · rw [if_neg h2]
        constructor
        · intro h
          split_ifs at h
          · simp [storeError, NewHTTPError] at h
        · rintro ⟨_, hd⟩
          exact absurd (hdoc.2 hd) h2

/-- C23, witness: folder 2 of the nested store has the child folder 3 and the document 4;
its deletion is refused for the subfolder. -/
theorem C23_children_reported_before_documents_witness :
    FolderResource.Delete parseDecimal 9 nestedStore "2" =
      (.error (NewHTTPError none "Cannot delete folder with subfolders" StatusBadRequest),
        nestedStore) :=
  (C23_children_reported_before_documents parseDecimal 9 nestedStore "2"
    { ID := 2, Name := "Inbox", UserID := 1, ParentID := none,
      CreatedAt := 2, UpdatedAt := 2, DeletedAt := none }
    (by decide) rfl (by decide)).1 (by decide) (by decide)

/-! ## Missing parent on update -/

/-- C24. For every store state and every folder update candidate whose `parent_id` names no
existing folder, `FolderResource.Update` fails with 404 and leaves the store unchanged: with
"Folder not found" when the candidate's own id names no folder, which is always the case when
`parent_id` equals the candidate's id, and with "Parent folder not found" otherwise. -/
theorem C24_update_missing_parent_not_found (now : Time) (newID : UUID) (db : DB) (c : Folder)
    (p : UUID) (hp : c.ParentID = some p) (hno : ¬ db.hasFolder p) :
    (¬ db.hasFolder c.ID →
      FolderResource.Update now newID db (.Folder c) =
        (.error (NewHTTPError (some .ErrRecordNotFound) "Folder not found" StatusNotFound),
          db)) ∧
    (db.hasFolder c.ID →
      FolderResource.Update now newID db (.Folder c) =
        (.error (NewHTTPError (some .ErrRecordNotFound) "Parent folder not found"
          StatusNotFound), db)) ∧
    (p = c.ID →
      FolderResource.Update now newID db (.Folder c) =
        (.error (NewHTTPError (some .ErrRecordNotFound) "Folder not found" StatusNotFound),
          db)) ∧
    (∃ e : HTTPError, e.status = StatusNotFound ∧
      FolderResource.Update now newID db (.Folder c) = (.error e, db)) := by
  have hmissing : ¬ db.hasFolder c.ID →
      FolderResource.Update now newID db (.Folder c) =
        (.error (NewHTTPError (some .ErrRecordNotFound) "Folder not found" StatusNotFound),
          db) := by
    intro hc
    have hF := First_error_of_absent db.folders c.ID (fun f hf hd hi => hc ⟨f, hf, hd, hi⟩)
    unfold FolderResource.Update
    simp only [hF]
    rfl
  have hparent : db.hasFolder c.ID →
      FolderResource.Update now newID db (.Folder c) =
        (.error (NewHTTPError (some .ErrRecordNotFound) "Parent folder not found"
          StatusNotFound), db) := by
    intro hc
    obtain ⟨E, hE⟩ := gorm.First_ok_of_exists db.folders c.ID hc
    have hne : ¬ p = c.ID := by
      intro h
      rw [h] at hno
      exact hno hc
    have hP := First_error_of_absent db.folders p (fun f hf hd hi => hno ⟨f, hf, hd, hi⟩)
    unfold FolderResource.Update
    simp only [hE, hp, hne, if_false, hP]
    rfl
  refine ⟨hmissing, hparent, ?_, ?_⟩
  · intro hself
    apply hmissing
    rw [← hself]
    exact hno
  · by_cases hc : db.hasFolder c.ID
    · exact ⟨_, rfl, hparent hc⟩
    · exact ⟨_, rfl, hmissing hc⟩

/-- C24, witness: in the library store folder 3 is moved under the missing folder 9, and the
missing folder 9 is made its own parent. -/
theorem C24_update_missing_parent_not_found_witness :
    FolderResource.Update 9 99 libraryStore
        (.Folder { ID := 3, Name := "Alice", UserID := 1, ParentID := some 9,
                   CreatedAt := 2, UpdatedAt := 2, DeletedAt := none }) =
      (.error (NewHTTPError (some .ErrRecordNotFound) "Parent folder not found"
        StatusNotFound), libraryStore) ∧
    FolderResource.Update 9 99 libraryStore
        (.Folder { ID := 9, Name := "Nine", UserID := 1, ParentID := some 9,
                   CreatedAt := 0, UpdatedAt := 0, DeletedAt := none }) =
      (.error (NewHTTPError (some .ErrRecordNotFound) "Folder not found" StatusNotFound),
        libraryStore) :=
  ⟨(C24_update_missing_parent_not_found 9 99 libraryStore
      { ID := 3, Name := "Alice", UserID := 1, ParentID := some 9,
        CreatedAt := 2, UpdatedAt := 2, DeletedAt := none } 9 rfl (by decide)).2.1 (by decide),
   (C24_update_missing_parent_not_found 9 99 libraryStore
      { ID := 9, Name := "Nine", UserID := 1, ParentID := some 9,
        CreatedAt := 0, UpdatedAt := 0, DeletedAt := none } 9 rfl (by decide)).2.2.1 rfl⟩

/-! ## Folder parents across owners -/

/-- C25. Folder parent ownership is not cross-checked: in the library store, with users 1 and
2 and folder 4 owned by user 2, `FolderResource.Create` of a folder owned by user 1 under
folder 4 succeeds with 201, and `FolderResource.Update` of folder 3, owned by user 1, to
`parent_id` = 4 succeeds with 200; both rows are stored with owner 1 and parent 4. -/
theorem C25_parent_owner_not_checked :
    ∃ (db : DB) (u1 u2 : User) (p f : Folder),
      u1 ∈ db.users ∧ u2 ∈ db.users ∧ u1.DeletedAt = none ∧ u2.DeletedAt = none ∧
      u1.ID ≠ u2.ID ∧
      p ∈ db.folders ∧ p.DeletedAt = none ∧ p.UserID = u2.ID ∧
      f ∈ db.folders ∧ f.DeletedAt = none ∧ f.UserID = u1.ID ∧
      FolderResource.Create 9 99 db
          (.Folder { ID := 0, Name := "Guest", UserID := u1.ID, ParentID := some p.ID,
                     CreatedAt := 0, UpdatedAt := 0, DeletedAt := none }) =
        (.ok { Res := some { ID := 99, Name := "Guest", UserID := u1.ID,
                             ParentID := some p.ID, CreatedAt := 9, UpdatedAt := 9,
                             DeletedAt := none }, Code := StatusCreated },
          { db with folders := db.folders ++
              [{ ID := 99, Name := "Guest", UserID := u1.ID, ParentID := some p.ID,
                 CreatedAt := 9, UpdatedAt := 9, DeletedAt := none }] }) ∧
      (FolderResource.Update 9 99 db (.Folder { f with ParentID := some p.ID })).1 =
        .ok { Res := some { f with ParentID := some p.ID, UpdatedAt := 9 },
              Code := StatusOK } ∧
      { f with ParentID := some p.ID, UpdatedAt := 9 } ∈
        (FolderResource.Update 9 99 db (.Folder { f with ParentID := some p.ID })).2.folders := by
  refine ⟨libraryStore,
    { ID := 1, Username := "alice", Email := "alice@example.com",
      CreatedAt := 1, UpdatedAt := 1, DeletedAt := none },
    { ID := 2, Username := "bob", Email := "bob@example.com",
      CreatedAt := 1, UpdatedAt := 1, DeletedAt := none },
    { ID := 4, Name := "Bob", UserID := 2, ParentID := none,
      CreatedAt := 2, UpdatedAt := 2, DeletedAt := none },
    { ID := 3, Name := "Alice", UserID := 1, ParentID := none,
      CreatedAt := 2, UpdatedAt := 2, DeletedAt := none }, ?_⟩
  decide

/-! ## Listings after a deletion -/

theorem folderFindAll_ok {parse : String → Option UUID} {db : DB} {req : Request}
    {r : Response (List Folder)} (h : FolderResource.FindAll parse db req = .ok r) :
    ∃ p, r = { Res := some (gorm.Find db.folders p), Code := 0 } := by
  unfold FolderResource.FindAll at h
  cases hqu : req.param "user_id" with
  | none =>
    cases hqp : req.param "parent_id" with
    | none =>
      simp only [hqu, hqp, Except.ok.injEq] at h
      exact ⟨_, h.symm⟩
    | some s =>
      by_cases hs : s = "null"
      · simp only [hqu, hqp, hs, if_true, Except.ok.injEq] at h
        exact ⟨_, h.symm⟩
      · cases hps : parse s with
        | none => simp only [hqu, hqp, hs, if_false, hps] at h; cases h
        | some j =>
          simp only [hqu, hqp, hs, if_false, hps, Except.ok.injEq] at h
          exact ⟨_, h.symm⟩
  | some t =>
    cases hpt : parse t with
    | none => simp only [hqu, hpt] at h; cases h
    | some k =>
      cases hqp : req.param "parent_id" with
      | none =>
        simp only [hqu, hpt, hqp, Except.ok.injEq] at h
        exact ⟨_, h.symm⟩
      | some s =>
        by_cases hs : s = "null"
        · simp only [hqu, hpt, hqp, hs, if_true, Except.ok.injEq] at h
          exact ⟨_, h.symm⟩
        · cases hps : parse s with
          | none => simp only [hqu, hpt, hqp, hs, if_false, hps] at h; cases h
          | some j =>
            simp only [hqu, hpt, hqp, hs, if_false, hps, Except.ok.injEq] at h
            exact ⟨_, h.symm⟩

theorem documentFindAll_ok {parse : String → Option UUID} {db : DB} {req : Request}
    {r : Response (List Document)} (h : DocumentResource.FindAll parse db req = .ok r) :
    ∃ p, r = { Res := some (gorm.Find db.documents p), Code := 0 } := by
  unfold DocumentResource.FindAll at h
  cases hqu : req.param "user_id" with
  | none =>
    cases hqp : req.param "folder_id" with
    | none =>
      simp only [hqu, hqp, Except.ok.injEq] at h
      exact ⟨_, h.symm⟩
    | some s =>
      by_cases hs : s = "null"
      · simp only [hqu, hqp, hs, if_true, Except.ok.injEq] at h
        exact ⟨_, h.symm⟩
      · cases hps : parse s with
        | none => simp only [hqu, hqp, hs, if_false, hps] at h; cases h
        | some j =>
          simp only [hqu, hqp, hs, if_false, hps, Except.ok.injEq] at h
          exact ⟨_, h.symm⟩
  | some t =>
    cases hpt : parse t with
    | none => simp only [hqu, hpt] at h; cases h
    | some k =>
      cases hqp : req.param "folder_id" with
      | none =>
        simp only [hqu, hpt, hqp, Except.ok.injEq] at h
        exact ⟨_, h.symm⟩
      | some s =>
        by_cases hs : s = "null"
        · simp only [hqu, hpt, hqp, hs, if_true, Except.ok.injEq] at h
          exact ⟨_, h.symm⟩
        · cases hps : parse s with
          | none => simp only [hqu, hpt, hqp, hs, if_false, hps] at h; cases h
          | some j =>
            simp only [hqu, hpt, hqp, hs, if_false, hps, Except.ok.injEq] at h
            exact ⟨_, h.symm⟩

theorem Find_of_buried {α : Type} [Model α] {rows : List α} {i : UUID} (p : α → Bool)
    (hb : buried i rows) : ∀ r ∈ gorm.Find rows p, Model.ID r ≠ i := by
  intro r hr hi
  unfold gorm.Find at hr
  rw [List.mem_filter] at hr
  obtain ⟨hm, hp⟩ := hr
  rw [Bool.and_eq_true] at hp
  exact hb.2 r hm hi ((gorm.live_iff r).1 hp.1)

/-- C21. After a successful `UserResource.Delete` of the user found under id `i`, every
`UserResource.FindAll` still lists that user, now carrying `deleted_at`, while `FindOne` of
the id answers 404; after a successful folder or document `Delete` no `FindAll` of that
resource, whatever its filters, lists an entity with id `i`, and the unfiltered listing
succeeds without it. -/
theorem C21_deleted_user_still_listed (parse : String → Option UUID) (now : Time) (db : DB)
    (id : String) (i : UUID) (hid : parse id = some i) :
    (∀ u, gorm.First db.users i = .ok u →
      succeeded (UserResource.Delete parse now db id) = true →
      (∀ req, ∃ L, UserResource.FindAll (UserResource.Delete parse now db id).2 req =
          .ok { Res := some L, Code := 0 } ∧ { u with DeletedAt := some now } ∈ L) ∧
      UserResource.FindOne parse (UserResource.Delete parse now db id).2 id =
        .error (NewHTTPError (some .ErrRecordNotFound) "User not found" StatusNotFound)) ∧
    (succeeded (FolderResource.Delete parse now db id) = true →
      (∀ req r L, FolderResource.FindAll parse (FolderResource.Delete parse now db id).2 req =
          .ok r → r.Res = some L → ∀ f ∈ L, f.ID ≠ i) ∧
      ∃ L, FolderResource.FindAll parse (FolderResource.Delete parse now db id).2
          { QueryParams := [] } = .ok { Res := some L, Code := 0 } ∧ ∀ f ∈ L, f.ID ≠ i) ∧
    (succeeded (DocumentResource.Delete parse now db id) = true →
      (∀ req r L, DocumentResource.FindAll parse
          (DocumentResource.Delete parse now db id).2 req = .ok r → r.Res = some L →
          ∀ d ∈ L, d.ID ≠ i) ∧
      ∃ L, DocumentResource.FindAll parse (DocumentResource.Delete parse now db id).2
          { QueryParams := [] } = .ok { Res := some L, Code := 0 } ∧ ∀ d ∈ L, d.ID ≠ i) := by
  refine ⟨?_, ?_, ?_⟩
  · intro u hu hs
    rcases userDelete_effect parse now db id with ⟨e, he⟩ | ⟨j, x, rows, hp, hx, hd, heq⟩
    · rw [he] at hs; cases hs
    · rw [hid] at hp
      cases hp
      rw [hu] at hx
      cases hx
      rw [heq]
      obtain ⟨hum, hud, hui⟩ := gorm.First_ok_spec hu
      obtain ⟨_, hrows⟩ := Delete_ok_rows hd
      constructor
      · intro req
        refine ⟨rows, rfl, ?_⟩
        rw [hrows, List.mem_map]
        refine ⟨u, hum, ?_⟩
        have hc : (gorm.live u && Model.ID u == Model.ID u) = true := by
          simp [(gorm.live_iff u).2 hud]
        rw [if_pos hc]
        rfl
      · obtain ⟨hF, _⟩ := buried_absent (buried_of_Delete hu hd)
        unfold UserResource.FindOne
        simp only [hid, hF]
        rfl
  · intro hs
    rcases folderDelete_effect parse now db id with
      ⟨e, he⟩ | ⟨j, x, rows, hp, hx, _, _, hd, heq⟩
    · rw [he] at hs; cases hs
    · rw [hid] at hp
      cases hp
      rw [heq]
      have hb : buried i rows := buried_of_Delete hx hd
      constructor
      · intro req r L hr hL
        obtain ⟨p, hrp⟩ := folderFindAll_ok hr
        rw [hrp] at hL
        simp only [Option.some.injEq] at hL
        rw [← hL]
        exact Find_of_buried p hb
      · exact ⟨_, rfl, Find_of_buried _ hb⟩
  · intro hs
    rcases documentDelete_effect parse now db id with
      ⟨e, he⟩ | ⟨j, x, rows, hp, hx, hd, heq⟩
    · rw [he] at hs; cases hs
    · rw [hid] at hp
      cases hp
      rw [heq]
      have hb : buried i rows := buried_of_Delete hx hd
      constructor
      · intro req r L hr hL
        obtain ⟨p, hrp⟩ := documentFindAll_ok hr
        rw [hrp] at hL
        simp only [Option.some.injEq] at hL
        rw [← hL]
        exact Find_of_buried p hb
      · exact ⟨_, rfl, Find_of_buried _ hb⟩

/-- C21, witness: bob (user 2) of the library store is deleted at time 9; the user listing
still shows him, with `deleted_at` = 9, and `FindOne` answers 404. -/
theorem C21_deleted_user_still_listed_witness :
    (∃ L, UserResource.FindAll (UserResource.Delete parseDecimal 9 libraryStore "2").2
          { QueryParams := [] } = .ok { Res := some L, Code := 0 } ∧
        ({ ID := 2, Username := "bob", Email := "bob@example.com",
           CreatedAt := 1, UpdatedAt := 1, DeletedAt := some 9 } : User) ∈ L) ∧
    UserResource.FindOne parseDecimal (UserResource.Delete parseDecimal 9 libraryStore "2").2
        "2" =
      .error (NewHTTPError (some .ErrRecordNotFound) "User not found" StatusNotFound) := by
  have h := (C21_deleted_user_still_listed parseDecimal 9 libraryStore "2" 2 (by decide)).1
    { ID := 2, Username := "bob", Email := "bob@example.com",
      CreatedAt := 1, UpdatedAt := 1, DeletedAt := none } (by decide) (by decide)
  exact ⟨h.1 { QueryParams := [] }, h.2⟩

/-! ## Stored keys are never nil -/

theorem keysSet_Create {α : Type} [Model α] {now : Time} {newID : UUID} {rows rows' : List α}
    {c x : α} (h : gorm.Create now newID rows c = .ok (x, rows'))
    (hx : Model.ID (gorm.prepareCreate now newID c) ≠ uuid.Nil) (hk : keysSet rows) :
    keysSet rows' := by
  obtain ⟨hxe, hrows, _⟩ := Create_ok_spec h
  intro r hr
  rw [hrows, List.mem_append, List.mem_singleton] at hr
  rcases hr with hr | hr
  · exact hk r hr
  · rw [hr, hxe]; exact hx

theorem keysSet_Save {α : Type} [Model α] [LawfulModel α] {now : Time} {newID : UUID}
    {rows rows' : List α} {c E x : α} (hE : gorm.First rows (Model.ID c) = .ok E)
    (h : gorm.Save now newID rows c = .ok (x, rows')) (hk : keysSet rows) :
    keysSet rows' := by
  obtain ⟨hEm, _, hEi⟩ := gorm.First_ok_spec hE
  have hnil : Model.ID c ≠ uuid.Nil := by
    rw [← hEi]; exact hk E hEm
  unfold gorm.Save at h
  rw [if_neg hnil] at h
  simp only [any_live_of_First hE, if_true] at h
  cases hv : gorm.updateViolation rows (Model.setUpdatedAt now c) with
  | some e => rw [hv] at h; cases h
  | none =>
    rw [hv] at h
    simp only [Except.ok.injEq, Prod.mk.injEq] at h
    obtain ⟨_, hrows⟩ := h
    intro r hr
    rw [← hrows, List.mem_map] at hr
    obtain ⟨r1, hr1, hr⟩ := hr
    split_ifs at hr
    · rw [← hr, LawfulModel.ID_setUpdatedAt]; exact hnil
    · rw [← hr]; exact hk r1 hr1

theorem keysSet_Delete {α : Type} [Model α] [LawfulModel α] {now : Time}
    {rows rows' : List α} {x : α} (h : gorm.Delete now rows x = .ok rows')
    (hk : keysSet rows) : keysSet rows' := by
  obtain ⟨_, hrows⟩ := Delete_ok_rows h
  intro r hr
  rw [hrows, List.mem_map] at hr
  obtain ⟨r1, hr1, hr⟩ := hr
  split_ifs at hr
  · rw [← hr, LawfulModel.ID_setDeletedAt]; exact hk r1 hr1
  · rw [← hr]; exact hk r1 hr1

theorem keysSet_step (parse : String → Option UUID) (db : DB) (op : Op)
    (hfresh : op.freshID = true) :
    (keysSet db.users → keysSet (op.apply parse db).users) ∧
    (keysSet db.folders → keysSet (op.apply parse db).folders) ∧
    (keysSet db.documents → keysSet (op.apply parse db).documents) := by
  have hid : ∀ newID : UUID, newID ≠ uuid.Nil → ∀ cid : UUID,
      (if cid = uuid.Nil then newID else cid) ≠ uuid.Nil := by
    intro newID hnew cid
    split_ifs with hn
    · exact hnew
    · exact hn
  cases op with
  | UserCreate now newID obj =>
    have hnew : newID ≠ uuid.Nil := by simpa [Op.freshID] using hfresh
    rcases userCreate_effect now newID db obj with ⟨e, he⟩ | ⟨c, x, rows, _, hc, heq⟩
    · simp only [Op.apply, he]; exact ⟨id, id, id⟩
    · simp only [Op.apply, heq]
      refine ⟨keysSet_Create hc ?_, id, id⟩
      show (gorm.prepareCreate now newID c).ID ≠ uuid.Nil
      rw [(prepareCreate_user now newID c).2.2.2]
      exact hid newID hnew c.ID
  | UserUpdate now newID obj =>
    rcases userUpdate_effect now newID db obj with
      ⟨e, he⟩ | ⟨c, E, x, rows, _, hE, hs, heq⟩
    · simp only [Op.apply, he]; exact ⟨id, id, id⟩
    · simp only [Op.apply, heq]; exact ⟨keysSet_Save hE hs, id, id⟩
  | UserDelete now sid =>
    rcases userDelete_effect parse now db sid with
      ⟨e, he⟩ | ⟨u, x, rows, _, _, hd, heq⟩
    · simp only [Op.apply, he]; exact ⟨id, id, id⟩
    · simp only [Op.apply, heq]; exact ⟨keysSet_Delete hd, id, id⟩
  | FolderCreate now newID obj =>
    have hnew : newID ≠ uuid.Nil := by simpa [Op.freshID] using hfresh
    rcases folderCreate_effect now newID db obj with
      ⟨e, he⟩ | ⟨c, x, rows, _, _, hc, heq⟩
    · simp only [Op.apply, he]; exact ⟨id, id, id⟩
    · simp only [Op.apply, heq]
      refine ⟨id, keysSet_Create hc ?_, id⟩
      show (gorm.prepareCreate now newID c).ID ≠ uuid.Nil
      rw [(prepareCreate_folder now newID c).2.2.2.2]
      exact hid newID hnew c.ID
  | FolderUpdate now newID obj =>
    rcases folderUpdate_effect now newID db obj with
      ⟨e, he⟩ | ⟨c, E, x, rows, _, hE, _, hs, heq⟩
    · simp only [Op.apply, he]; exact ⟨id, id, id⟩
    · simp only [Op.apply, heq]
      have hE' : gorm.First db.folders
          (Model.ID ({ c with UserID := E.UserID } : Folder)) = .ok E := hE
      exact ⟨id, keysSet_Save hE' hs, id⟩
  | FolderDelete now sid =>
    rcases folderDelete_effect parse now db sid with
      ⟨e, he⟩ | ⟨u, x, rows, _, _, _, _, hd, heq⟩
    · simp only [Op.apply, he]; exact ⟨id, id, id⟩
    · simp only [Op.apply, heq]; exact ⟨id, keysSet_Delete hd, id⟩
  | DocumentCreate now newID obj =>
    have hnew : newID ≠ uuid.Nil := by simpa [Op.freshID] using hfresh
    rcases documentCreate_effect now newID db obj with
      ⟨e, he⟩ | ⟨c, x, rows, _, _, hc, heq⟩
    · simp only [Op.apply, he]; exact ⟨id, id, id⟩
    · simp only [Op.apply, heq]
      refine ⟨id, id, keysSet_Create hc ?_⟩
      show (gorm.prepareCreate now newID c).ID ≠ uuid.Nil
      rw [(prepareCreate_document now newID c).2.2.2.2.2]
      exact hid newID hnew c.ID
  | DocumentUpdate now newID obj =>
    rcases documentUpdate_effect now newID db obj with
      ⟨e, he⟩ | ⟨c, E, x, rows, _, hE, _, hs, heq⟩
    · simp only [Op.apply, he]; exact ⟨id, id, id⟩
    · simp only [Op.apply, heq]
      have hE' : gorm.First db.documents
          (Model.ID ({ c with UserID := E.UserID } : Document)) = .ok E := hE
      exact ⟨id, id, keysSet_Save hE' hs⟩
  | DocumentDelete now sid =>
    rcases documentDelete_effect parse now db sid with
      ⟨e, he⟩ | ⟨u, x, rows, _, _, hd, heq⟩
    · simp only [Op.apply, he]; exact ⟨id, id, id⟩
    · simp only [Op.apply, heq]; exact ⟨id, id, keysSet_Delete hd⟩

theorem keysSet_run (parse : String → Option UUID) (ops : List Op) :
    ∀ db : DB, (∀ op ∈ ops, op.freshID = true) →
      keysSet db.users → keysSet db.folders → keysSet db.documents →
      keysSet (run parse ops db).users ∧ keysSet (run parse ops db).folders ∧
        keysSet (run parse ops db).documents := by
  induction ops with
  | nil => intro db _ h1 h2 h3; exact ⟨h1, h2, h3⟩
  | cons op ops ih =>
    intro db hfresh h1 h2 h3
    obtain ⟨k1, k2, k3⟩ := keysSet_step parse db op (hfresh op (List.mem_cons_self _ _))
    exact ih (op.apply parse db) (fun o ho => hfresh o (List.mem_cons_of_mem _ ho))
      (k1 h1) (k2 h2) (k3 h3)

/-- In every store state reachable from the empty store no user, folder or document row has
the nil UUID as id: the `BeforeCreate` hooks fill it before every insert. -/
theorem reachable_keysSet (parse : String → Option UUID) (db : DB)
    (hreach : Reachable parse db) :
    keysSet db.users ∧ keysSet db.folders ∧ keysSet db.documents := by
  obtain ⟨ops, hfresh, hrun⟩ := hreach
  rw [← hrun]
  exact keysSet_run parse ops DB.empty hfresh
    (fun r hr => by cases hr) (fun r hr => by cases hr) (fun r hr => by cases hr)

/-! ## User deletion has no guard -/

/-- C26. For every store state and every existing user `u` (stored ids are never the nil
UUID), `UserResource.Delete` of `u`'s id succeeds with 204, whatever folders and documents
name `u` as owner, and the folder and document tables are left exactly as they were. -/
theorem C26_user_delete_unguarded (parse : String → Option UUID) (now : Time) (db : DB)
    (id : String) (u : User) (hu : u ∈ db.users) (hlive : u.DeletedAt = none)
    (hid : parse id = some u.ID) (hkey : u.ID ≠ uuid.Nil) :
    (UserResource.Delete parse now db id).1 = .ok { Res := none, Code := StatusNoContent } ∧
    (UserResource.Delete parse now db id).2.folders = db.folders ∧
    (UserResource.Delete parse now db id).2.documents = db.documents := by
  obtain ⟨u', hu'⟩ := gorm.First_ok_of_exists db.users u.ID ⟨u, hu, hlive, rfl⟩
  have hi : Model.ID u' = u.ID := (gorm.First_ok_spec hu').2.2
  have hk : ¬ Model.ID u' = uuid.Nil := by rw [hi]; exact hkey
  unfold UserResource.Delete
  simp only [hid, hu', gorm.Delete, hk, if_false]
  exact ⟨trivial, trivial, trivial⟩

/-- C26, witness: alice (user 1) of the library store owns folder 3 and document 5; her
deletion succeeds and both tables are untouched. -/
theorem C26_user_delete_unguarded_witness :
    (UserResource.Delete parseDecimal 9 libraryStore "1").1 =
      .ok { Res := none, Code := StatusNoContent } ∧
    (UserResource.Delete parseDecimal 9 libraryStore "1").2.folders = libraryStore.folders ∧
    (UserResource.Delete parseDecimal 9 libraryStore "1").2.documents =
      libraryStore.documents :=
  C26_user_delete_unguarded parseDecimal 9 libraryStore "1"
    { ID := 1, Username := "alice", Email := "alice@example.com",
      CreatedAt := 1, UpdatedAt := 1, DeletedAt := none }
    (by decide) rfl (by decide) (by decide)

/-! ## Deleting a child, then its parent -/

/-- C22. For every store state in which the existing folder `f1` has the existing folder `f2`
as its only live child, `f2` has no live child, and no live document lies in either (stored
ids are never the nil UUID): `Delete` of `f1` fails with 400 "Cannot delete folder with
subfolders" and changes nothing, `Delete` of `f2` then succeeds with 204, and after it
`Delete` of `f1` succeeds with 204. -/
theorem C22_child_then_parent_deletable (parse : String → Option UUID) (t1 t2 t3 : Time)
    (db : DB) (s1 s2 : String) (f1 f2 : Folder)
    (h1 : f1 ∈ db.folders) (h1l : f1.DeletedAt = none)
    (h2 : f2 ∈ db.folders) (h2l : f2.DeletedAt = none)
    (hp1 : parse s1 = some f1.ID) (hp2 : parse s2 = some f2.ID)
    (hk1 : f1.ID ≠ uuid.Nil) (hk2 : f2.ID ≠ uuid.Nil)
    (hchild : f2.ParentID = some f1.ID)
    (honly : ∀ c ∈ db.folders, c.DeletedAt = none → c.ParentID = some f1.ID → c.ID = f2.ID)
    (hleaf : ∀ c ∈ db.folders, c.DeletedAt = none → c.ParentID ≠ some f2.ID)
    (hdocs : ∀ d ∈ db.documents, d.DeletedAt = none →
      d.FolderID ≠ some f1.ID ∧ d.FolderID ≠ some f2.ID) :
    FolderResource.Delete parse t1 db s1 =
      (.error (NewHTTPError none "Cannot delete folder with subfolders" StatusBadRequest),
        db) ∧
    (FolderResource.Delete parse t2 db s2).1 =
      .ok { Res := none, Code := StatusNoContent } ∧
    (FolderResource.Delete parse t3 (FolderResource.Delete parse t2 db s2).2 s1).1 =
      .ok { Res := none, Code := StatusNoContent } := by
  obtain ⟨a, ha⟩ := gorm.First_ok_of_exists db.folders f1.ID ⟨f1, h1, h1l, rfl⟩
  obtain ⟨b, hb⟩ := gorm.First_ok_of_exists db.folders f2.ID ⟨f2, h2, h2l, rfl⟩
  have hne : f1.ID ≠ f2.ID := by
    intro h
    apply hleaf f2 h2 h2l
    rw [hchild, h]
  have hdoc1 : ¬ gorm.Count db.documents (fun d => d.FolderID == some f1.ID) > 0 := by
    rw [Count_pos_iff]
    rintro ⟨d, hd, hl, hp⟩
    exact (hdocs d hd hl).1 (by simpa using hp)
  have hdoc2 : ¬ gorm.Count db.documents (fun d => d.FolderID == some f2.ID) > 0 := by
    rw [Count_pos_iff]
    rintro ⟨d, hd, hl, hp⟩
    exact (hdocs d hd hl).2 (by simpa using hp)
  have hsub1 : gorm.Count db.folders (fun c => c.ParentID == some f1.ID) > 0 := by
    rw [Count_pos_iff]
    exact ⟨f2, h2, h2l, by simp [hchild]⟩
  have hsub2 : ¬ gorm.Count db.folders (fun c => c.ParentID == some f2.ID) > 0 := by
    rw [Count_pos_iff]
    rintro ⟨c, hc, hl, hp⟩
    exact hleaf c hc hl (by simpa using hp)
  have hstep2 : FolderResource.Delete parse t2 db s2 =
      (.ok { Res := none, Code := StatusNoContent },
        { db with folders := db.folders.map (fun r =>
            if gorm.live r && r.ID == f2.ID then { r with DeletedAt := some t2 } else r) }) := by
    rw [Delete_folder_cases parse t2 db s2 f2.ID b hp2 hb, if_neg hsub2, if_neg hdoc2,
      if_neg hk2]
  refine ⟨?_, ?_, ?_⟩
  · rw [Delete_folder_cases parse t1 db s1 f1.ID a hp1 ha, if_pos hsub1]
  · rw [hstep2]
  · rw [hstep2]
    have hmem : f1 ∈ db.folders.map (fun r =>
        if gorm.live r && r.ID == f2.ID then { r with DeletedAt := some t2 } else r) := by
      rw [List.mem_map]
      refine ⟨f1, h1, ?_⟩
      have hc : ¬ (gorm.live f1 && f1.ID == f2.ID) = true := by
        simp [hne]
      rw [if_neg hc]
    obtain ⟨a', ha'⟩ := gorm.First_ok_of_exists
      (db.folders.map (fun r =>
        if gorm.live r && r.ID == f2.ID then { r with DeletedAt := some t2 } else r))
      f1.ID ⟨f1, hmem, h1l, rfl⟩
    have hsub3 : ¬ gorm.Count (db.folders.map (fun r =>
        if gorm.live r && r.ID == f2.ID then { r with DeletedAt := some t2 } else r))
        (fun c => c.ParentID == some f1.ID) > 0 := by
      rw [Count_pos_iff]
      rintro ⟨c, hc, hl, hp⟩
      rw [List.mem_map] at hc
      obtain ⟨r, hr, hrc⟩ := hc
      by_cases hcond : (gorm.live r && r.ID == f2.ID) = true
      · rw [if_pos hcond] at hrc
        rw [← hrc] at hl
        cases hl
      · rw [if_neg hcond] at hrc
        rw [← hrc] at hl hp
        apply hcond
        have hrl : gorm.live r = true := (gorm.live_iff r).2 hl
        have hrid : r.ID = f2.ID := honly r hr hl (by simpa using hp)
        simp [hrl, hrid]
    rw [Delete_folder_cases parse t3 _ s1 f1.ID a' hp1 ha', if_neg hsub3, if_neg hdoc1,
      if_neg hk1]

/-- C22, witness: in the folder test store folder 3 has the single child 4; deleting 3 is
refused, deleting 4 succeeds, and then deleting 3 succeeds. -/
theorem C22_child_then_parent_deletable_witness :
    FolderResource.Delete parseDecimal 6 folderTestStore "3" =
      (.error (NewHTTPError none "Cannot delete folder with subfolders" StatusBadRequest),
        folderTestStore) ∧
    (FolderResource.Delete parseDecimal 7 folderTestStore "4").1 =
      .ok { Res := none, Code := StatusNoContent } ∧
    (FolderResource.Delete parseDecimal 8
        (FolderResource.Delete parseDecimal 7 folderTestStore "4").2 "3").1 =
      .ok { Res := none, Code := StatusNoContent } :=
  C22_child_then_parent_deletable parseDecimal 6 7 8 folderTestStore "3" "4"
    { ID := 3, Name := "Updated Folder", UserID := 1, ParentID := none,
      CreatedAt := 0, UpdatedAt := 5, DeletedAt := none }
    { ID := 4, Name := "Child Folder", UserID := 1, ParentID := some 3,
      CreatedAt := 4, UpdatedAt := 4, DeletedAt := none }
    (by decide) rfl (by decide) rfl (by decide) (by decide) (by decide) (by decide) rfl
    (by decide) (by decide) (by decide)

/-! ## The graph invariants away from the soft-delete column -/

theorem foldersWellParented_iff (db : DB) :
    db.foldersWellParented = true ↔ db.parentsLive := by
  unfold DB.foldersWellParented DB.parentsLive DB.hasFolder
  rw [List.all_eq_true]
  constructor
  · intro h f hf hl p hp
    have := h f hf
    simp only [hl, hp, Option.isSome_none, Bool.false_or, List.any_eq_true,
      Bool.and_eq_true, beq_iff_eq] at this
    obtain ⟨g, hg, hgl, hgi⟩ := this
    exact ⟨g, hg, by simpa using hgl, hgi⟩
  · intro h f hf
    cases hl : f.DeletedAt with
    | some t => simp
    | none =>
      cases hp : f.ParentID with
      | none => simp
      | some p =>
        obtain ⟨g, hg, hgl, hgi⟩ := h f hf hl p hp
        simp only [Option.isSome_none, Bool.false_or, List.any_eq_true, Bool.and_eq_true,
          beq_iff_eq]
        exact ⟨g, hg, by simp [hgl], hgi⟩

theorem hasFolder_append {db : DB} {p : UUID} (more : List Folder) (h : db.hasFolder p) :
    ({ db with folders := db.folders ++ more } : DB).hasFolder p := by
  obtain ⟨g, hg, hl, hi⟩ := h
  exact ⟨g, List.mem_append_left _ hg, hl, hi⟩

theorem hasFolder_of_First {db : DB} {p : UUID} {P : Folder}
    (h : gorm.First db.folders p = .ok P) : db.hasFolder p := by
  obtain ⟨hm, hl, hi⟩ := gorm.First_ok_spec h
  exact ⟨P, hm, hl, hi⟩

theorem parentsLive_append {db : DB} {x : Folder} (h : db.parentsLive)
    (hx : ∀ p, x.ParentID = some p → db.hasFolder p) :
    ({ db with folders := db.folders ++ [x] } : DB).parentsLive := by
  intro f hf hl p hp
  have hf' : f ∈ db.folders ++ [x] := hf
  rw [List.mem_append, List.mem_singleton] at hf'
  rcases hf' with hf' | hf'
  · exact hasFolder_append [x] (h f hf' hl p hp)
  · rw [hf'] at hp
    exact hasFolder_append [x] (hx p hp)

theorem parentsLive_step (parse : String → Option UUID) (db : DB) (op : Op)
    (hop : op.leavesDeletedAt = true) (h : db.parentsLive) :
    (op.apply parse db).parentsLive := by
  cases op with
  | UserCreate now newID obj =>
    rcases userCreate_effect now newID db obj with ⟨e, he⟩ | ⟨c, x, rows, _, _, heq⟩
    · simp only [Op.apply, he]; exact h
    · simp only [Op.apply, heq]; exact h
  | UserUpdate now newID obj =>
    rcases userUpdate_effect now newID db obj with
      ⟨e, he⟩ | ⟨c, E, x, rows, _, _, _, heq⟩
    · simp only [Op.apply, he]; exact h
    · simp only [Op.apply, heq]; exact h
  | UserDelete now sid =>
    rcases userDelete_effect parse now db sid with ⟨e, he⟩ | ⟨u, x, rows, _, _, _, heq⟩
    · simp only [Op.apply, he]; exact h
    · simp only [Op.apply, heq]; exact h
  | DocumentCreate now newID obj =>
    rcases documentCreate_effect now newID db obj with
      ⟨e, he⟩ | ⟨c, x, rows, _, _, _, heq⟩
    · simp only [Op.apply, he]; exact h
    · simp only [Op.apply, heq]; exact h
  | DocumentUpdate now newID obj =>
    rcases documentUpdate_effect now newID db obj with
      ⟨e, he⟩ | ⟨c, E, x, rows, _, _, _, _, heq⟩
    · simp only [Op.apply, he]; exact h
    · simp only [Op.apply, heq]; exact h
  | DocumentDelete now sid =>
    rcases documentDelete_effect parse now db sid with
      ⟨e, he⟩ | ⟨u, x, rows, _, _, _, heq⟩
    · simp only [Op.apply, he]; exact h
    · simp only [Op.apply, heq]; exact h
  | FolderCreate now newID obj =>
    rcases folderCreate_effect now newID db obj with
      ⟨e, he⟩ | ⟨c, x, rows, _, hpar, hc, heq⟩
    · simp only [Op.apply, he]; exact h
    · simp only [Op.apply, heq]
      obtain ⟨hx, hrows, _⟩ := Create_ok_spec hc
      rw [hrows]
      apply parentsLive_append h
      intro p hp
      rw [hx, (prepareCreate_folder now newID c).2.2.1] at hp
      obtain ⟨Pf, hP⟩ := hpar p hp
      exact hasFolder_of_First hP
  | FolderUpdate now newID obj =>
    rcases folderUpdate_effect now newID db obj with
      ⟨e, he⟩ | ⟨c, E, saved, rows, hobj, hE, hpar, hs, heq⟩
    · simp only [Op.apply, he]; exact h
    · simp only [Op.apply, heq]
      have hE' : gorm.First db.folders ({ c with UserID := E.UserID } : Folder).ID = .ok E := hE
      rw [Save_folder_of_First now newID hE'] at hs
      by_cases hnil : c.ID = uuid.Nil
      · simp only [hnil, if_true] at hs
        obtain ⟨hx, hrows, _⟩ := Create_ok_spec hs
        rw [hrows]
        apply parentsLive_append h
        intro p hp
        rw [hx, (prepareCreate_folder now newID _).2.2.1] at hp
        obtain ⟨_, Pf, hP⟩ := hpar p hp
        exact hasFolder_of_First hP
      · simp only [hnil, if_false, Except.ok.injEq, Prod.mk.injEq] at hs
        obtain ⟨hx, hrows⟩ := hs
        have hcl : c.DeletedAt = none := by
          rw [hobj] at hop
          simpa [Op.leavesDeletedAt] using hop
        have hkeep : ∀ p, db.hasFolder p →
            ({ db with folders := rows } : DB).hasFolder p := by
          rintro p ⟨g, hg, hgl, hgi⟩
          by_cases hc : (gorm.live g && g.ID == c.ID) = true
          · refine ⟨saved, ?_, ?_, ?_⟩
            · show saved ∈ rows
              rw [← hrows, List.mem_map]
              exact ⟨g, hg, by rw [if_pos hc, hx]⟩
            · rw [← hx]; exact hcl
            · rw [← hx, ← hgi]
              simp only [Bool.and_eq_true, beq_iff_eq] at hc
              exact hc.2.symm
          · refine ⟨g, ?_, hgl, hgi⟩
            show g ∈ rows
            rw [← hrows, List.mem_map]
            exact ⟨g, hg, by rw [if_neg hc]⟩
        intro f hf hl p hp
        have hf' : f ∈ rows := hf
        rw [← hrows, List.mem_map] at hf'
        obtain ⟨r0, hr0, hf0⟩ := hf'
        split_ifs at hf0
        · rw [← hf0] at hp
          obtain ⟨_, Pf, hP⟩ := hpar p hp
          exact hkeep p (hasFolder_of_First hP)
        · rw [← hf0] at hl hp
          exact hkeep p (h r0 hr0 hl p hp)
  | FolderDelete now sid =>
    rcases folderDelete_effect parse now db sid with
      ⟨e, he⟩ | ⟨uid, x, rows, _, hx, hcnt, _, hd, heq⟩
    · simp only [Op.apply, he]; exact h
    · simp only [Op.apply, heq]
      obtain ⟨_, hrows⟩ := Delete_ok_rows hd
      have hxi : x.ID = uid := (gorm.First_ok_spec hx).2.2
      rw [gorm.Count_eq_zero_iff] at hcnt
      intro f hf hl p hp
      have hf' : f ∈ rows := hf
      rw [hrows, List.mem_map] at hf'
      obtain ⟨r0, hr0, hf0⟩ := hf'
      by_cases hc0 : (gorm.live r0 && Model.ID r0 == Model.ID x) = true
      · rw [if_pos hc0] at hf0
        rw [← hf0] at hl
        cases hl
      · rw [if_neg hc0] at hf0
        rw [← hf0] at hl hp
        obtain ⟨g, hg, hgl, hgi⟩ := h r0 hr0 hl p hp
        have hpu : p ≠ uid := by
          intro hpu
          have := hcnt r0 hr0 hl
          rw [hp, hpu] at this
          simp at this
        refine ⟨g, ?_, hgl, hgi⟩
        show g ∈ rows
        rw [hrows, List.mem_map]
        refine ⟨g, hg, ?_⟩
        have hcg : ¬ (gorm.live g && Model.ID g == Model.ID x) = true := by
          intro hcg
          simp only [Bool.and_eq_true, beq_iff_eq] at hcg
          apply hpu
          rw [← hgi, ← hxi]
          exact hcg.2
        rw [if_neg hcg]

theorem parentsLive_run (parse : String → Option UUID) (ops : List Op) :
    ∀ db : DB, (∀ op ∈ ops, op.leavesDeletedAt = true) → db.parentsLive →
      (run parse ops db).parentsLive := by
  induction ops with
  | nil => intro db _ h; exact h
  | cons op ops ih =>
    intro db hops h
    exact ih (op.apply parse db) (fun o ho => hops o (List.mem_cons_of_mem _ ho))
      (parentsLive_step parse db op (hops op (List.mem_cons_self _ _)) h)

/-- Away from the soft-delete column the folder tree stays well-parented: after any sequence
of controller calls from the empty store in which no folder update carries `deleted_at`,
every non-deleted folder with a `parent_id` references a non-deleted folder. -/
theorem foldersWellParented_without_deleted_at (parse : String → Option UUID)
    (ops : List Op) (hops : ∀ op ∈ ops, op.leavesDeletedAt = true) :
    (run parse ops DB.empty).foldersWellParented = true := by
  rw [foldersWellParented_iff]
  exact parentsLive_run parse ops DB.empty hops (fun f hf => by cases hf)

end Srv
